import Mathlib

/-!
# DCF77 decoder (`dcf77.c`, `dcf77.h`): shallow embedding and verified properties

The driver keeps its whole state in file-scope statics and in two function-local
statics of `dcf77_1ms_task`.  Here that state is one record, `State`, and every
C function becomes a pure function on it.  Machine integers are natural numbers;
every assignment to a `uint8` / `uint16` object is followed by an explicit
`% 256` / `% 65536`.
-/

namespace DCF77

/-! ## Constants of `dcf77.h` -/

def DCF77_BIT_LOW_MIN : Nat := 60
def DCF77_BIT_LOW_MAX : Nat := 140
def DCF77_BIT_HIGH_MIN : Nat := 160
def DCF77_BIT_HIGH_MAX : Nat := 240
def DCF77_BIT_IDLE_MIN : Nat := 1000 - DCF77_BIT_HIGH_MAX
def DCF77_BIT_IDLE_MAX : Nat := 1000 - DCF77_BIT_LOW_MIN
def DCF77_SIG_START_MIN : Nat := 1600
def DCF77_SIG_START_MAX : Nat := 2200
def DCF77_DEBOUNCE_TIME : Nat := 35
def DCF77_SYNC_WAIT : Nat := 0
def DCF77_SYNC_FIRST : Nat := 1
def DCF77_SYNC_OK : Nat := 2
def FALSE : Nat := 0
def TRUE : Nat := 1

/-! ## Macros of `dcf77.c` -/

/-- The macro `bit_test(D,i)`, that is `((D) & (0x01 << (i)))`. -/
def bit_test (D i : Nat) : Nat := D &&& (0x01 <<< i)

/-- The macro `bcd_to_dec(D)`, that is `((((D) & 0xF0) >> 4) * 10 + ((D) & 0x0F))`. -/
def bcd_to_dec (D : Nat) : Nat := ((D &&& 0xF0) >>> 4) * 10 + (D &&& 0x0F)

/-- C logical negation `!x` on an integer. -/
def lnot (x : Nat) : Nat := if x = 0 then 1 else 0

/-- The macro `check_parity(A,B)`, that is `((!(A)) == (!(B)))`. -/
def check_parity (A B : Nat) : Nat := if lnot A = lnot B then 1 else 0

/-! ## Data model -/

/-- An array `uint8 x[8]`. -/
structure Frame where
  b0 : Nat
  b1 : Nat
  b2 : Nat
  b3 : Nat
  b4 : Nat
  b5 : Nat
  b6 : Nat
  b7 : Nat
deriving DecidableEq

/-- Array read `x[i]`. -/
def Frame.get (f : Frame) (i : Nat) : Nat :=
  match i with
  | 0 => f.b0
  | 1 => f.b1
  | 2 => f.b2
  | 3 => f.b3
  | 4 => f.b4
  | 5 => f.b5
  | 6 => f.b6
  | 7 => f.b7
  | _ => 0

/-- Array write `x[i] = v` (indices outside `0..7` are not part of the array). -/
def Frame.set (f : Frame) (i v : Nat) : Frame :=
  match i with
  | 0 => { f with b0 := v }
  | 1 => { f with b1 := v }
  | 2 => { f with b2 := v }
  | 3 => { f with b3 := v }
  | 4 => { f with b4 := v }
  | 5 => { f with b5 := v }
  | 6 => { f with b6 := v }
  | 7 => { f with b7 := v }
  | _ => f

/-- The statics of `dcf77.c`, together with the two function-local statics
`debcnt` and `pindeb_b` of `dcf77_1ms_task`. -/
structure State where
  /-- Debounced pin level seen by the decoder at the previous tick. -/
  dcf77_pinold_b : Nat
  /-- New data flag. -/
  dcf77_newdata_b : Nat
  /-- Current bit position. -/
  dcf77_bitpos_u8 : Nat
  /-- Millisecond counter (16 bit). -/
  dcf77_cntms_u16 : Nat
  /-- Frame that is being sampled. -/
  dfc77_datatmp_au8 : Frame
  /-- Published frame. -/
  dcf77_data_au8 : Frame
  /-- Synchronisation state. -/
  dcf77_sync_u8 : Nat
  /-- Debounce counter. -/
  debcnt : Nat
  /-- Debounced pin level. -/
  pindeb_b : Nat
deriving DecidableEq

/-- The all-zero array. -/
def Frame.zero : Frame := ⟨0, 0, 0, 0, 0, 0, 0, 0⟩

/-- State after static initialisation: everything zero, `sync = DCF77_SYNC_WAIT`. -/
def State.init : State :=
  { dcf77_pinold_b := FALSE
    dcf77_newdata_b := FALSE
    dcf77_bitpos_u8 := 0
    dcf77_cntms_u16 := 0
    dfc77_datatmp_au8 := Frame.zero
    dcf77_data_au8 := Frame.zero
    dcf77_sync_u8 := DCF77_SYNC_WAIT
    debcnt := 0
    pindeb_b := 0 }

/-! ## Status and field accessors -/

def dcf77_get_status (s : State) : Nat := s.dcf77_sync_u8

def dcf77_get_sync (s : State) : Nat :=
  if s.dcf77_sync_u8 = DCF77_SYNC_OK then 1 else 0

def dcf77_get_min (s : State) : Nat :=
  let data1 := ((s.dcf77_data_au8.get 2 &&& 0xE0) >>> 5) % 256
  let data2 := ((s.dcf77_data_au8.get 3 &&& 0x0F) <<< 3) % 256
  let data1 := (data1 ||| data2) % 256
  bcd_to_dec data1 % 256

def dcf77_get_hrs (s : State) : Nat :=
  let data1 := ((s.dcf77_data_au8.get 3 &&& 0xE0) >>> 5) % 256
  let data2 := ((s.dcf77_data_au8.get 4 &&& 0x07) <<< 3) % 256
  let data1 := (data1 ||| data2) % 256
  bcd_to_dec data1 % 256

def dcf77_get_day (s : State) : Nat :=
  let data1 := ((s.dcf77_data_au8.get 4 &&& 0xF0) >>> 4) % 256
  let data2 := ((s.dcf77_data_au8.get 5 &&& 0x03) <<< 4) % 256
  let data1 := (data1 ||| data2) % 256
  bcd_to_dec data1 % 256

def dcf77_get_dow (s : State) : Nat :=
  let data := ((s.dcf77_data_au8.get 5 >>> 2) &&& 0x7) % 256
  data

def dcf77_get_month (s : State) : Nat :=
  let data1 := ((s.dcf77_data_au8.get 5 &&& 0xE0) >>> 5) % 256
  let data2 := ((s.dcf77_data_au8.get 6 &&& 0x03) <<< 3) % 256
  let data1 := (data1 ||| data2) % 256
  bcd_to_dec data1 % 256

def dcf77_get_year (s : State) : Nat :=
  let data1 := ((s.dcf77_data_au8.get 6 &&& 0xFC) >>> 2) % 256
  let data2 := ((s.dcf77_data_au8.get 7 &&& 0x03) <<< 6) % 256
  let year := (bcd_to_dec (data1 ||| data2) + 2000) % 65536
  year

/-! ## Parity helpers -/

/-- Byte parity, `calc_parity`. -/
def calc_parity (n : Nat) : Nat :=
  let p := (n <<< 4) % 256
  let p := (p ^^^ n) % 256
  let n := (p <<< 2) % 256
  let p := (p ^^^ n) % 256
  let p := (p + 0x40) % 256
  p &&& 0x80

/-- Running count of one-bits, `calc_parity_part`. -/
def calc_parity_part (n prev : Nat) : Nat :=
  let p := prev
  let p := if n &&& 0x1 ≠ 0 then (p + 1) % 256 else p
  let p := if n &&& 0x2 ≠ 0 then (p + 1) % 256 else p
  let p := if n &&& 0x4 ≠ 0 then (p + 1) % 256 else p
  let p := if n &&& 0x8 ≠ 0 then (p + 1) % 256 else p
  let p := if n &&& 0x10 ≠ 0 then (p + 1) % 256 else p
  let p := if n &&& 0x20 ≠ 0 then (p + 1) % 256 else p
  let p := if n &&& 0x40 ≠ 0 then (p + 1) % 256 else p
  let p := if n &&& 0x80 ≠ 0 then (p + 1) % 256 else p
  p

/-! ## The validator `dcf77_newdata` -/

/-- The value of `valid` when control reaches the label `invalidparity`
(every `goto invalidparity` is an early exit with the current `valid`). -/
def dcf77_newdata_valid (s : State) : Nat :=
  if s.dcf77_sync_u8 = DCF77_SYNC_OK ∧
      lnot (bit_test (s.dcf77_data_au8.get 0) 0) ≠ 0 ∧
      bit_test (s.dcf77_data_au8.get 2) 4 ≠ 0 then
    -- check for valid minute
    let data1 := ((s.dcf77_data_au8.get 2 &&& 0xE0) >>> 5) % 256
    let data2 := ((s.dcf77_data_au8.get 3 &&& 0x0F) <<< 3) % 256
    let data := (data1 ||| data2) % 256
    let parity := calc_parity data
    let valid := check_parity parity (bit_test (s.dcf77_data_au8.get 3) 4)
    let valid := if data > 0x59 then FALSE else valid
    if lnot valid ≠ 0 then valid
    else
      -- check for valid hour
      let data1 := ((s.dcf77_data_au8.get 3 &&& 0xE0) >>> 5) % 256
      let data2 := ((s.dcf77_data_au8.get 4 &&& 0x07) <<< 3) % 256
      let data := (data1 ||| data2) % 256
      let parity := calc_parity data
      let valid := check_parity parity (bit_test (s.dcf77_data_au8.get 4) 3)
      let valid := if data > 0x23 then FALSE else valid
      if lnot valid ≠ 0 then valid
      else
        -- check for valid date
        let parity := 0
        -- day
        let data1 := ((s.dcf77_data_au8.get 4 &&& 0xF0) >>> 4) % 256
        let data2 := ((s.dcf77_data_au8.get 5 &&& 0x03) <<< 4) % 256
        let data := (data1 ||| data2) % 256
        if data > 0x31 then FALSE
        else
          let parity := calc_parity_part data parity
          -- dow
          let data := dcf77_get_dow s
          if data > 0x7 then FALSE
          else
            let parity := calc_parity_part data parity
            -- month
            let data1 := ((s.dcf77_data_au8.get 5 &&& 0xE0) >>> 5) % 256
            let data2 := ((s.dcf77_data_au8.get 6 &&& 0x03) <<< 3) % 256
            let data := (data1 ||| data2) % 256
            if data > 0x12 then FALSE
            else
              let parity := calc_parity_part data parity
              -- year
              let data1 := ((s.dcf77_data_au8.get 6 &&& 0xFC) >>> 2) % 256
              let data2 := ((s.dcf77_data_au8.get 7 &&& 0x03) <<< 6) % 256
              let parity := calc_parity_part ((data1 ||| data2) % 256) parity
              check_parity (parity &&& 1) (bit_test (s.dcf77_data_au8.get 7) 2)
  else FALSE

/-- The function `dcf77_newdata`: the returned value and the state it leaves. -/
def dcf77_newdata (s : State) : Nat × State :=
  let valid := dcf77_newdata_valid s
  -- if data is valid and new data available
  let valid := if valid ≠ 0 ∧ s.dcf77_newdata_b ≠ 0 then TRUE else FALSE
  -- reset new data flag
  (valid, { s with dcf77_newdata_b := FALSE })

/-! ## The 1 ms task -/

/-- The debounce block of `dcf77_1ms_task`. -/
def debounce (s : State) (pin_b : Nat) : State :=
  if pin_b = s.pindeb_b then
    { s with debcnt := 0 }
  else
    let s := { s with debcnt := (s.debcnt + 1) % 256 }
    if s.debcnt ≥ DCF77_DEBOUNCE_TIME then
      { s with pindeb_b := pin_b, debcnt := 0 }
    else s

/-- The copy loop `for (index=0;index<sizeof(dcf77_data_au8);index++)`. -/
def copy_frame (dst src : Frame) : Frame :=
  (List.range 8).foldl (fun d index => d.set index (src.get index)) dst

/-- The falling-edge branch of `dcf77_1ms_task` (counter already incremented). -/
def falling_edge (s : State) : State :=
  -- check for start
  if s.dcf77_cntms_u16 > DCF77_SIG_START_MIN ∧ s.dcf77_cntms_u16 < DCF77_SIG_START_MAX then
    let s :=
      if s.dcf77_sync_u8 = DCF77_SYNC_WAIT then
        { s with dcf77_sync_u8 := DCF77_SYNC_FIRST }
      else if s.dcf77_sync_u8 ≥ DCF77_SYNC_FIRST ∧ s.dcf77_bitpos_u8 = 59 then
        { s with
          dcf77_sync_u8 := DCF77_SYNC_OK
          dcf77_data_au8 := copy_frame s.dcf77_data_au8 s.dfc77_datatmp_au8
          dcf77_newdata_b := TRUE }
      else
        { s with dcf77_sync_u8 := DCF77_SYNC_WAIT }
    { s with dcf77_bitpos_u8 := 0 }
  -- check for invalid idle time
  else if s.dcf77_cntms_u16 < DCF77_BIT_IDLE_MIN ∨ s.dcf77_cntms_u16 > DCF77_BIT_IDLE_MAX then
    { s with dcf77_sync_u8 := DCF77_SYNC_WAIT }
  else
    s

/-- Pulse-width classification at a rising edge: the value given to `data_b`
(`none` when the source leaves it unassigned) and whether `sync` is reset. -/
def classify (cnt : Nat) : Option Nat :=
  if cnt > DCF77_BIT_LOW_MIN ∧ cnt < DCF77_BIT_LOW_MAX then some 0
  else if cnt > DCF77_BIT_HIGH_MIN ∧ cnt < DCF77_BIT_HIGH_MAX then some 1
  else none

/-- The rising-edge branch of `dcf77_1ms_task` (counter already incremented).
When the pulse is not classified `data_b` stays unassigned in the source; `sync`
is `DCF77_SYNC_WAIT` then, so the store that would read it is not executed, and
the model reads `0` there. -/
def rising_edge (s : State) : State :=
  let data_b := (classify s.dcf77_cntms_u16).getD 0
  let s :=
    match classify s.dcf77_cntms_u16 with
    | some _ => s
    | none => { s with dcf77_sync_u8 := DCF77_SYNC_WAIT }
  -- if synchronized and current bit position is valid save bit state
  if s.dcf77_sync_u8 ≥ DCF77_SYNC_FIRST ∧ s.dcf77_bitpos_u8 ≤ 59 then
    let index := (s.dcf77_bitpos_u8 / 8) % 256
    let tmp :=
      if data_b ≠ 0 then
        s.dfc77_datatmp_au8.set index
          ((s.dfc77_datatmp_au8.get index ||| (1 <<< (s.dcf77_bitpos_u8 % 8))) % 256)
      else
        s.dfc77_datatmp_au8.set index
          ((s.dfc77_datatmp_au8.get index &&& (0xFFFF ^^^ (1 <<< (s.dcf77_bitpos_u8 % 8)))) % 256)
    { s with dfc77_datatmp_au8 := tmp, dcf77_bitpos_u8 := (s.dcf77_bitpos_u8 + 1) % 256 }
  else
    { s with dcf77_sync_u8 := DCF77_SYNC_WAIT }

/-- The function `dcf77_1ms_task`.  The macro `DCF77_INPUT` (the pin read) is not
defined in the repository; the level it yields at this tick is a parameter,
`false` for LOW (0) and `true` for HIGH (1). -/
def dcf77_1ms_task (s : State) (DCF77_INPUT : Bool) : State :=
  -- increment 1ms counter
  let s := { s with dcf77_cntms_u16 := (s.dcf77_cntms_u16 + 1) % 65536 }
  -- get current state of data pin
  let pin_b := DCF77_INPUT.toNat
  let s := debounce s pin_b
  -- check if state of pin has changed
  let s :=
    if s.dcf77_pinold_b ≠ s.pindeb_b then
      let s := if s.pindeb_b = FALSE then falling_edge s else rising_edge s
      -- reset ms counter
      { s with dcf77_cntms_u16 := 0 }
    else s
  -- save state of data pin
  { s with dcf77_pinold_b := s.pindeb_b }

/-- Feed a whole trace of raw samples, one per millisecond. -/
def run (s : State) (trace : List Bool) : State :=
  trace.foldl dcf77_1ms_task s

/-! ## Frame layout, bit by bit

Frame bit `i` is bit `i % 8` of byte `i / 8`, the layout `dcf77_1ms_task` stores
in.  Fields are read with the least significant bit at the lowest position. -/

/-- Every byte of the array is a `uint8`. -/
def Frame.WF (f : Frame) : Prop :=
  f.b0 < 256 ∧ f.b1 < 256 ∧ f.b2 < 256 ∧ f.b3 < 256 ∧
  f.b4 < 256 ∧ f.b5 < 256 ∧ f.b6 < 256 ∧ f.b7 < 256

instance (f : Frame) : Decidable f.WF := by
  unfold Frame.WF
  infer_instance

/-- Bit `k` of a byte, as `0` or `1`. -/
def bitAt (d k : Nat) : Nat := if bit_test d k ≠ 0 then 1 else 0

/-- Bit `i` of a frame, as `0` or `1`. -/
def frameBit (f : Frame) (i : Nat) : Nat := bitAt (f.get (i / 8)) (i % 8)

/-- The `n`-bit field starting at bit `lo`, bit `lo` least significant. -/
def fieldVal (f : Frame) (lo : Nat) : Nat → Nat
  | 0 => 0
  | n + 1 => frameBit f lo + 2 * fieldVal f (lo + 1) n

/-- Number of one-bits among the `n` bits starting at bit `lo`. -/
def bitSum (f : Frame) (lo : Nat) : Nat → Nat
  | 0 => 0
  | n + 1 => frameBit f lo + bitSum f (lo + 1) n

/-- XOR of the `n` bits starting at bit `lo`. -/
def fieldXor (f : Frame) (lo n : Nat) : Nat := bitSum f lo n % 2

/-- Number of one-bits of a byte. -/
def popcount8 (d : Nat) : Nat :=
  bitAt d 0 + bitAt d 1 + bitAt d 2 + bitAt d 3 + bitAt d 4 + bitAt d 5 + bitAt d 6 + bitAt d 7

/-- What the validator is specified to accept, stated on frame bits. -/
def FrameOK (f : Frame) : Prop :=
  frameBit f 0 = 0 ∧ frameBit f 20 = 1 ∧
  fieldVal f 21 7 ≤ 0x59 ∧ fieldXor f 21 7 = frameBit f 28 ∧
  fieldVal f 29 6 ≤ 0x23 ∧ fieldXor f 29 6 = frameBit f 35 ∧
  fieldVal f 36 6 ≤ 0x31 ∧ fieldVal f 42 3 ≤ 7 ∧ fieldVal f 45 5 ≤ 0x12 ∧
  fieldXor f 36 22 = frameBit f 58

/-- BCD encoding of a number below 100. -/
def toBCD (n : Nat) : Nat := (n / 10) * 16 + n % 10

/-- The frame with bit `i` inverted. -/
def flipBit (f : Frame) (i : Nat) : Frame :=
  f.set (i / 8) (f.get (i / 8) ^^^ (1 <<< (i % 8)))

/-- A published frame whose bytes are `uint8` values. -/
def State.WF (s : State) : Prop := s.dcf77_data_au8.WF

instance (s : State) : Decidable s.WF := by
  unfold State.WF
  infer_instance

/-- The frame of 2024-06-15 (day of week 6) 12:34, reserved and flag bits clear. -/
def frame_S1 : Frame := ⟨0x00, 0x00, 0x90, 0x56, 0x52, 0xD9, 0x90, 0x04⟩

/-- A synchronised state holding `frame_S1` as fresh data. -/
def state_S1 : State :=
  { State.init with
    dcf77_sync_u8 := DCF77_SYNC_OK
    dcf77_newdata_b := TRUE
    dcf77_data_au8 := frame_S1 }

/-- A synchronised state whose fresh frame has only bit 20 set: minute 0, hour 0 and
an all-zero date, with all three parities even. -/
def state_zero_date : State :=
  { State.init with
    dcf77_sync_u8 := DCF77_SYNC_OK
    dcf77_newdata_b := TRUE
    dcf77_data_au8 := ⟨0, 0, 0x10, 0, 0, 0, 0, 0⟩ }

/-- A synchronised state whose fresh frame carries hour field `0x1F` (parity bit 35 set)
and year field `0xFF`, everything else as in `state_zero_date`. -/
def state_bad_digits : State :=
  { State.init with
    dcf77_sync_u8 := DCF77_SYNC_OK
    dcf77_newdata_b := TRUE
    dcf77_data_au8 := ⟨0, 0, 0x10, 0xE0, 0x0B, 0, 0xFC, 0x03⟩ }

/-! ## Edges seen by one tick -/

/-- The state in which `dcf77_1ms_task` reaches the test `dcf77_pinold_b != pindeb_b`:
counter incremented, debouncer updated. -/
def pre_edge (s : State) (pin : Bool) : State :=
  debounce { s with dcf77_cntms_u16 := (s.dcf77_cntms_u16 + 1) % 65536 } pin.toNat

/-- The interval a tick measures: the counter after its increment. -/
def interval (s : State) : Nat := (s.dcf77_cntms_u16 + 1) % 65536

/-- The tick sees the debounced level go from HIGH to LOW. -/
def falling_tick (s : State) (pin : Bool) : Prop :=
  (pre_edge s pin).dcf77_pinold_b ≠ (pre_edge s pin).pindeb_b ∧
    (pre_edge s pin).pindeb_b = FALSE

/-- The tick sees the debounced level go from LOW to HIGH. -/
def rising_tick (s : State) (pin : Bool) : Prop :=
  (pre_edge s pin).dcf77_pinold_b ≠ (pre_edge s pin).pindeb_b ∧
    (pre_edge s pin).pindeb_b ≠ FALSE

instance (s : State) (pin : Bool) : Decidable (falling_tick s pin) := by
  unfold falling_tick
  infer_instance

instance (s : State) (pin : Bool) : Decidable (rising_tick s pin) := by
  unfold rising_tick
  infer_instance

/-- A synchronised decoder, 59 bits stored, debounced level HIGH, the raw level LOW
for 34 ticks already, the counter one short of `t`. -/
def state_before_marker (t : Nat) : State :=
  { State.init with
    dcf77_pinold_b := 1
    pindeb_b := 1
    debcnt := 34
    dcf77_cntms_u16 := t - 1
    dcf77_sync_u8 := DCF77_SYNC_FIRST
    dcf77_bitpos_u8 := 59
    dfc77_datatmp_au8 := frame_S1 }

/-- A synchronised decoder with 5 bits stored, debounced level LOW, the raw level HIGH
for 34 ticks already, the counter one short of `t`. -/
def state_before_pulse_end (t : Nat) : State :=
  { State.init with
    dcf77_pinold_b := 0
    pindeb_b := 0
    debcnt := 34
    dcf77_cntms_u16 := t - 1
    dcf77_sync_u8 := DCF77_SYNC_OK
    dcf77_bitpos_u8 := 5
    dfc77_datatmp_au8 := frame_S1
    dcf77_data_au8 := frame_S1 }

/-- The store of `dcf77_1ms_task`: set or clear bit `i % 8` of byte `i / 8`. -/
def store_bit (f : Frame) (i b : Nat) : Frame :=
  if b ≠ 0 then
    f.set (i / 8) ((f.get (i / 8) ||| (1 <<< (i % 8))) % 256)
  else
    f.set (i / 8) ((f.get (i / 8) &&& (0xFFFF ^^^ (1 <<< (i % 8)))) % 256)

/-! ## Reachable states, traces and what a trace delivers -/

/-- States the driver can be in: the initial state, closed under ticks (with any raw
sample) and under calls of `dcf77_newdata`. -/
inductive Reachable : State → Prop
  | init : Reachable State.init
  | tick (s : State) (pin : Bool) : Reachable s → Reachable (dcf77_1ms_task s pin)
  | poll (s : State) : Reachable s → Reachable (dcf77_newdata s).2

/-- What the edge handling of one tick recognises. -/
inductive Event
  | quiet
  | marker
  | idle_ok
  | idle_bad
  | bit (b : Nat)
  | pulse_bad
deriving DecidableEq

/-- The branch `dcf77_1ms_task` takes on a falling edge measured at `t`. -/
def fall_event (t : Nat) : Event :=
  if t > DCF77_SIG_START_MIN ∧ t < DCF77_SIG_START_MAX then Event.marker
  else if t < DCF77_BIT_IDLE_MIN ∨ t > DCF77_BIT_IDLE_MAX then Event.idle_bad
  else Event.idle_ok

/-- The branch `dcf77_1ms_task` takes on a rising edge measured at `t`. -/
def rise_event (t : Nat) : Event :=
  match classify t with
  | some b => Event.bit b
  | none => Event.pulse_bad

/-- The event of one tick. -/
def tick_event (s : State) (pin : Bool) : Event :=
  if (pre_edge s pin).dcf77_pinold_b ≠ (pre_edge s pin).pindeb_b then
    if (pre_edge s pin).pindeb_b = FALSE then fall_event (pre_edge s pin).dcf77_cntms_u16
    else rise_event (pre_edge s pin).dcf77_cntms_u16
  else Event.quiet

/-- What has been received so far, counted on the events alone. -/
structure Progress where
  /-- Minute markers received. -/
  markers : Nat
  /-- Classified bits since the last marker (since the start before the first one). -/
  bits : Nat
  /-- No timing violation since the last marker (since the start before the first). -/
  clean : Bool
  /-- Markers that ended a run of exactly 59 classified bits. -/
  frames : Nat
  /-- Markers that ended a run of exactly 59 classified bits which began at a marker
  and contained no timing violation. -/
  framed : Nat
deriving DecidableEq

def Progress.zero : Progress :=
  { markers := 0, bits := 0, clean := true, frames := 0, framed := 0 }

def Progress.step (g : Progress) : Event → Progress
  | Event.quiet => g
  | Event.idle_ok => g
  | Event.idle_bad => { g with clean := false }
  | Event.pulse_bad => { g with clean := false }
  | Event.bit _ => { g with bits := g.bits + 1 }
  | Event.marker =>
    { markers := g.markers + 1
      bits := 0
      clean := true
      frames := g.frames + (if g.bits = 59 then 1 else 0)
      framed := g.framed + (if 1 ≤ g.markers ∧ g.clean = true ∧ g.bits = 59 then 1 else 0) }

/-- One tick, together with the bookkeeping of what it received. -/
def istep (x : State × Progress) (pin : Bool) : State × Progress :=
  (dcf77_1ms_task x.1 pin, x.2.step (tick_event x.1 pin))

/-- A whole trace, together with the bookkeeping of what it delivered. -/
def irun (x : State × Progress) (trace : List Bool) : State × Progress :=
  trace.foldl istep x

/-- What a trace fed to the freshly initialised driver has delivered. -/
def received (trace : List Bool) : Progress :=
  (irun (State.init, Progress.zero) trace).2

/-- The debounced level is `L` and the decoder has seen it. -/
def Settled (s : State) (L : Nat) : Prop :=
  s.pindeb_b = L ∧ s.dcf77_pinold_b = L ∧ s.debcnt = 0

/-- Pulse width of a perfectly timed bit: 100 ms for 0, 200 ms for 1. -/
def pulse_width (b : Bool) : Nat := if b then 200 else 100

/-- One perfectly timed second carrying bit `b`: LOW for the pulse, HIGH for the rest. -/
def bit_second (b : Bool) : List Bool :=
  List.replicate (pulse_width b) false ++ List.replicate (1000 - pulse_width b) true

/-- The seconds carrying the given bits, one after the other. -/
def bits_signal : List Bool → List Bool
  | [] => []
  | b :: bs => bit_second b ++ bits_signal bs

/-- Second 59 of a minute: no pulse. -/
def silent_second : List Bool := List.replicate 1000 true

/-- The raw level of one perfectly timed minute carrying the given bits. -/
def frame_signal (bits : List Bool) : List Bool := bits_signal bits ++ silent_second

/-- The bits stored one after the other from position `i` on. -/
def store_bits (f : Frame) (i : Nat) : List Bool → Frame
  | [] => f
  | b :: bs => store_bits (store_bit f i b.toNat) (i + 1) bs

/-- Bit `i` of a list of bits, as `0` or `1` (`0` past the end). -/
def bit_of (bs : List Bool) (i : Nat) : Nat := (bs.getD i false).toNat

/-- Bit `k` of a number. -/
def nbit (x k : Nat) : Bool := decide (x / 2 ^ k % 2 = 1)

/-- Even-parity bit of a list of bits: their XOR. -/
def par (l : List Bool) : Bool := l.foldl xor false

/-- The 59 bits of a minute: bit 0 clear, bits 1..19 as given by `r`, bit 20 set,
minute, hour, day, month and year in BCD, day of week in binary, each least
significant bit first, and the three even-parity bits. -/
def encode (r : Nat → Bool) (m h d w mo y : Nat) : List Bool :=
  [false,
    r 1, r 2, r 3, r 4, r 5, r 6, r 7, r 8, r 9, r 10, r 11, r 12, r 13, r 14,
    r 15, r 16, r 17, r 18, r 19,
    true,
    nbit (toBCD m) 0, nbit (toBCD m) 1, nbit (toBCD m) 2, nbit (toBCD m) 3,
    nbit (toBCD m) 4, nbit (toBCD m) 5, nbit (toBCD m) 6,
    par [nbit (toBCD m) 0, nbit (toBCD m) 1, nbit (toBCD m) 2, nbit (toBCD m) 3,
      nbit (toBCD m) 4, nbit (toBCD m) 5, nbit (toBCD m) 6],
    nbit (toBCD h) 0, nbit (toBCD h) 1, nbit (toBCD h) 2, nbit (toBCD h) 3,
    nbit (toBCD h) 4, nbit (toBCD h) 5,
    par [nbit (toBCD h) 0, nbit (toBCD h) 1, nbit (toBCD h) 2, nbit (toBCD h) 3,
      nbit (toBCD h) 4, nbit (toBCD h) 5],
    nbit (toBCD d) 0, nbit (toBCD d) 1, nbit (toBCD d) 2, nbit (toBCD d) 3,
    nbit (toBCD d) 4, nbit (toBCD d) 5,
    nbit w 0, nbit w 1, nbit w 2,
    nbit (toBCD mo) 0, nbit (toBCD mo) 1, nbit (toBCD mo) 2, nbit (toBCD mo) 3,
    nbit (toBCD mo) 4,
    nbit (toBCD y) 0, nbit (toBCD y) 1, nbit (toBCD y) 2, nbit (toBCD y) 3,
    nbit (toBCD y) 4, nbit (toBCD y) 5, nbit (toBCD y) 6, nbit (toBCD y) 7,
    par [nbit (toBCD d) 0, nbit (toBCD d) 1, nbit (toBCD d) 2, nbit (toBCD d) 3,
      nbit (toBCD d) 4, nbit (toBCD d) 5,
      nbit w 0, nbit w 1, nbit w 2,
      nbit (toBCD mo) 0, nbit (toBCD mo) 1, nbit (toBCD mo) 2, nbit (toBCD mo) 3,
      nbit (toBCD mo) 4,
      nbit (toBCD y) 0, nbit (toBCD y) 1, nbit (toBCD y) 2, nbit (toBCD y) 3,
      nbit (toBCD y) 4, nbit (toBCD y) 5, nbit (toBCD y) 6, nbit (toBCD y) 7]]

/-- Reserved and flag bits all clear. -/
def no_flags : Nat → Bool := fun _ => false

/-- A marker's long idle, then 60 perfectly timed seconds carrying a 0 each, with no
silent second in between. -/
def overrun_trace : List Bool :=
  List.replicate 1700 true ++ bits_signal (List.replicate 60 false)

/-- A marker's long idle, then one perfectly timed minute of 59 zero bits, up to the
falling edge that ends it. -/
def one_minute_trace : List Bool :=
  List.replicate 1700 true ++ frame_signal (List.replicate 59 false)
    ++ List.replicate 35 false

/-- The freshly initialised driver after 1700 ms of HIGH: debounced level HIGH, the
counter at 1665 since the rising edge. -/
def state_long_idle : State :=
  { State.init with dcf77_cntms_u16 := 1665, pindeb_b := 1, dcf77_pinold_b := 1 }

/-- A marker's long idle, 59 perfectly timed seconds carrying a 0 each, the last one
followed by 700 ms more of HIGH, then LOW: the final idle lasts exactly 1600 ms. -/
def idle_1600_trace : List Bool :=
  List.replicate 1700 true ++
    (bits_signal (List.replicate 58 false) ++
      (bit_second false ++ (List.replicate 700 true ++ List.replicate 35 false)))

/-- A marker's long idle, then a pulse of exactly 60 ms. -/
def pulse_60_trace : List Bool :=
  List.replicate 1700 true ++ (List.replicate 60 false ++ List.replicate 35 true)

/-- What the decoder state and the bookkeeping of received events have in common. -/
def Tracks (s : State) (g : Progress) : Prop :=
  s.dcf77_sync_u8 ≤ 2 ∧
  (1 ≤ s.dcf77_sync_u8 → 1 ≤ g.markers ∧ g.clean = true ∧ g.bits = s.dcf77_bitpos_u8) ∧
  (s.dcf77_sync_u8 = 2 → 2 ≤ g.markers ∧ 1 ≤ g.framed)

/-! ## Ticks that publish, ticks that store -/

/-- The tick takes the branch of `dcf77_1ms_task` that copies the scratch frame to the
published frame and sets the new data flag. -/
def commit_tick (s : State) (pin : Bool) : Prop :=
  falling_tick s pin ∧
  (interval s > DCF77_SIG_START_MIN ∧ interval s < DCF77_SIG_START_MAX) ∧
  s.dcf77_sync_u8 ≠ DCF77_SYNC_WAIT ∧
  (s.dcf77_sync_u8 ≥ DCF77_SYNC_FIRST ∧ s.dcf77_bitpos_u8 = 59)

instance (s : State) (pin : Bool) : Decidable (commit_tick s pin) := by
  unfold commit_tick
  infer_instance

/-- The tick takes the branch of `dcf77_1ms_task` that stores a bit classified as `b`. -/
def store_tick (s : State) (pin : Bool) (b : Nat) : Prop :=
  rising_tick s pin ∧ classify (interval s) = some b ∧
  (s.dcf77_sync_u8 ≥ DCF77_SYNC_FIRST ∧ s.dcf77_bitpos_u8 ≤ 59)

instance (s : State) (pin : Bool) (b : Nat) : Decidable (store_tick s pin b) := by
  unfold store_tick
  infer_instance

/-- The value of `sync` is one of the three synchronisation states. -/
def sync_valid (s : State) : Prop :=
  s.dcf77_sync_u8 = DCF77_SYNC_WAIT ∨ s.dcf77_sync_u8 = DCF77_SYNC_FIRST ∨
    s.dcf77_sync_u8 = DCF77_SYNC_OK

instance (s : State) : Decidable (sync_valid s) := by
  unfold sync_valid
  infer_instance

/-- A marker's long idle, 60 perfectly timed seconds carrying a 0 each, a silent
second and the first 34 ms of the next pulse: the next LOW sample is the debounced
falling edge of a minute marker. -/
def overrun_marker_prefix : List Bool :=
  overrun_trace ++ (silent_second ++ List.replicate 34 false)

/-! ## Array accesses with the index checked -/

/-- Array read `x[i]` that fails when `i` is outside `0..7`. -/
def Frame.get_checked (f : Frame) (i : Nat) : Option Nat :=
  if i < 8 then some (f.get i) else none

/-- Array write `x[i] = v` that fails when `i` is outside `0..7`. -/
def Frame.set_checked (f : Frame) (i v : Nat) : Option Frame :=
  if i < 8 then some (f.set i v) else none

/-- The byte index `index = dcf77_bitpos_u8 / 8` of the store in the rising-edge branch
of `dcf77_1ms_task`, when that store is executed (counter already incremented). -/
def rising_edge_index (s : State) : Option Nat :=
  let s :=
    match classify s.dcf77_cntms_u16 with
    | some _ => s
    | none => { s with dcf77_sync_u8 := DCF77_SYNC_WAIT }
  if s.dcf77_sync_u8 ≥ DCF77_SYNC_FIRST ∧ s.dcf77_bitpos_u8 ≤ 59 then
    some ((s.dcf77_bitpos_u8 / 8) % 256)
  else
    none

/-- The rising-edge branch of `dcf77_1ms_task` with the read and the write of
`dfc77_datatmp_au8[index]` checked: `none` when `index` is outside the array. -/
def rising_edge_checked (s : State) : Option State :=
  let data_b := (classify s.dcf77_cntms_u16).getD 0
  let s :=
    match classify s.dcf77_cntms_u16 with
    | some _ => s
    | none => { s with dcf77_sync_u8 := DCF77_SYNC_WAIT }
  if s.dcf77_sync_u8 ≥ DCF77_SYNC_FIRST ∧ s.dcf77_bitpos_u8 ≤ 59 then
    let index := (s.dcf77_bitpos_u8 / 8) % 256
    match s.dfc77_datatmp_au8.get_checked index with
    | none => none
    | some old =>
      let v :=
        if data_b ≠ 0 then (old ||| (1 <<< (s.dcf77_bitpos_u8 % 8))) % 256
        else (old &&& (0xFFFF ^^^ (1 <<< (s.dcf77_bitpos_u8 % 8)))) % 256
      match s.dfc77_datatmp_au8.set_checked index v with
      | none => none
      | some tmp =>
        some { s with dfc77_datatmp_au8 := tmp, dcf77_bitpos_u8 := (s.dcf77_bitpos_u8 + 1) % 256 }
  else
    some { s with dcf77_sync_u8 := DCF77_SYNC_WAIT }

/-- The function `dcf77_1ms_task` with the accesses to the scratch frame checked. -/
def dcf77_1ms_task_checked (s : State) (DCF77_INPUT : Bool) : Option State :=
  let s := { s with dcf77_cntms_u16 := (s.dcf77_cntms_u16 + 1) % 65536 }
  let pin_b := DCF77_INPUT.toNat
  let s := debounce s pin_b
  if s.dcf77_pinold_b ≠ s.pindeb_b then
    match (if s.pindeb_b = FALSE then some (falling_edge s) else rising_edge_checked s) with
    | none => none
    | some s =>
      let s := { s with dcf77_cntms_u16 := 0 }
      some { s with dcf77_pinold_b := s.pindeb_b }
  else
    some { s with dcf77_pinold_b := s.pindeb_b }

/-- The byte index of the scratch frame a tick writes to, if it writes. -/
def scratch_write_index (s : State) (pin : Bool) : Option Nat :=
  if (pre_edge s pin).dcf77_pinold_b ≠ (pre_edge s pin).pindeb_b then
    if (pre_edge s pin).pindeb_b = FALSE then none else rising_edge_index (pre_edge s pin)
  else
    none

/-! ## Parity: the population-count reference and the date parity of the validator -/

/-- Number of one-bits of a byte, counted on its binary digits. -/
def ones8 (n : Nat) : Nat :=
  n % 2 + n / 2 % 2 + n / 4 % 2 + n / 8 % 2 + n / 16 % 2 + n / 32 % 2 + n / 64 % 2
    + n / 128 % 2

/-- The date parity `dcf77_newdata` compares with bit 58: `parity & 1` after the four
`calc_parity_part` calls over day, day of week, month and year. -/
def date_parity (s : State) : Nat :=
  let parity := 0
  -- day
  let data1 := ((s.dcf77_data_au8.get 4 &&& 0xF0) >>> 4) % 256
  let data2 := ((s.dcf77_data_au8.get 5 &&& 0x03) <<< 4) % 256
  let data := (data1 ||| data2) % 256
  let parity := calc_parity_part data parity
  -- dow
  let data := dcf77_get_dow s
  let parity := calc_parity_part data parity
  -- month
  let data1 := ((s.dcf77_data_au8.get 5 &&& 0xE0) >>> 5) % 256
  let data2 := ((s.dcf77_data_au8.get 6 &&& 0x03) <<< 3) % 256
  let data := (data1 ||| data2) % 256
  let parity := calc_parity_part data parity
  -- year
  let data1 := ((s.dcf77_data_au8.get 6 &&& 0xFC) >>> 2) % 256
  let data2 := ((s.dcf77_data_au8.get 7 &&& 0x03) <<< 6) % 256
  let parity := calc_parity_part ((data1 ||| data2) % 256) parity
  parity &&& 1

/-! ## Interleavings of ticks and polls -/

/-- What the application does next: run `dcf77_1ms_task` with the raw sample `pin`, or
call `dcf77_newdata`. -/
inductive Action
  | tick (pin : Bool)
  | poll
deriving DecidableEq

/-- The state after one action. -/
def Action.apply (s : State) : Action → State
  | Action.tick pin => dcf77_1ms_task s pin
  | Action.poll => (dcf77_newdata s).2

/-- The state after an interleaving of ticks and polls. -/
def run_actions (s : State) (acts : List Action) : State :=
  acts.foldl Action.apply s

/-- The raw samples of an interleaving, in order. -/
def samples : List Action → List Bool
  | [] => []
  | Action.tick pin :: acts => pin :: samples acts
  | Action.poll :: acts => samples acts

/-- Number of `dcf77_newdata` calls of the interleaving, started in `s`, that return
true. -/
def true_polls (s : State) : List Action → Nat
  | [] => 0
  | Action.tick pin :: acts => true_polls (dcf77_1ms_task s pin) acts
  | Action.poll :: acts =>
    (if (dcf77_newdata s).1 ≠ 0 then 1 else 0) + true_polls (dcf77_newdata s).2 acts

/-- Number of ticks of the interleaving, started in `s`, that commit a frame. -/
def commits (s : State) : List Action → Nat
  | [] => 0
  | Action.tick pin :: acts =>
    (if commit_tick s pin then 1 else 0) + commits (dcf77_1ms_task s pin) acts
  | Action.poll :: acts => commits (dcf77_newdata s).2 acts

/-! ## The debouncer against the raw samples -/

/-- Length of the run of raw samples at the end of a trace that differ from the level
`L`. -/
def disagreeing (L : Nat) (tr : List Bool) : Nat :=
  (tr.reverse.takeWhile (fun p => decide (p.toNat ≠ L))).length

/-! ## Intervals between edges -/

/-- The tick takes the edge branch of `dcf77_1ms_task`: the test
`dcf77_pinold_b != pindeb_b` holds. -/
def edge_tick (s : State) (pin : Bool) : Prop :=
  (pre_edge s pin).dcf77_pinold_b ≠ (pre_edge s pin).pindeb_b

instance (s : State) (pin : Bool) : Decidable (edge_tick s pin) := by
  unfold edge_tick
  infer_instance

/-- No tick of the trace, fed to `s`, takes the edge branch. -/
def no_edge (s : State) : List Bool → Bool
  | [] => true
  | p :: tr => !decide (edge_tick s p) && no_edge (dcf77_1ms_task s p) tr

/-- The raw level stays LOW for 65601 ms and then goes HIGH for 34 ms: the next HIGH
sample is the debounced rising edge, 65636 ticks after the start. -/
def late_rise_trace : List Bool :=
  List.replicate 65601 false ++ List.replicate 34 true

/-- The raw level stays HIGH for 67301 ms and then goes LOW for 34 ms: the next LOW
sample is the debounced falling edge, 67336 ticks after the start. -/
def late_fall_trace : List Bool :=
  List.replicate 67301 true ++ List.replicate 34 false

/-- A synchronised decoder right after a falling edge: debounced level LOW, counter
reset, 5 bits stored. -/
def state_after_fall : State :=
  { State.init with
    dcf77_sync_u8 := DCF77_SYNC_OK
    dcf77_bitpos_u8 := 5
    dfc77_datatmp_au8 := frame_S1
    dcf77_data_au8 := frame_S1 }

/-- A synchronised decoder right after a rising edge: debounced level HIGH, counter
reset, 59 bits stored. -/
def state_after_rise : State :=
  { State.init with
    dcf77_pinold_b := 1
    pindeb_b := 1
    dcf77_sync_u8 := DCF77_SYNC_FIRST
    dcf77_bitpos_u8 := 59
    dfc77_datatmp_au8 := frame_S1 }

/-! ## Byte-level facts (exhaustive over the 256 byte values) -/

section bytes
set_option maxRecDepth 100000
set_option synthInstance.maxSize 100000
set_option synthInstance.maxHeartbeats 0

theorem bitAt_lt (d k : Nat) : bitAt d k < 2 := by
  unfold bitAt; split <;> omega

theorem sel_E0_5 : ∀ d, d < 256 →
    ((d &&& 0xE0) >>> 5) % 256 = bitAt d 5 + 2 * bitAt d 6 + 4 * bitAt d 7 := by decide!

theorem sel_0F_3 : ∀ d, d < 256 →
    ((d &&& 0x0F) <<< 3) % 256
      = 8 * (bitAt d 0 + 2 * bitAt d 1 + 4 * bitAt d 2 + 8 * bitAt d 3) := by decide!

theorem sel_07_3 : ∀ d, d < 256 →
    ((d &&& 0x07) <<< 3) % 256 = 8 * (bitAt d 0 + 2 * bitAt d 1 + 4 * bitAt d 2) := by decide!

theorem sel_F0_4 : ∀ d, d < 256 →
    ((d &&& 0xF0) >>> 4) % 256
      = bitAt d 4 + 2 * bitAt d 5 + 4 * bitAt d 6 + 8 * bitAt d 7 := by decide!

theorem sel_03_4 : ∀ d, d < 256 →
    ((d &&& 0x03) <<< 4) % 256 = 16 * (bitAt d 0 + 2 * bitAt d 1) := by decide!

theorem sel_dow : ∀ d, d < 256 →
    ((d >>> 2) &&& 0x7) % 256 = bitAt d 2 + 2 * bitAt d 3 + 4 * bitAt d 4 := by decide!

theorem sel_03_3 : ∀ d, d < 256 →
    ((d &&& 0x03) <<< 3) % 256 = 8 * (bitAt d 0 + 2 * bitAt d 1) := by decide!

theorem sel_FC_2 : ∀ d, d < 256 →
    ((d &&& 0xFC) >>> 2) % 256
      = bitAt d 2 + 2 * bitAt d 3 + 4 * bitAt d 4 + 8 * bitAt d 5 + 16 * bitAt d 6
        + 32 * bitAt d 7 := by decide!

theorem sel_03_6 : ∀ d, d < 256 →
    ((d &&& 0x03) <<< 6) % 256 = 64 * (bitAt d 0 + 2 * bitAt d 1) := by decide!

theorem or_8 : ∀ a, a < 8 → ∀ c, c < 32 → (a ||| 8 * c) % 256 = a + 8 * c := by decide!

theorem or_16 : ∀ a, a < 16 → ∀ c, c < 16 → (a ||| 16 * c) % 256 = a + 16 * c := by decide!

theorem or_64_raw : ∀ a, a < 64 → ∀ c, c < 4 → (a ||| 64 * c) = a + 64 * c := by decide!

/-- The value of a byte written out in its bits has those bits. -/
theorem popcount8_bits : ∀ b0, b0 < 2 → ∀ b1, b1 < 2 → ∀ b2, b2 < 2 → ∀ b3, b3 < 2 →
    ∀ b4, b4 < 2 → ∀ b5, b5 < 2 → ∀ b6, b6 < 2 → ∀ b7, b7 < 2 →
    popcount8 (b0 + 2 * b1 + 4 * b2 + 8 * b3 + 16 * b4 + 32 * b5 + 64 * b6 + 128 * b7)
      = b0 + b1 + b2 + b3 + b4 + b5 + b6 + b7 := by decide!

/-- The byte parity is `0x80` for an odd number of one-bits and `0` otherwise. -/
theorem calc_parity_popcount : ∀ n, n < 256 →
    calc_parity n = if popcount8 n % 2 = 1 then 0x80 else 0 := by decide!

theorem bit_test_eq_zero_iff (d k : Nat) : bit_test d k = 0 ↔ bitAt d k = 0 := by
  unfold bitAt; split <;> simp_all

end bytes

/-! ## The byte expressions of the source read the documented bit fields -/

theorem fieldVal_min (f : Frame) : fieldVal f 21 7
    = (bitAt f.b2 5 + 2 * bitAt f.b2 6 + 4 * bitAt f.b2 7)
      + 8 * (bitAt f.b3 0 + 2 * bitAt f.b3 1 + 4 * bitAt f.b3 2 + 8 * bitAt f.b3 3) := by
  show bitAt f.b2 5 + 2 * (bitAt f.b2 6 + 2 * (bitAt f.b2 7 + 2 * (bitAt f.b3 0
    + 2 * (bitAt f.b3 1 + 2 * (bitAt f.b3 2 + 2 * (bitAt f.b3 3 + 2 * 0)))))) = _
  omega

theorem raw_min_eq (f : Frame) (hf : f.WF) :
    (((f.get 2 &&& 0xE0) >>> 5) % 256 ||| ((f.get 3 &&& 0x0F) <<< 3) % 256) % 256
      = fieldVal f 21 7 := by
  obtain ⟨-, -, h2, h3, -, -, -, -⟩ := hf
  show (((f.b2 &&& 0xE0) >>> 5) % 256 ||| ((f.b3 &&& 0x0F) <<< 3) % 256) % 256 = _
  have a5 := bitAt_lt f.b2 5
  have a6 := bitAt_lt f.b2 6
  have a7 := bitAt_lt f.b2 7
  have c0 := bitAt_lt f.b3 0
  have c1 := bitAt_lt f.b3 1
  have c2 := bitAt_lt f.b3 2
  have c3 := bitAt_lt f.b3 3
  rw [sel_E0_5 _ h2, sel_0F_3 _ h3, or_8 _ (by omega) _ (by omega), fieldVal_min]

theorem fieldVal_hrs (f : Frame) : fieldVal f 29 6
    = (bitAt f.b3 5 + 2 * bitAt f.b3 6 + 4 * bitAt f.b3 7)
      + 8 * (bitAt f.b4 0 + 2 * bitAt f.b4 1 + 4 * bitAt f.b4 2) := by
  show bitAt f.b3 5 + 2 * (bitAt f.b3 6 + 2 * (bitAt f.b3 7 + 2 * (bitAt f.b4 0
    + 2 * (bitAt f.b4 1 + 2 * (bitAt f.b4 2 + 2 * 0))))) = _
  omega

theorem raw_hrs_eq (f : Frame) (hf : f.WF) :
    (((f.get 3 &&& 0xE0) >>> 5) % 256 ||| ((f.get 4 &&& 0x07) <<< 3) % 256) % 256
      = fieldVal f 29 6 := by
  obtain ⟨-, -, -, h3, h4, -, -, -⟩ := hf
  show (((f.b3 &&& 0xE0) >>> 5) % 256 ||| ((f.b4 &&& 0x07) <<< 3) % 256) % 256 = _
  have a5 := bitAt_lt f.b3 5
  have a6 := bitAt_lt f.b3 6
  have a7 := bitAt_lt f.b3 7
  have c0 := bitAt_lt f.b4 0
  have c1 := bitAt_lt f.b4 1
  have c2 := bitAt_lt f.b4 2
  rw [sel_E0_5 _ h3, sel_07_3 _ h4, or_8 _ (by omega) _ (by omega), fieldVal_hrs]

theorem fieldVal_day (f : Frame) : fieldVal f 36 6
    = (bitAt f.b4 4 + 2 * bitAt f.b4 5 + 4 * bitAt f.b4 6 + 8 * bitAt f.b4 7)
      + 16 * (bitAt f.b5 0 + 2 * bitAt f.b5 1) := by
  show bitAt f.b4 4 + 2 * (bitAt f.b4 5 + 2 * (bitAt f.b4 6 + 2 * (bitAt f.b4 7
    + 2 * (bitAt f.b5 0 + 2 * (bitAt f.b5 1 + 2 * 0))))) = _
  omega

theorem raw_day_eq (f : Frame) (hf : f.WF) :
    (((f.get 4 &&& 0xF0) >>> 4) % 256 ||| ((f.get 5 &&& 0x03) <<< 4) % 256) % 256
      = fieldVal f 36 6 := by
  obtain ⟨-, -, -, -, h4, h5, -, -⟩ := hf
  show (((f.b4 &&& 0xF0) >>> 4) % 256 ||| ((f.b5 &&& 0x03) <<< 4) % 256) % 256 = _
  have a4 := bitAt_lt f.b4 4
  have a5 := bitAt_lt f.b4 5
  have a6 := bitAt_lt f.b4 6
  have a7 := bitAt_lt f.b4 7
  have c0 := bitAt_lt f.b5 0
  have c1 := bitAt_lt f.b5 1
  rw [sel_F0_4 _ h4, sel_03_4 _ h5, or_16 _ (by omega) _ (by omega), fieldVal_day]

theorem fieldVal_dow (f : Frame) : fieldVal f 42 3
    = bitAt f.b5 2 + 2 * bitAt f.b5 3 + 4 * bitAt f.b5 4 := by
  show bitAt f.b5 2 + 2 * (bitAt f.b5 3 + 2 * (bitAt f.b5 4 + 2 * 0)) = _
  omega

theorem raw_dow_eq (f : Frame) (hf : f.WF) :
    ((f.get 5 >>> 2) &&& 0x7) % 256 = fieldVal f 42 3 := by
  obtain ⟨-, -, -, -, -, h5, -, -⟩ := hf
  show ((f.b5 >>> 2) &&& 0x7) % 256 = _
  rw [sel_dow _ h5, fieldVal_dow]

theorem fieldVal_month (f : Frame) : fieldVal f 45 5
    = (bitAt f.b5 5 + 2 * bitAt f.b5 6 + 4 * bitAt f.b5 7)
      + 8 * (bitAt f.b6 0 + 2 * bitAt f.b6 1) := by
  show bitAt f.b5 5 + 2 * (bitAt f.b5 6 + 2 * (bitAt f.b5 7 + 2 * (bitAt f.b6 0
    + 2 * (bitAt f.b6 1 + 2 * 0)))) = _
  omega

theorem raw_month_eq (f : Frame) (hf : f.WF) :
    (((f.get 5 &&& 0xE0) >>> 5) % 256 ||| ((f.get 6 &&& 0x03) <<< 3) % 256) % 256
      = fieldVal f 45 5 := by
  obtain ⟨-, -, -, -, -, h5, h6, -⟩ := hf
  show (((f.b5 &&& 0xE0) >>> 5) % 256 ||| ((f.b6 &&& 0x03) <<< 3) % 256) % 256 = _
  have a5 := bitAt_lt f.b5 5
  have a6 := bitAt_lt f.b5 6
  have a7 := bitAt_lt f.b5 7
  have c0 := bitAt_lt f.b6 0
  have c1 := bitAt_lt f.b6 1
  rw [sel_E0_5 _ h5, sel_03_3 _ h6, or_8 _ (by omega) _ (by omega), fieldVal_month]

theorem fieldVal_year (f : Frame) : fieldVal f 50 8
    = (bitAt f.b6 2 + 2 * bitAt f.b6 3 + 4 * bitAt f.b6 4 + 8 * bitAt f.b6 5
        + 16 * bitAt f.b6 6 + 32 * bitAt f.b6 7)
      + 64 * (bitAt f.b7 0 + 2 * bitAt f.b7 1) := by
  show bitAt f.b6 2 + 2 * (bitAt f.b6 3 + 2 * (bitAt f.b6 4 + 2 * (bitAt f.b6 5
    + 2 * (bitAt f.b6 6 + 2 * (bitAt f.b6 7 + 2 * (bitAt f.b7 0
    + 2 * (bitAt f.b7 1 + 2 * 0))))))) = _
  omega

theorem raw_year_eq (f : Frame) (hf : f.WF) :
    ((f.get 6 &&& 0xFC) >>> 2) % 256 ||| ((f.get 7 &&& 0x03) <<< 6) % 256
      = fieldVal f 50 8 := by
  obtain ⟨-, -, -, -, -, -, h6, h7⟩ := hf
  show ((f.b6 &&& 0xFC) >>> 2) % 256 ||| ((f.b7 &&& 0x03) <<< 6) % 256 = _
  have a2 := bitAt_lt f.b6 2
  have a3 := bitAt_lt f.b6 3
  have a4 := bitAt_lt f.b6 4
  have a5 := bitAt_lt f.b6 5
  have a6 := bitAt_lt f.b6 6
  have a7 := bitAt_lt f.b6 7
  have c0 := bitAt_lt f.b7 0
  have c1 := bitAt_lt f.b7 1
  rw [sel_FC_2 _ h6, sel_03_6 _ h7, or_64_raw _ (by omega) _ (by omega), fieldVal_year]

/-! ## Bit fields: bounds and bit counts -/

theorem frameBit_lt (f : Frame) (i : Nat) : frameBit f i < 2 := bitAt_lt _ _

theorem fieldVal_lt (f : Frame) (lo n : Nat) : fieldVal f lo n < 2 ^ n := by
  induction n generalizing lo with
  | zero => simp [fieldVal]
  | succ n ih =>
    have h1 := ih (lo + 1)
    have h2 := frameBit_lt f lo
    simp only [fieldVal, pow_succ]
    omega

theorem bitSum_add (f : Frame) (lo m n : Nat) :
    bitSum f lo (m + n) = bitSum f lo m + bitSum f (lo + m) n := by
  induction m generalizing lo with
  | zero => simp [bitSum]
  | succ m ih =>
    have e : m + 1 + n = (m + n) + 1 := by omega
    rw [e]
    simp only [bitSum]
    rw [ih (lo + 1)]
    have e2 : lo + 1 + m = lo + (m + 1) := by omega
    rw [e2]
    omega

theorem popcount8_horner (b0 b1 b2 b3 b4 b5 b6 b7 : Nat) (h0 : b0 < 2) (h1 : b1 < 2)
    (h2 : b2 < 2) (h3 : b3 < 2) (h4 : b4 < 2) (h5 : b5 < 2) (h6 : b6 < 2) (h7 : b7 < 2) :
    popcount8 (b0 + 2 * (b1 + 2 * (b2 + 2 * (b3 + 2 * (b4 + 2 * (b5 + 2 * (b6 + 2 * b7)))))))
      = b0 + b1 + b2 + b3 + b4 + b5 + b6 + b7 := by
  have h := popcount8_bits b0 h0 b1 h1 b2 h2 b3 h3 b4 h4 b5 h5 b6 h6 b7 h7
  have e : b0 + 2 * (b1 + 2 * (b2 + 2 * (b3 + 2 * (b4 + 2 * (b5 + 2 * (b6 + 2 * b7))))))
      = b0 + 2 * b1 + 4 * b2 + 8 * b3 + 16 * b4 + 32 * b5 + 64 * b6 + 128 * b7 := by omega
  rw [e, h]

theorem bitSum_le (f : Frame) (lo n : Nat) : bitSum f lo n ≤ n := by
  induction n generalizing lo with
  | zero => simp [bitSum]
  | succ n ih =>
    have h1 := ih (lo + 1)
    have h2 := frameBit_lt f lo
    simp only [bitSum]
    omega

/-- The one-bits of a field of at most eight bits are the one-bits of its value. -/
theorem popcount8_fieldVal (f : Frame) (lo n : Nat) (hn : n ≤ 8) :
    popcount8 (fieldVal f lo n) = bitSum f lo n := by
  have z : (0 : Nat) < 2 := by omega
  have g := fun i => frameBit_lt f i
  interval_cases n
  · exact popcount8_horner 0 0 0 0 0 0 0 0 z z z z z z z z
  · simpa [fieldVal, bitSum] using
      popcount8_horner (frameBit f lo) 0 0 0 0 0 0 0 (g _) z z z z z z z
  · simpa [fieldVal, bitSum, Nat.add_assoc] using
      popcount8_horner (frameBit f lo) (frameBit f (lo + 1)) 0 0 0 0 0 0 (g _) (g _) z z z z z z
  · simpa [fieldVal, bitSum, Nat.add_assoc] using
      popcount8_horner (frameBit f lo) (frameBit f (lo + 1)) (frameBit f (lo + 2)) 0 0 0 0 0
        (g _) (g _) (g _) z z z z z
  · simpa [fieldVal, bitSum, Nat.add_assoc] using
      popcount8_horner (frameBit f lo) (frameBit f (lo + 1)) (frameBit f (lo + 2))
        (frameBit f (lo + 3)) 0 0 0 0 (g _) (g _) (g _) (g _) z z z z
  · simpa [fieldVal, bitSum, Nat.add_assoc] using
      popcount8_horner (frameBit f lo) (frameBit f (lo + 1)) (frameBit f (lo + 2))
        (frameBit f (lo + 3)) (frameBit f (lo + 4)) 0 0 0 (g _) (g _) (g _) (g _) (g _) z z z
  · simpa [fieldVal, bitSum, Nat.add_assoc] using
      popcount8_horner (frameBit f lo) (frameBit f (lo + 1)) (frameBit f (lo + 2))
        (frameBit f (lo + 3)) (frameBit f (lo + 4)) (frameBit f (lo + 5)) 0 0
        (g _) (g _) (g _) (g _) (g _) (g _) z z
  · simpa [fieldVal, bitSum, Nat.add_assoc] using
      popcount8_horner (frameBit f lo) (frameBit f (lo + 1)) (frameBit f (lo + 2))
        (frameBit f (lo + 3)) (frameBit f (lo + 4)) (frameBit f (lo + 5)) (frameBit f (lo + 6)) 0
        (g _) (g _) (g _) (g _) (g _) (g _) (g _) z
  · simpa [fieldVal, bitSum, Nat.add_assoc] using
      popcount8_horner (frameBit f lo) (frameBit f (lo + 1)) (frameBit f (lo + 2))
        (frameBit f (lo + 3)) (frameBit f (lo + 4)) (frameBit f (lo + 5)) (frameBit f (lo + 6))
        (frameBit f (lo + 7)) (g _) (g _) (g _) (g _) (g _) (g _) (g _) (g _)

/-- The running count adds the number of one-bits, as long as it does not wrap. -/
theorem calc_parity_part_eq (n prev : Nat) (h : prev ≤ 247) :
    calc_parity_part n prev = prev + popcount8 n := by
  have step : ∀ (p m k : Nat), 1 <<< k = m → p < 255 →
      (if n &&& m ≠ 0 then (p + 1) % 256 else p) = p + bitAt n k := by
    intro p m k hm hp
    subst hm
    unfold bitAt bit_test
    split <;> omega
  have b := fun k => bitAt_lt n k
  unfold calc_parity_part
  simp only []
  rw [step prev 0x1 0 rfl (by omega)]
  rw [step _ 0x2 1 rfl (by have := b 0; omega)]
  rw [step _ 0x4 2 rfl (by have := b 0; have := b 1; omega)]
  rw [step _ 0x8 3 rfl (by have := b 0; have := b 1; have := b 2; omega)]
  rw [step _ 0x10 4 rfl (by have := b 0; have := b 1; have := b 2; have := b 3; omega)]
  rw [step _ 0x20 5 rfl
    (by have := b 0; have := b 1; have := b 2; have := b 3; have := b 4; omega)]
  rw [step _ 0x40 6 rfl
    (by have := b 0; have := b 1; have := b 2; have := b 3; have := b 4; have := b 5; omega)]
  rw [step _ 0x80 7 rfl
    (by
      have := b 0; have := b 1; have := b 2; have := b 3; have := b 4; have := b 5
      have := b 6; omega)]
  unfold popcount8
  omega

/-! ## What the validator accepts -/

theorem check_parity_calc (n d k : Nat) (hn : n < 256) :
    check_parity (calc_parity n) (bit_test d k) ≠ 0 ↔ popcount8 n % 2 = bitAt d k := by
  rw [calc_parity_popcount n hn]
  have h := Nat.mod_lt (popcount8 n) (show 2 > 0 by omega)
  unfold check_parity lnot bitAt
  split_ifs <;> simp_all

theorem check_parity_and_one (p d k : Nat) :
    check_parity (p &&& 1) (bit_test d k) ≠ 0 ↔ p % 2 = bitAt d k := by
  rw [Nat.and_one_is_mod]
  have h := Nat.mod_lt p (show 2 > 0 by omega)
  unfold check_parity lnot bitAt
  split_ifs <;> simp_all

theorem newdata_valid_iff (s : State) (hf : s.dcf77_data_au8.WF) :
    dcf77_newdata_valid s ≠ 0 ↔
      s.dcf77_sync_u8 = DCF77_SYNC_OK ∧ FrameOK s.dcf77_data_au8 := by
  unfold dcf77_newdata_valid
  simp only [raw_min_eq _ hf, raw_hrs_eq _ hf, raw_day_eq _ hf, raw_month_eq _ hf,
    raw_year_eq _ hf, dcf77_get_dow, raw_dow_eq _ hf]
  have lM := fieldVal_lt s.dcf77_data_au8 21 7
  have lH := fieldVal_lt s.dcf77_data_au8 29 6
  have lD := fieldVal_lt s.dcf77_data_au8 36 6
  have lW := fieldVal_lt s.dcf77_data_au8 42 3
  have lO := fieldVal_lt s.dcf77_data_au8 45 5
  have lY := fieldVal_lt s.dcf77_data_au8 50 8
  have pM : check_parity (calc_parity (fieldVal s.dcf77_data_au8 21 7))
      (bit_test (s.dcf77_data_au8.get 3) 4) ≠ 0
      ↔ fieldXor s.dcf77_data_au8 21 7 = frameBit s.dcf77_data_au8 28 := by
    rw [check_parity_calc _ _ _ (by omega), popcount8_fieldVal _ _ _ (by omega)]
    rfl
  have pH : check_parity (calc_parity (fieldVal s.dcf77_data_au8 29 6))
      (bit_test (s.dcf77_data_au8.get 4) 3) ≠ 0
      ↔ fieldXor s.dcf77_data_au8 29 6 = frameBit s.dcf77_data_au8 35 := by
    rw [check_parity_calc _ _ _ (by omega), popcount8_fieldVal _ _ _ (by omega)]
    rfl
  have chain : calc_parity_part (fieldVal s.dcf77_data_au8 50 8 % 256)
      (calc_parity_part (fieldVal s.dcf77_data_au8 45 5)
        (calc_parity_part (fieldVal s.dcf77_data_au8 42 3)
          (calc_parity_part (fieldVal s.dcf77_data_au8 36 6) 0)))
      = bitSum s.dcf77_data_au8 36 22 := by
    have e : bitSum s.dcf77_data_au8 36 22
        = bitSum s.dcf77_data_au8 36 6 + bitSum s.dcf77_data_au8 42 3
          + bitSum s.dcf77_data_au8 45 5 + bitSum s.dcf77_data_au8 50 8 := by
      have a1 := bitSum_add s.dcf77_data_au8 36 6 16
      have a2 := bitSum_add s.dcf77_data_au8 42 3 13
      have a3 := bitSum_add s.dcf77_data_au8 45 5 8
      norm_num at a1 a2 a3
      omega
    have u1 := bitSum_le s.dcf77_data_au8 36 6
    have u2 := bitSum_le s.dcf77_data_au8 42 3
    have u3 := bitSum_le s.dcf77_data_au8 45 5
    have e1 : calc_parity_part (fieldVal s.dcf77_data_au8 36 6) 0
        = bitSum s.dcf77_data_au8 36 6 := by
      rw [calc_parity_part_eq _ 0 (by omega), popcount8_fieldVal _ _ _ (by omega)]
      omega
    have e2 : calc_parity_part (fieldVal s.dcf77_data_au8 42 3) (bitSum s.dcf77_data_au8 36 6)
        = bitSum s.dcf77_data_au8 36 6 + bitSum s.dcf77_data_au8 42 3 := by
      rw [calc_parity_part_eq _ _ (by omega), popcount8_fieldVal _ _ _ (by omega)]
    have e3 : calc_parity_part (fieldVal s.dcf77_data_au8 45 5)
        (bitSum s.dcf77_data_au8 36 6 + bitSum s.dcf77_data_au8 42 3)
        = bitSum s.dcf77_data_au8 36 6 + bitSum s.dcf77_data_au8 42 3
          + bitSum s.dcf77_data_au8 45 5 := by
      rw [calc_parity_part_eq _ _ (by omega), popcount8_fieldVal _ _ _ (by omega)]
    have e4 : calc_parity_part (fieldVal s.dcf77_data_au8 50 8)
        (bitSum s.dcf77_data_au8 36 6 + bitSum s.dcf77_data_au8 42 3
          + bitSum s.dcf77_data_au8 45 5)
        = bitSum s.dcf77_data_au8 36 6 + bitSum s.dcf77_data_au8 42 3
          + bitSum s.dcf77_data_au8 45 5 + bitSum s.dcf77_data_au8 50 8 := by
      rw [calc_parity_part_eq _ _ (by omega), popcount8_fieldVal _ _ _ (by omega)]
    rw [Nat.mod_eq_of_lt (by omega), e1, e2, e3, e4, e]
  have pD : check_parity (bitSum s.dcf77_data_au8 36 22 &&& 1)
      (bit_test (s.dcf77_data_au8.get 7) 2) ≠ 0
      ↔ fieldXor s.dcf77_data_au8 36 22 = frameBit s.dcf77_data_au8 58 := by
    rw [check_parity_and_one]
    rfl
  have q0 : lnot (bit_test (s.dcf77_data_au8.get 0) 0) ≠ 0
      ↔ frameBit s.dcf77_data_au8 0 = 0 := by
    show _ ↔ bitAt (s.dcf77_data_au8.get 0) 0 = 0
    rw [← bit_test_eq_zero_iff]
    unfold lnot
    split <;> simp_all
  have q20 : bit_test (s.dcf77_data_au8.get 2) 4 ≠ 0
      ↔ frameBit s.dcf77_data_au8 20 = 1 := by
    show _ ↔ bitAt (s.dcf77_data_au8.get 2) 4 = 1
    unfold bitAt
    split <;> simp_all
  rw [chain]
  generalize check_parity (calc_parity (fieldVal s.dcf77_data_au8 21 7))
      (bit_test (s.dcf77_data_au8.get 3) 4) = cM at pM
  generalize check_parity (calc_parity (fieldVal s.dcf77_data_au8 29 6))
      (bit_test (s.dcf77_data_au8.get 4) 3) = cH at pH
  generalize check_parity (bitSum s.dcf77_data_au8 36 22 &&& 1)
      (bit_test (s.dcf77_data_au8.get 7) 2) = cD at pD
  simp only [q0, q20]
  unfold FrameOK
  rw [← pM, ← pH, ← pD]
  unfold FALSE lnot
  have w7 : fieldVal s.dcf77_data_au8 42 3 ≤ 7 := by
    have : (2 : Nat) ^ 3 = 8 := by norm_num
    omega
  by_cases hs : s.dcf77_sync_u8 = DCF77_SYNC_OK
  · by_cases h0 : frameBit s.dcf77_data_au8 0 = 0
    · by_cases h20 : frameBit s.dcf77_data_au8 20 = 1
      · by_cases h1 : fieldVal s.dcf77_data_au8 21 7 > 89
        · simp [hs, h0, h20, h1]
        · by_cases h2 : cM = 0
          · simp [hs, h0, h20, h1, h2]
          · by_cases h3 : fieldVal s.dcf77_data_au8 29 6 > 35
            · simp [hs, h0, h20, h1, h2, h3]
            · by_cases h4 : cH = 0
              · simp [hs, h0, h20, h1, h2, h3, h4]
              · by_cases h5 : fieldVal s.dcf77_data_au8 36 6 > 49
                · simp [hs, h0, h20, h1, h2, h3, h4, h5]
                · by_cases h6 : fieldVal s.dcf77_data_au8 45 5 > 18
                  · simp [hs, h0, h20, h1, h2, h3, h4, h5, h6]
                  · simp [hs, h0, h20, h1, h2, h3, h4, h5, h6, w7]
                    omega
      · simp [hs, h0, h20]
    · simp [hs, h0]
  · simp [hs]

theorem newdata_fst_ne_zero_iff (s : State) :
    (dcf77_newdata s).1 ≠ 0 ↔ dcf77_newdata_valid s ≠ 0 ∧ s.dcf77_newdata_b ≠ 0 := by
  unfold dcf77_newdata TRUE FALSE
  by_cases h : dcf77_newdata_valid s ≠ 0 ∧ s.dcf77_newdata_b ≠ 0
  · simp [h]
  · simp only [if_neg h]
    simp [h]

theorem newdata_fst_eq_true_iff (s : State) :
    (dcf77_newdata s).1 = TRUE ↔ (dcf77_newdata s).1 ≠ 0 := by
  unfold dcf77_newdata TRUE FALSE
  by_cases h : dcf77_newdata_valid s ≠ 0 ∧ s.dcf77_newdata_b ≠ 0
  · simp [h]
  · simp only [if_neg h]
    simp

/-- The validator returns true exactly on `sync = OK`, a set flag and a frame that
passes every documented check. -/
theorem newdata_true_iff (s : State) (hf : s.dcf77_data_au8.WF) :
    (dcf77_newdata s).1 ≠ 0 ↔
      s.dcf77_sync_u8 = DCF77_SYNC_OK ∧ s.dcf77_newdata_b ≠ 0 ∧ FrameOK s.dcf77_data_au8 := by
  rw [newdata_fst_ne_zero_iff, newdata_valid_iff s hf]
  tauto

/-! ## The accessors in terms of bit fields -/

theorem get_min_eq (s : State) (hf : s.dcf77_data_au8.WF) :
    dcf77_get_min s = bcd_to_dec (fieldVal s.dcf77_data_au8 21 7) % 256 := by
  unfold dcf77_get_min
  simp only [raw_min_eq _ hf]

theorem get_hrs_eq (s : State) (hf : s.dcf77_data_au8.WF) :
    dcf77_get_hrs s = bcd_to_dec (fieldVal s.dcf77_data_au8 29 6) % 256 := by
  unfold dcf77_get_hrs
  simp only [raw_hrs_eq _ hf]

theorem get_day_eq (s : State) (hf : s.dcf77_data_au8.WF) :
    dcf77_get_day s = bcd_to_dec (fieldVal s.dcf77_data_au8 36 6) % 256 := by
  unfold dcf77_get_day
  simp only [raw_day_eq _ hf]

theorem get_dow_eq (s : State) (hf : s.dcf77_data_au8.WF) :
    dcf77_get_dow s = fieldVal s.dcf77_data_au8 42 3 := by
  unfold dcf77_get_dow
  simp only [raw_dow_eq _ hf]

theorem get_month_eq (s : State) (hf : s.dcf77_data_au8.WF) :
    dcf77_get_month s = bcd_to_dec (fieldVal s.dcf77_data_au8 45 5) % 256 := by
  unfold dcf77_get_month
  simp only [raw_month_eq _ hf]

theorem get_year_eq (s : State) (hf : s.dcf77_data_au8.WF) :
    dcf77_get_year s = (bcd_to_dec (fieldVal s.dcf77_data_au8 50 8) + 2000) % 65536 := by
  unfold dcf77_get_year
  simp only [raw_year_eq _ hf]

section bytes2
set_option maxRecDepth 100000

theorem bcd_roundtrip : ∀ n, n < 100 → bcd_to_dec (toBCD n) % 256 = n := by decide!

theorem bcd_roundtrip_year : ∀ n, n < 100 →
    (bcd_to_dec (toBCD n) + 2000) % 65536 = 2000 + n := by decide!

theorem toBCD_le_59 : ∀ n, n < 60 → toBCD n ≤ 0x59 := by decide!

theorem toBCD_le_23 : ∀ n, n < 24 → toBCD n ≤ 0x23 := by decide!

theorem toBCD_le_31 : ∀ n, n < 32 → toBCD n ≤ 0x31 := by decide!

theorem toBCD_le_12 : ∀ n, n < 13 → toBCD n ≤ 0x12 := by decide!

theorem bcd_range_min : ∀ x, x < 0x5A → bcd_to_dec x % 256 ≤ 59 := by decide!

theorem bcd_range_hrs : ∀ x, x < 0x24 → bcd_to_dec x % 256 ≤ 25 := by decide!

theorem bcd_range_day : ∀ x, x < 0x32 → bcd_to_dec x % 256 ≤ 35 := by decide!

theorem bcd_range_month : ∀ x, x < 0x13 → bcd_to_dec x % 256 ≤ 15 := by decide!

theorem bcd_range_year : ∀ x, x < 256 →
    2000 ≤ (bcd_to_dec x + 2000) % 65536 ∧ (bcd_to_dec x + 2000) % 65536 ≤ 2165 := by decide!

/-- With decimal digits (units digit at most 9) the documented upper bounds hold, and a
non-zero field decodes to a non-zero number. -/
theorem bcd_digits_hrs : ∀ x, x < 0x24 → x % 16 ≤ 9 → bcd_to_dec x % 256 ≤ 23 := by decide!

theorem bcd_digits_day : ∀ x, x < 0x32 → x % 16 ≤ 9 → bcd_to_dec x % 256 ≤ 31 := by decide!

theorem bcd_digits_month : ∀ x, x < 0x13 → x % 16 ≤ 9 → bcd_to_dec x % 256 ≤ 12 := by decide!

theorem bcd_digits_year : ∀ x, x < 256 → x % 16 ≤ 9 → x / 16 ≤ 9 →
    (bcd_to_dec x + 2000) % 65536 ≤ 2099 := by decide!

theorem bcd_pos : ∀ x, x < 256 → x ≠ 0 → 1 ≤ bcd_to_dec x % 256 := by decide!

end bytes2

theorem fieldVal_add (f : Frame) (lo m n : Nat) :
    fieldVal f lo (m + n) = fieldVal f lo m + 2 ^ m * fieldVal f (lo + m) n := by
  induction m generalizing lo with
  | zero => simp [fieldVal]
  | succ m ih =>
    have e : m + 1 + n = (m + n) + 1 := by omega
    rw [e]
    simp only [fieldVal]
    rw [ih (lo + 1)]
    have e2 : lo + 1 + m = lo + (m + 1) := by omega
    rw [e2, pow_succ]
    ring

/-- The low four bits of a field are its value modulo 16. -/
theorem fieldVal_mod_16 (f : Frame) (lo n : Nat) :
    fieldVal f lo (4 + n) % 16 = fieldVal f lo 4 := by
  have h := fieldVal_lt f lo 4
  rw [fieldVal_add]
  norm_num at h ⊢
  omega

theorem fieldVal_div_16 (f : Frame) (lo n : Nat) :
    fieldVal f lo (4 + n) / 16 = fieldVal f (lo + 4) n := by
  have h := fieldVal_lt f lo 4
  rw [fieldVal_add]
  norm_num at h ⊢
  omega

/-! ## C1: soundness of the validator -/

/-- C1. If `dcf77_newdata` returns true on a state, then in that state sync was OK
and the fresh flag was set, frame bit 0 is 0 and bit 20 is 1, the minute field
(bits 21..27) is at most 0x59 with the XOR of its bits equal to bit 28, the hour field
(bits 29..34) is at most 0x23 with the XOR of its bits equal to bit 35, the day field
(bits 36..41) is at most 0x31, the day-of-week field (bits 42..44) is at most 7, the
month field (bits 45..49) is at most 0x12, and the XOR of bits 36..57 equals bit 58. -/
theorem newdata_sound (s : State) (hwf : s.WF) (h : (dcf77_newdata s).1 ≠ 0) :
    s.dcf77_sync_u8 = DCF77_SYNC_OK ∧ s.dcf77_newdata_b ≠ 0 ∧
    frameBit s.dcf77_data_au8 0 = 0 ∧ frameBit s.dcf77_data_au8 20 = 1 ∧
    fieldVal s.dcf77_data_au8 21 7 ≤ 0x59 ∧
    fieldXor s.dcf77_data_au8 21 7 = frameBit s.dcf77_data_au8 28 ∧
    fieldVal s.dcf77_data_au8 29 6 ≤ 0x23 ∧
    fieldXor s.dcf77_data_au8 29 6 = frameBit s.dcf77_data_au8 35 ∧
    fieldVal s.dcf77_data_au8 36 6 ≤ 0x31 ∧
    fieldVal s.dcf77_data_au8 42 3 ≤ 7 ∧
    fieldVal s.dcf77_data_au8 45 5 ≤ 0x12 ∧
    fieldXor s.dcf77_data_au8 36 22 = frameBit s.dcf77_data_au8 58 := by
  obtain ⟨h1, h2, h3⟩ := (newdata_true_iff s hwf).mp h
  exact ⟨h1, h2, h3⟩

theorem newdata_sound_witness :
    state_S1.WF ∧ (dcf77_newdata state_S1).1 ≠ 0 ∧
    state_S1.dcf77_sync_u8 = DCF77_SYNC_OK ∧ state_S1.dcf77_newdata_b ≠ 0 ∧
    frameBit state_S1.dcf77_data_au8 0 = 0 ∧ frameBit state_S1.dcf77_data_au8 20 = 1 ∧
    fieldVal state_S1.dcf77_data_au8 21 7 ≤ 0x59 ∧
    fieldXor state_S1.dcf77_data_au8 21 7 = frameBit state_S1.dcf77_data_au8 28 ∧
    fieldVal state_S1.dcf77_data_au8 29 6 ≤ 0x23 ∧
    fieldXor state_S1.dcf77_data_au8 29 6 = frameBit state_S1.dcf77_data_au8 35 ∧
    fieldVal state_S1.dcf77_data_au8 36 6 ≤ 0x31 ∧
    fieldVal state_S1.dcf77_data_au8 42 3 ≤ 7 ∧
    fieldVal state_S1.dcf77_data_au8 45 5 ≤ 0x12 ∧
    fieldXor state_S1.dcf77_data_au8 36 22 = frameBit state_S1.dcf77_data_au8 58 :=
  ⟨by decide, by decide, newdata_sound state_S1 (by decide) (by decide)⟩

/-! ## C2: encode, validate, extract -/

/-- C2. For minute `m` in 0..59, hour `h` in 0..23, day `d` in 1..31, day of week `w`
in 1..7, month `mo` in 1..12 and year `y` in 0..99, every published frame with bit 0
clear, bit 20 set, the fields BCD-encoded at bits 21..27, 29..34, 36..41, 45..49 and
50..57, the day of week in binary at bits 42..44 and the parity bits 28, 35 and 58
equal to the XOR of the bits they cover (all other bits arbitrary) is accepted when
sync is OK and the fresh flag is set: `dcf77_newdata` returns true and the accessors
read afterwards return `m`, `h`, `d`, `w`, `mo` and `2000 + y`. -/
theorem encode_validate_extract (s : State) (m h d w mo y : Nat)
    (hm : m ≤ 59) (hh : h ≤ 23) (hd : 1 ≤ d ∧ d ≤ 31) (hw : 1 ≤ w ∧ w ≤ 7)
    (hmo : 1 ≤ mo ∧ mo ≤ 12) (hy : y ≤ 99)
    (hwf : s.WF)
    (b0 : frameBit s.dcf77_data_au8 0 = 0) (b20 : frameBit s.dcf77_data_au8 20 = 1)
    (fm : fieldVal s.dcf77_data_au8 21 7 = toBCD m)
    (pm : frameBit s.dcf77_data_au8 28 = fieldXor s.dcf77_data_au8 21 7)
    (fh : fieldVal s.dcf77_data_au8 29 6 = toBCD h)
    (ph : frameBit s.dcf77_data_au8 35 = fieldXor s.dcf77_data_au8 29 6)
    (fd : fieldVal s.dcf77_data_au8 36 6 = toBCD d)
    (fw : fieldVal s.dcf77_data_au8 42 3 = w)
    (fmo : fieldVal s.dcf77_data_au8 45 5 = toBCD mo)
    (fy : fieldVal s.dcf77_data_au8 50 8 = toBCD y)
    (pd : frameBit s.dcf77_data_au8 58 = fieldXor s.dcf77_data_au8 36 22)
    (hs : s.dcf77_sync_u8 = DCF77_SYNC_OK) (hn : s.dcf77_newdata_b ≠ 0) :
    (dcf77_newdata s).1 = TRUE ∧
    dcf77_get_min (dcf77_newdata s).2 = m ∧
    dcf77_get_hrs (dcf77_newdata s).2 = h ∧
    dcf77_get_day (dcf77_newdata s).2 = d ∧
    dcf77_get_dow (dcf77_newdata s).2 = w ∧
    dcf77_get_month (dcf77_newdata s).2 = mo ∧
    dcf77_get_year (dcf77_newdata s).2 = 2000 + y := by
  have ok : FrameOK s.dcf77_data_au8 := by
    refine ⟨b0, b20, ?_, pm.symm, ?_, ph.symm, ?_, ?_, ?_, pd.symm⟩
    · rw [fm]; exact toBCD_le_59 m (by omega)
    · rw [fh]; exact toBCD_le_23 h (by omega)
    · rw [fd]; exact toBCD_le_31 d (by omega)
    · rw [fw]; exact hw.2
    · rw [fmo]; exact toBCD_le_12 mo (by omega)
  have hf : (dcf77_newdata s).2.dcf77_data_au8.WF := hwf
  have e : (dcf77_newdata s).2.dcf77_data_au8 = s.dcf77_data_au8 := rfl
  refine ⟨?_, ?_, ?_, ?_, ?_, ?_, ?_⟩
  · exact (newdata_fst_eq_true_iff s).mpr ((newdata_true_iff s hwf).mpr ⟨hs, hn, ok⟩)
  · rw [get_min_eq _ hf, e, fm]; exact bcd_roundtrip m (by omega)
  · rw [get_hrs_eq _ hf, e, fh]; exact bcd_roundtrip h (by omega)
  · rw [get_day_eq _ hf, e, fd]; exact bcd_roundtrip d (by omega)
  · rw [get_dow_eq _ hf, e, fw]
  · rw [get_month_eq _ hf, e, fmo]; exact bcd_roundtrip mo (by omega)
  · rw [get_year_eq _ hf, e, fy]; exact bcd_roundtrip_year y (by omega)

theorem encode_validate_extract_witness :
    (dcf77_newdata state_S1).1 = TRUE ∧
    dcf77_get_min (dcf77_newdata state_S1).2 = 34 ∧
    dcf77_get_hrs (dcf77_newdata state_S1).2 = 12 ∧
    dcf77_get_day (dcf77_newdata state_S1).2 = 15 ∧
    dcf77_get_dow (dcf77_newdata state_S1).2 = 6 ∧
    dcf77_get_month (dcf77_newdata state_S1).2 = 6 ∧
    dcf77_get_year (dcf77_newdata state_S1).2 = 2000 + 24 :=
  encode_validate_extract state_S1 34 12 15 6 6 24 (by decide) (by decide) (by decide)
    (by decide) (by decide) (by decide) (by decide) (by decide) (by decide) (by decide)
    (by decide) (by decide) (by decide) (by decide) (by decide) (by decide) (by decide)
    (by decide) (by decide) (by decide)

/-! ## C3: ranges of the accessors after a successful poll -/

/-- C3, as stated, fails: the validator accepts a frame whose day, day-of-week and
month fields are all zero, and the accessors then return day 0, day of week 0 and
month 0; it also accepts hour field 0x1F and year field 0xFF, read back as hour 25
and year 2165. -/
theorem accessor_ranges_counterexample :
    (state_zero_date.WF ∧ (dcf77_newdata state_zero_date).1 = TRUE ∧
      ¬ (1 ≤ dcf77_get_day (dcf77_newdata state_zero_date).2) ∧
      ¬ (1 ≤ dcf77_get_dow (dcf77_newdata state_zero_date).2) ∧
      ¬ (1 ≤ dcf77_get_month (dcf77_newdata state_zero_date).2)) ∧
    (state_bad_digits.WF ∧ (dcf77_newdata state_bad_digits).1 = TRUE ∧
      dcf77_get_hrs (dcf77_newdata state_bad_digits).2 = 25 ∧
      dcf77_get_year (dcf77_newdata state_bad_digits).2 = 2165) := by
  decide

/-- C3, amended. Whenever `dcf77_newdata` returns true, the accessors read afterwards
satisfy: minute in 0..59, hour in 0..25, day in 0..35, day of week in 0..7, month in
0..15 and year in 2000..2165.  If moreover the units digit of a field is a decimal
digit (at most 9; for the year also the tens digit) the documented upper bound of that
field holds (hour 23, day 31, month 12, year 2099), and a day, day-of-week or month
field that is not zero is read back as at least 1. -/
theorem accessor_ranges (s : State) (hwf : s.WF) (h : (dcf77_newdata s).1 ≠ 0) :
    (dcf77_get_min (dcf77_newdata s).2 ≤ 59 ∧
      dcf77_get_hrs (dcf77_newdata s).2 ≤ 25 ∧
      dcf77_get_day (dcf77_newdata s).2 ≤ 35 ∧
      dcf77_get_dow (dcf77_newdata s).2 ≤ 7 ∧
      dcf77_get_month (dcf77_newdata s).2 ≤ 15 ∧
      2000 ≤ dcf77_get_year (dcf77_newdata s).2 ∧
      dcf77_get_year (dcf77_newdata s).2 ≤ 2165) ∧
    (fieldVal s.dcf77_data_au8 29 4 ≤ 9 → dcf77_get_hrs (dcf77_newdata s).2 ≤ 23) ∧
    (fieldVal s.dcf77_data_au8 36 4 ≤ 9 → dcf77_get_day (dcf77_newdata s).2 ≤ 31) ∧
    (fieldVal s.dcf77_data_au8 45 4 ≤ 9 → dcf77_get_month (dcf77_newdata s).2 ≤ 12) ∧
    (fieldVal s.dcf77_data_au8 50 4 ≤ 9 → fieldVal s.dcf77_data_au8 54 4 ≤ 9 →
      dcf77_get_year (dcf77_newdata s).2 ≤ 2099) ∧
    (fieldVal s.dcf77_data_au8 36 6 ≠ 0 → 1 ≤ dcf77_get_day (dcf77_newdata s).2) ∧
    (fieldVal s.dcf77_data_au8 42 3 ≠ 0 → 1 ≤ dcf77_get_dow (dcf77_newdata s).2) ∧
    (fieldVal s.dcf77_data_au8 45 5 ≠ 0 → 1 ≤ dcf77_get_month (dcf77_newdata s).2) := by
  obtain ⟨-, -, -, -, rM, -, rH, -, rD, rW, rO, -⟩ := (newdata_true_iff s hwf).mp h
  have hf : (dcf77_newdata s).2.dcf77_data_au8.WF := hwf
  have e : (dcf77_newdata s).2.dcf77_data_au8 = s.dcf77_data_au8 := rfl
  have lD := fieldVal_lt s.dcf77_data_au8 36 6
  have lO := fieldVal_lt s.dcf77_data_au8 45 5
  have lY := fieldVal_lt s.dcf77_data_au8 50 8
  rw [get_min_eq _ hf, get_hrs_eq _ hf, get_day_eq _ hf, get_dow_eq _ hf,
    get_month_eq _ hf, get_year_eq _ hf, e]
  refine ⟨⟨?_, ?_, ?_, rW, ?_, ?_, ?_⟩, ?_, ?_, ?_, ?_, ?_, ?_, ?_⟩
  · exact bcd_range_min _ (by omega)
  · exact bcd_range_hrs _ (by omega)
  · exact bcd_range_day _ (by omega)
  · exact bcd_range_month _ (by omega)
  · exact (bcd_range_year _ (by omega)).1
  · exact (bcd_range_year _ (by omega)).2
  · intro hu
    exact bcd_digits_hrs _ (by omega) (by rw [fieldVal_mod_16 _ 29 2]; exact hu)
  · intro hu
    exact bcd_digits_day _ (by omega) (by rw [fieldVal_mod_16 _ 36 2]; exact hu)
  · intro hu
    exact bcd_digits_month _ (by omega) (by rw [fieldVal_mod_16 _ 45 1]; exact hu)
  · intro hu ht
    exact bcd_digits_year _ (by omega) (by rw [fieldVal_mod_16 _ 50 4]; exact hu)
      (by rw [fieldVal_div_16 _ 50 4]; exact ht)
  · intro hz
    exact bcd_pos _ (by omega) hz
  · intro hz
    omega
  · intro hz
    exact bcd_pos _ (by omega) hz

theorem accessor_ranges_witness :
    state_S1.WF ∧ (dcf77_newdata state_S1).1 ≠ 0 ∧
    (dcf77_get_min (dcf77_newdata state_S1).2 ≤ 59 ∧
      dcf77_get_hrs (dcf77_newdata state_S1).2 ≤ 25 ∧
      dcf77_get_day (dcf77_newdata state_S1).2 ≤ 35 ∧
      dcf77_get_dow (dcf77_newdata state_S1).2 ≤ 7 ∧
      dcf77_get_month (dcf77_newdata state_S1).2 ≤ 15 ∧
      2000 ≤ dcf77_get_year (dcf77_newdata state_S1).2 ∧
      dcf77_get_year (dcf77_newdata state_S1).2 ≤ 2165) :=
  ⟨by decide, by decide, (accessor_ranges state_S1 (by decide) (by decide)).1⟩

/-! ## C4: single-bit errors in the parity-covered regions -/

theorem Frame.get_of_ge (f : Frame) (b : Nat) (hb : 8 ≤ b) : f.get b = 0 := by
  obtain ⟨n, rfl⟩ : ∃ n, b = n + 8 := ⟨b - 8, by omega⟩
  rfl

theorem Frame.get_set (f : Frame) (a v b : Nat) :
    (f.set a v).get b = if a = b ∧ a < 8 then v else f.get b := by
  by_cases hb : b < 8
  · by_cases ha : a < 8
    · interval_cases a <;> interval_cases b <;> simp [Frame.get, Frame.set]
    · obtain ⟨n, rfl⟩ : ∃ n, a = n + 8 := ⟨a - 8, by omega⟩
      have : ¬ (n + 8 = b ∧ n + 8 < 8) := by omega
      rw [if_neg this]
      rfl
  · rw [Frame.get_of_ge _ b (by omega), Frame.get_of_ge _ b (by omega)]
    have : ¬ (a = b ∧ a < 8) := by omega
    rw [if_neg this]

theorem Frame.WF_get (f : Frame) (hf : f.WF) (a : Nat) : f.get a < 256 := by
  obtain ⟨h0, h1, h2, h3, h4, h5, h6, h7⟩ := hf
  by_cases ha : a < 8
  · interval_cases a <;> simpa [Frame.get]
  · rw [Frame.get_of_ge _ a (by omega)]
    omega

theorem Frame.WF_set (f : Frame) (hf : f.WF) (a v : Nat) (hv : v < 256) : (f.set a v).WF := by
  obtain ⟨h0, h1, h2, h3, h4, h5, h6, h7⟩ := hf
  by_cases ha : a < 8
  · interval_cases a <;> exact ⟨by assumption, by assumption, by assumption, by assumption,
      by assumption, by assumption, by assumption, by assumption⟩
  · obtain ⟨n, rfl⟩ : ∃ n, a = n + 8 := ⟨a - 8, by omega⟩
    exact ⟨h0, h1, h2, h3, h4, h5, h6, h7⟩

section bytes3
set_option maxRecDepth 100000

theorem xor_bit_lt : ∀ d, d < 256 → ∀ k, k < 8 → d ^^^ (1 <<< k) < 256 := by decide!

theorem bitAt_xor_bit : ∀ d, d < 256 → ∀ k, k < 8 → ∀ j, j < 8 →
    bitAt (d ^^^ (1 <<< k)) j = if j = k then 1 - bitAt d j else bitAt d j := by decide!

end bytes3

theorem flipBit_WF (f : Frame) (hf : f.WF) (i : Nat) : (flipBit f i).WF :=
  Frame.WF_set f hf _ _ (xor_bit_lt _ (Frame.WF_get f hf _) _ (Nat.mod_lt _ (by omega)))

/-- Inverting bit `i` changes bit `i` and no other bit. -/
theorem frameBit_flipBit (f : Frame) (hf : f.WF) (i j : Nat) (hi : i < 64) :
    frameBit (flipBit f i) j = if j = i then 1 - frameBit f i else frameBit f j := by
  unfold frameBit flipBit
  rw [Frame.get_set]
  by_cases h8 : i / 8 = j / 8
  · have hlt : i / 8 < 8 := by omega
    rw [if_pos ⟨h8, hlt⟩, bitAt_xor_bit _ (Frame.WF_get f hf _) _ (Nat.mod_lt _ (by omega)) _
      (Nat.mod_lt _ (by omega))]
    by_cases hji : j = i
    · subst hji
      simp
    · have : j % 8 ≠ i % 8 := by omega
      rw [if_neg this, if_neg hji, h8]
  · have hji : j ≠ i := by
      intro e
      subst e
      exact h8 rfl
    have : ¬ (i / 8 = j / 8 ∧ i / 8 < 8) := fun c => h8 c.1
    rw [if_neg this, if_neg hji]

/-- Inverting a bit inside a window changes the number of one-bits of the window by
one; inverting a bit outside leaves it unchanged. -/
theorem bitSum_flipBit (f : Frame) (hf : f.WF) (i : Nat) (hi : i < 64) (lo n : Nat) :
    bitSum (flipBit f i) lo n + (if lo ≤ i ∧ i < lo + n then 2 * frameBit f i else 0)
      = bitSum f lo n + (if lo ≤ i ∧ i < lo + n then 1 else 0) := by
  induction n generalizing lo with
  | zero =>
    have : ¬ (lo ≤ i ∧ i < lo + 0) := by omega
    rw [if_neg this, if_neg this]
    rfl
  | succ n ih =>
    have h1 := ih (lo + 1)
    have h2 := frameBit_flipBit f hf i lo hi
    have h3 := frameBit_lt f i
    simp only [bitSum]
    by_cases c1 : lo = i
    · subst c1
      have a1 : ¬ (lo + 1 ≤ lo ∧ lo < lo + 1 + n) := by omega
      have a2 : lo ≤ lo ∧ lo < lo + (n + 1) := by omega
      rw [if_neg a1, if_neg a1] at h1
      rw [if_pos rfl] at h2
      rw [if_pos a2, if_pos a2, h2]
      omega
    · rw [if_neg c1] at h2
      rw [h2]
      by_cases c2 : lo + 1 ≤ i ∧ i < lo + 1 + n
      · have a2 : lo ≤ i ∧ i < lo + (n + 1) := by omega
        rw [if_pos c2, if_pos c2] at h1
        rw [if_pos a2, if_pos a2]
        omega
      · have a2 : ¬ (lo ≤ i ∧ i < lo + (n + 1)) := by omega
        rw [if_neg c2, if_neg c2] at h1
        rw [if_neg a2, if_neg a2]
        omega

/-- C4. On every state on which `dcf77_newdata` returns true, inverting one bit of the
published frame inside a parity-covered data region (bits 21..27, 29..34 or 36..57),
the rest of the state unchanged, makes `dcf77_newdata` return false. -/
theorem single_bit_error_rejected (s : State) (hwf : s.WF) (h : (dcf77_newdata s).1 ≠ 0)
    (i : Nat) (hi : (21 ≤ i ∧ i ≤ 27) ∨ (29 ≤ i ∧ i ≤ 34) ∨ (36 ≤ i ∧ i ≤ 57)) :
    (dcf77_newdata { s with dcf77_data_au8 := flipBit s.dcf77_data_au8 i }).1 = FALSE := by
  by_contra hc
  have hc2 : (dcf77_newdata { s with dcf77_data_au8 := flipBit s.dcf77_data_au8 i }).1 ≠ 0 := hc
  have hwf2 : (flipBit s.dcf77_data_au8 i).WF := flipBit_WF _ hwf i
  obtain ⟨-, -, -, -, -, pM, -, pH, -, -, -, pD⟩ := (newdata_true_iff s hwf).mp h
  obtain ⟨-, -, -, -, -, qM, -, qH, -, -, -, qD⟩ :=
    (newdata_true_iff { s with dcf77_data_au8 := flipBit s.dcf77_data_au8 i } hwf2).mp hc2
  have i64 : i < 64 := by omega
  have hb := frameBit_lt s.dcf77_data_au8 i
  unfold fieldXor at pM pH pD qM qH qD
  simp only [] at qM qH qD
  rcases hi with hi | hi | hi
  · have e := bitSum_flipBit _ hwf i i64 21 7
    have f28 := frameBit_flipBit _ hwf i 28 i64
    rw [if_neg (by omega)] at f28
    rw [if_pos (by omega), if_pos (by omega)] at e
    omega
  · have e := bitSum_flipBit _ hwf i i64 29 6
    have f35 := frameBit_flipBit _ hwf i 35 i64
    rw [if_neg (by omega)] at f35
    rw [if_pos (by omega), if_pos (by omega)] at e
    omega
  · have e := bitSum_flipBit _ hwf i i64 36 22
    have f58 := frameBit_flipBit _ hwf i 58 i64
    rw [if_neg (by omega)] at f58
    rw [if_pos (by omega), if_pos (by omega)] at e
    omega

theorem single_bit_error_rejected_witness :
    state_S1.WF ∧ (dcf77_newdata state_S1).1 ≠ 0 ∧
    (dcf77_newdata { state_S1 with dcf77_data_au8 := flipBit state_S1.dcf77_data_au8 40 }).1
      = FALSE :=
  ⟨by decide, by decide,
    single_bit_error_rejected state_S1 (by decide) (by decide) 40 (by decide)⟩

/-! ## One tick -/

theorem tick_eq (s : State) (pin : Bool) :
    dcf77_1ms_task s pin =
      { (if (pre_edge s pin).dcf77_pinold_b ≠ (pre_edge s pin).pindeb_b then
          { (if (pre_edge s pin).pindeb_b = FALSE then falling_edge (pre_edge s pin)
              else rising_edge (pre_edge s pin)) with dcf77_cntms_u16 := 0 }
        else pre_edge s pin) with
        dcf77_pinold_b :=
          (if (pre_edge s pin).dcf77_pinold_b ≠ (pre_edge s pin).pindeb_b then
            { (if (pre_edge s pin).pindeb_b = FALSE then falling_edge (pre_edge s pin)
                else rising_edge (pre_edge s pin)) with dcf77_cntms_u16 := 0 }
          else pre_edge s pin).pindeb_b } := rfl

theorem pre_edge_cnt (s : State) (pin : Bool) :
    (pre_edge s pin).dcf77_cntms_u16 = interval s := by
  unfold pre_edge debounce interval
  simp only []
  split_ifs <;> rfl

theorem pre_edge_core (s : State) (pin : Bool) :
    (pre_edge s pin).dcf77_sync_u8 = s.dcf77_sync_u8 ∧
    (pre_edge s pin).dcf77_bitpos_u8 = s.dcf77_bitpos_u8 ∧
    (pre_edge s pin).dfc77_datatmp_au8 = s.dfc77_datatmp_au8 ∧
    (pre_edge s pin).dcf77_data_au8 = s.dcf77_data_au8 ∧
    (pre_edge s pin).dcf77_newdata_b = s.dcf77_newdata_b ∧
    (pre_edge s pin).dcf77_pinold_b = s.dcf77_pinold_b := by
  unfold pre_edge debounce
  simp only []
  split_ifs <;> exact ⟨rfl, rfl, rfl, rfl, rfl, rfl⟩

/-- What a tick does to the decoder fields when it sees a falling edge. -/
theorem tick_falling (s : State) (pin : Bool) (h : falling_tick s pin) :
    dcf77_1ms_task s pin =
      { falling_edge (pre_edge s pin) with
        dcf77_cntms_u16 := 0
        dcf77_pinold_b := (falling_edge (pre_edge s pin)).pindeb_b } := by
  rw [tick_eq, if_pos h.1, if_pos h.2]

/-- What a tick does to the decoder fields when it sees a rising edge. -/
theorem tick_rising (s : State) (pin : Bool) (h : rising_tick s pin) :
    dcf77_1ms_task s pin =
      { rising_edge (pre_edge s pin) with
        dcf77_cntms_u16 := 0
        dcf77_pinold_b := (rising_edge (pre_edge s pin)).pindeb_b } := by
  rw [tick_eq, if_pos h.1, if_neg h.2]

/-- A tick that sees no edge leaves the decoder fields alone. -/
theorem tick_quiet (s : State) (pin : Bool)
    (h : (pre_edge s pin).dcf77_pinold_b = (pre_edge s pin).pindeb_b) :
    dcf77_1ms_task s pin = { pre_edge s pin with dcf77_pinold_b := (pre_edge s pin).pindeb_b } := by
  rw [tick_eq, if_neg (by simpa using h)]

theorem copy_frame_eq (dst src : Frame) : copy_frame dst src = src := by
  cases dst
  cases src
  simp [copy_frame, List.range_succ, Frame.set, Frame.get]

/-- A falling edge leaves the debouncer fields alone. -/
theorem falling_edge_pins (s : State) :
    (falling_edge s).pindeb_b = s.pindeb_b ∧ (falling_edge s).debcnt = s.debcnt ∧
    (falling_edge s).dcf77_pinold_b = s.dcf77_pinold_b := by
  unfold falling_edge
  simp only []
  split_ifs <;> exact ⟨rfl, rfl, rfl⟩

/-- A rising edge leaves the debouncer fields alone. -/
theorem rising_edge_pins (s : State) :
    (rising_edge s).pindeb_b = s.pindeb_b ∧ (rising_edge s).debcnt = s.debcnt ∧
    (rising_edge s).dcf77_pinold_b = s.dcf77_pinold_b := by
  unfold rising_edge
  cases h : classify s.dcf77_cntms_u16 <;> simp only [] <;> split_ifs <;>
    exact ⟨rfl, rfl, rfl⟩

/-- Falling edge strictly inside the minute-start window. -/
theorem falling_edge_marker (s : State)
    (h : 1600 < s.dcf77_cntms_u16 ∧ s.dcf77_cntms_u16 < 2200) :
    falling_edge s =
      if s.dcf77_sync_u8 = DCF77_SYNC_WAIT then
        { s with dcf77_sync_u8 := DCF77_SYNC_FIRST, dcf77_bitpos_u8 := 0 }
      else if s.dcf77_sync_u8 ≥ DCF77_SYNC_FIRST ∧ s.dcf77_bitpos_u8 = 59 then
        { s with
          dcf77_sync_u8 := DCF77_SYNC_OK
          dcf77_data_au8 := s.dfc77_datatmp_au8
          dcf77_newdata_b := TRUE
          dcf77_bitpos_u8 := 0 }
      else
        { s with dcf77_sync_u8 := DCF77_SYNC_WAIT, dcf77_bitpos_u8 := 0 } := by
  unfold falling_edge
  have h' : s.dcf77_cntms_u16 > DCF77_SIG_START_MIN ∧ s.dcf77_cntms_u16 < DCF77_SIG_START_MAX := h
  simp only [if_pos h', copy_frame_eq]
  split_ifs <;> rfl

/-- Falling edge outside the open minute-start window and outside the idle window. -/
theorem falling_edge_violation (s : State)
    (h1 : ¬ (1600 < s.dcf77_cntms_u16 ∧ s.dcf77_cntms_u16 < 2200))
    (h2 : s.dcf77_cntms_u16 < 760 ∨ 940 < s.dcf77_cntms_u16) :
    falling_edge s = { s with dcf77_sync_u8 := DCF77_SYNC_WAIT } := by
  unfold falling_edge
  have h1' : ¬ (s.dcf77_cntms_u16 > DCF77_SIG_START_MIN ∧
      s.dcf77_cntms_u16 < DCF77_SIG_START_MAX) := h1
  have h2' : s.dcf77_cntms_u16 < DCF77_BIT_IDLE_MIN ∨ s.dcf77_cntms_u16 > DCF77_BIT_IDLE_MAX := h2
  simp only [if_neg h1', if_pos h2']

/-- Falling edge inside the idle window. -/
theorem falling_edge_idle (s : State)
    (h : 760 ≤ s.dcf77_cntms_u16 ∧ s.dcf77_cntms_u16 ≤ 940) :
    falling_edge s = s := by
  unfold falling_edge
  have h1' : ¬ (s.dcf77_cntms_u16 > DCF77_SIG_START_MIN ∧
      s.dcf77_cntms_u16 < DCF77_SIG_START_MAX) := by
    unfold DCF77_SIG_START_MIN
    omega
  have h2' : ¬ (s.dcf77_cntms_u16 < DCF77_BIT_IDLE_MIN ∨
      s.dcf77_cntms_u16 > DCF77_BIT_IDLE_MAX) := by
    unfold DCF77_BIT_IDLE_MIN DCF77_BIT_IDLE_MAX DCF77_BIT_HIGH_MAX DCF77_BIT_LOW_MIN
    omega
  simp only [if_neg h1', if_neg h2']

theorem classify_none (t : Nat) (h1 : ¬ (60 < t ∧ t < 140)) (h2 : ¬ (160 < t ∧ t < 240)) :
    classify t = none := by
  unfold classify
  have h1' : ¬ (t > DCF77_BIT_LOW_MIN ∧ t < DCF77_BIT_LOW_MAX) := h1
  have h2' : ¬ (t > DCF77_BIT_HIGH_MIN ∧ t < DCF77_BIT_HIGH_MAX) := h2
  simp only [if_neg h1', if_neg h2']

theorem classify_low (t : Nat) (h : 60 < t ∧ t < 140) : classify t = some 0 := by
  unfold classify
  have h' : t > DCF77_BIT_LOW_MIN ∧ t < DCF77_BIT_LOW_MAX := h
  simp only [if_pos h']

theorem classify_high (t : Nat) (h : 160 < t ∧ t < 240) : classify t = some 1 := by
  unfold classify
  have h1' : ¬ (t > DCF77_BIT_LOW_MIN ∧ t < DCF77_BIT_LOW_MAX) := by
    unfold DCF77_BIT_LOW_MAX
    omega
  have h' : t > DCF77_BIT_HIGH_MIN ∧ t < DCF77_BIT_HIGH_MAX := h
  simp only [if_neg h1', if_pos h']

/-- Rising edge with a pulse width in neither open window: only `sync` changes. -/
theorem rising_edge_violation (s : State) (h : classify s.dcf77_cntms_u16 = none) :
    rising_edge s = { s with dcf77_sync_u8 := DCF77_SYNC_WAIT } := by
  unfold rising_edge
  simp only [h]
  have : ¬ (DCF77_SYNC_WAIT ≥ DCF77_SYNC_FIRST ∧ s.dcf77_bitpos_u8 ≤ 59) := by
    unfold DCF77_SYNC_WAIT DCF77_SYNC_FIRST
    omega
  rw [if_neg this]

/-! ## C6, amended: the minute-start window, strictly inside -/

/-- C6, amended. For every decoder state and every tick on which the debounced level
goes HIGH to LOW with a measured interval t strictly inside the window, 1600 < t < 2200,
the tick ends with `bit_index` = 0 and: if sync was WAIT then sync becomes FIRST; if sync
was FIRST or OK and `bit_index` was 59 then sync becomes OK, the published frame becomes
a copy of the scratch frame and the fresh flag is set; if sync was FIRST or OK and
`bit_index` was not 59 then sync becomes WAIT. -/
theorem marker_window_interior (s : State) (pin : Bool) (h : falling_tick s pin)
    (ht : 1600 < interval s ∧ interval s < 2200) :
    (dcf77_1ms_task s pin).dcf77_bitpos_u8 = 0 ∧
    (s.dcf77_sync_u8 = DCF77_SYNC_WAIT →
      (dcf77_1ms_task s pin).dcf77_sync_u8 = DCF77_SYNC_FIRST) ∧
    ((s.dcf77_sync_u8 = DCF77_SYNC_FIRST ∨ s.dcf77_sync_u8 = DCF77_SYNC_OK) →
      s.dcf77_bitpos_u8 = 59 →
      (dcf77_1ms_task s pin).dcf77_sync_u8 = DCF77_SYNC_OK ∧
      (dcf77_1ms_task s pin).dcf77_data_au8 = s.dfc77_datatmp_au8 ∧
      (dcf77_1ms_task s pin).dcf77_newdata_b = TRUE) ∧
    ((s.dcf77_sync_u8 = DCF77_SYNC_FIRST ∨ s.dcf77_sync_u8 = DCF77_SYNC_OK) →
      s.dcf77_bitpos_u8 ≠ 59 →
      (dcf77_1ms_task s pin).dcf77_sync_u8 = DCF77_SYNC_WAIT) := by
  obtain ⟨c1, c2, c3, c4, c5, -⟩ := pre_edge_core s pin
  have hc := pre_edge_cnt s pin
  rw [tick_falling s pin h, falling_edge_marker _ (by rw [hc]; exact ht), c1, c2, c3]
  unfold DCF77_SYNC_WAIT DCF77_SYNC_FIRST DCF77_SYNC_OK
  refine ⟨?_, ?_, ?_, ?_⟩
  · split_ifs <;> rfl
  · intro h0
    rw [if_pos h0]
  · intro h1 h2
    have n0 : ¬ s.dcf77_sync_u8 = 0 := by omega
    have n1 : s.dcf77_sync_u8 ≥ 1 ∧ s.dcf77_bitpos_u8 = 59 := by omega
    rw [if_neg n0, if_pos n1]
    exact ⟨rfl, rfl, rfl⟩
  · intro h1 h2
    have n0 : ¬ s.dcf77_sync_u8 = 0 := by omega
    have n1 : ¬ (s.dcf77_sync_u8 ≥ 1 ∧ s.dcf77_bitpos_u8 = 59) := by omega
    rw [if_neg n0, if_neg n1]

/-- Rising edge with a classified pulse on a synchronised decoder: the bit is stored. -/
theorem rising_edge_store (s : State) (b : Nat) (hc : classify s.dcf77_cntms_u16 = some b)
    (hs : 1 ≤ s.dcf77_sync_u8) (hb : s.dcf77_bitpos_u8 ≤ 59) :
    rising_edge s =
      { s with
        dfc77_datatmp_au8 := store_bit s.dfc77_datatmp_au8 s.dcf77_bitpos_u8 b
        dcf77_bitpos_u8 := s.dcf77_bitpos_u8 + 1 } := by
  unfold rising_edge store_bit
  simp only [hc, Option.getD_some]
  have g : s.dcf77_sync_u8 ≥ DCF77_SYNC_FIRST ∧ s.dcf77_bitpos_u8 ≤ 59 := ⟨hs, hb⟩
  have e1 : s.dcf77_bitpos_u8 / 8 % 256 = s.dcf77_bitpos_u8 / 8 := by omega
  have e2 : (s.dcf77_bitpos_u8 + 1) % 256 = s.dcf77_bitpos_u8 + 1 := by omega
  rw [if_pos g, e1, e2]

/-- Rising edge on a decoder that is not synchronised: nothing is stored. -/
theorem rising_edge_wait (s : State) (hs : s.dcf77_sync_u8 = DCF77_SYNC_WAIT) :
    rising_edge s = s := by
  unfold rising_edge
  have g : ¬ (s.dcf77_sync_u8 ≥ DCF77_SYNC_FIRST ∧ s.dcf77_bitpos_u8 ≤ 59) := by
    rw [hs]
    unfold DCF77_SYNC_WAIT DCF77_SYNC_FIRST
    omega
  have g2 : ¬ (DCF77_SYNC_WAIT ≥ DCF77_SYNC_FIRST ∧ s.dcf77_bitpos_u8 ≤ 59) := by
    unfold DCF77_SYNC_WAIT DCF77_SYNC_FIRST
    omega
  cases h : classify s.dcf77_cntms_u16
  · simp only [if_neg g2]
    rw [← hs]
  · simp only [if_neg g]
    rw [← hs]

/-! ## C7, amended: the pulse-width windows, strictly inside -/

/-- C7, amended. For every decoder state with sync FIRST or OK and `bit_index` ≤ 59 and
every tick on which the debounced level goes LOW to HIGH with measured pulse width t:
for 60 < t < 140 the bit 0, and for 160 < t < 240 the bit 1, is stored at `bit_index`
in the scratch frame, `bit_index` advances by one and sync is not reset (both windows
taken without their bounds). -/
theorem pulse_window_interior (s : State) (pin : Bool) (h : rising_tick s pin)
    (hs : s.dcf77_sync_u8 = DCF77_SYNC_FIRST ∨ s.dcf77_sync_u8 = DCF77_SYNC_OK)
    (hb : s.dcf77_bitpos_u8 ≤ 59) :
    ((60 < interval s ∧ interval s < 140) →
      (dcf77_1ms_task s pin).dfc77_datatmp_au8
        = store_bit s.dfc77_datatmp_au8 s.dcf77_bitpos_u8 0 ∧
      (dcf77_1ms_task s pin).dcf77_bitpos_u8 = s.dcf77_bitpos_u8 + 1 ∧
      (dcf77_1ms_task s pin).dcf77_sync_u8 = s.dcf77_sync_u8) ∧
    ((160 < interval s ∧ interval s < 240) →
      (dcf77_1ms_task s pin).dfc77_datatmp_au8
        = store_bit s.dfc77_datatmp_au8 s.dcf77_bitpos_u8 1 ∧
      (dcf77_1ms_task s pin).dcf77_bitpos_u8 = s.dcf77_bitpos_u8 + 1 ∧
      (dcf77_1ms_task s pin).dcf77_sync_u8 = s.dcf77_sync_u8) := by
  obtain ⟨c1, c2, c3, c4, c5, -⟩ := pre_edge_core s pin
  have hc := pre_edge_cnt s pin
  have hs1 : 1 ≤ (pre_edge s pin).dcf77_sync_u8 := by
    rw [c1]
    unfold DCF77_SYNC_FIRST DCF77_SYNC_OK at hs
    omega
  rw [tick_rising s pin h]
  constructor
  · intro ht
    rw [rising_edge_store _ 0 (by rw [hc]; exact classify_low _ ht) hs1 (by rw [c2]; exact hb),
      c1, c2, c3]
    exact ⟨rfl, rfl, rfl⟩
  · intro ht
    rw [rising_edge_store _ 1 (by rw [hc]; exact classify_high _ ht) hs1 (by rw [c2]; exact hb),
      c1, c2, c3]
    exact ⟨rfl, rfl, rfl⟩

/-! ## C10: timing violations -/

/-- C10. A tick that sees a rising edge with a pulse width outside both 60..140 and
160..240, or a falling edge with an idle interval outside both 760..940 and 1600..2200,
ends with sync = WAIT and leaves the scratch frame, `bit_index`, the published frame
and the fresh flag unchanged. -/
theorem timing_violation_resets (s : State) (pin : Bool)
    (h : (rising_tick s pin ∧ ¬ (60 ≤ interval s ∧ interval s ≤ 140) ∧
            ¬ (160 ≤ interval s ∧ interval s ≤ 240)) ∨
         (falling_tick s pin ∧ ¬ (760 ≤ interval s ∧ interval s ≤ 940) ∧
            ¬ (1600 ≤ interval s ∧ interval s ≤ 2200))) :
    (dcf77_1ms_task s pin).dcf77_sync_u8 = DCF77_SYNC_WAIT ∧
    (dcf77_1ms_task s pin).dfc77_datatmp_au8 = s.dfc77_datatmp_au8 ∧
    (dcf77_1ms_task s pin).dcf77_bitpos_u8 = s.dcf77_bitpos_u8 ∧
    (dcf77_1ms_task s pin).dcf77_data_au8 = s.dcf77_data_au8 ∧
    (dcf77_1ms_task s pin).dcf77_newdata_b = s.dcf77_newdata_b := by
  obtain ⟨c1, c2, c3, c4, c5, -⟩ := pre_edge_core s pin
  have hc := pre_edge_cnt s pin
  rcases h with ⟨hr, h1, h2⟩ | ⟨hf, h1, h2⟩
  · rw [tick_rising s pin hr, rising_edge_violation _
      (by rw [hc]; exact classify_none _ (by omega) (by omega))]
    exact ⟨rfl, c3, c2, c4, c5⟩
  · rw [tick_falling s pin hf, falling_edge_violation _ (by rw [hc]; omega) (by rw [hc]; omega)]
    exact ⟨rfl, c3, c2, c4, c5⟩

theorem timing_violation_resets_witness :
    (rising_tick (state_before_pulse_end 40) true ∧
      interval (state_before_pulse_end 40) = 40 ∧
      (state_before_pulse_end 40).dcf77_sync_u8 = DCF77_SYNC_OK ∧
      (dcf77_1ms_task (state_before_pulse_end 40) true).dcf77_sync_u8 = DCF77_SYNC_WAIT) ∧
    (falling_tick (state_before_marker 1200) false ∧
      interval (state_before_marker 1200) = 1200 ∧
      (state_before_marker 1200).dcf77_sync_u8 = DCF77_SYNC_FIRST ∧
      (dcf77_1ms_task (state_before_marker 1200) false).dcf77_sync_u8 = DCF77_SYNC_WAIT) :=
  ⟨⟨by decide, by decide, by decide,
      (timing_violation_resets (state_before_pulse_end 40) true
        (Or.inl ⟨by decide, by decide, by decide⟩)).1⟩,
    ⟨by decide, by decide, by decide,
      (timing_violation_resets (state_before_marker 1200) false
        (Or.inr ⟨by decide, by decide, by decide⟩)).1⟩⟩

/-! ## Runs over stretches of constant raw level -/

theorem irun_append (x : State × Progress) (a b : List Bool) :
    irun x (a ++ b) = irun (irun x a) b := by
  unfold irun
  rw [List.foldl_append]

theorem irun_fst (x : State × Progress) (tr : List Bool) : (irun x tr).1 = run x.1 tr := by
  induction tr generalizing x with
  | nil => rfl
  | cons p tr ih => exact ih (istep x p)

/-- A tick whose raw sample agrees with the settled debounced level only counts. -/
theorem istep_same (s : State) (g : Progress) (pin : Bool) (h1 : Settled s pin.toNat)
    (h4 : s.dcf77_cntms_u16 + 1 < 65536) :
    istep (s, g) pin = ({ s with dcf77_cntms_u16 := s.dcf77_cntms_u16 + 1 }, g) := by
  obtain ⟨po, nd, bp, c, tmp, d, sy, dc, pd⟩ := s
  obtain ⟨a1, a2, a3⟩ := h1
  simp only at a1 a2 a3 h4
  subst a1 a2 a3
  simp [istep, dcf77_1ms_task, tick_event, pre_edge, debounce, Nat.mod_eq_of_lt h4,
    Progress.step]

/-- A tick whose raw sample disagrees, before the debounce time is reached. -/
theorem istep_wait (s : State) (g : Progress) (pin : Bool)
    (h1 : s.dcf77_pinold_b = s.pindeb_b) (h2 : pin.toNat ≠ s.pindeb_b)
    (h3 : s.debcnt + 1 < 35) (h4 : s.dcf77_cntms_u16 + 1 < 65536) :
    istep (s, g) pin =
      ({ s with dcf77_cntms_u16 := s.dcf77_cntms_u16 + 1, debcnt := s.debcnt + 1 }, g) := by
  obtain ⟨po, nd, bp, c, tmp, d, sy, dc, pd⟩ := s
  simp only at h1 h2 h3 h4
  subst h1
  have e : (dc + 1) % 256 = dc + 1 := by omega
  have n : ¬ (DCF77_DEBOUNCE_TIME ≤ dc + 1) := by
    unfold DCF77_DEBOUNCE_TIME
    omega
  simp [istep, dcf77_1ms_task, tick_event, pre_edge, debounce, Nat.mod_eq_of_lt h4,
    Progress.step, h2, e, n]

theorem pre_edge_flip (s : State) (pin : Bool) (h2 : pin.toNat ≠ s.pindeb_b)
    (h3 : s.debcnt = 34) (h4 : s.dcf77_cntms_u16 + 1 < 65536) :
    pre_edge s pin =
      { s with dcf77_cntms_u16 := s.dcf77_cntms_u16 + 1, debcnt := 0, pindeb_b := pin.toNat } := by
  obtain ⟨po, nd, bp, c, tmp, d, sy, dc, pd⟩ := s
  simp only at h2 h3 h4
  subst h3
  simp [pre_edge, debounce, Nat.mod_eq_of_lt h4, h2, DCF77_DEBOUNCE_TIME]

/-- The tick on which the debounced level drops. -/
theorem istep_fall (s : State) (g : Progress) (h1 : s.dcf77_pinold_b = s.pindeb_b)
    (h2 : s.pindeb_b ≠ 0) (h3 : s.debcnt = 34) (h4 : s.dcf77_cntms_u16 + 1 < 65536) :
    istep (s, g) false =
      ({ falling_edge { s with dcf77_cntms_u16 := s.dcf77_cntms_u16 + 1, debcnt := 0,
                               pindeb_b := 0 } with
          dcf77_cntms_u16 := 0, dcf77_pinold_b := 0 },
        g.step (fall_event (s.dcf77_cntms_u16 + 1))) := by
  have hp := pre_edge_flip s false (by simpa using h2.symm) h3 h4
  have hf : falling_tick s false := by
    unfold falling_tick
    rw [hp]
    exact ⟨by simpa [h1] using h2, rfl⟩
  have he : tick_event s false = fall_event (s.dcf77_cntms_u16 + 1) := by
    unfold tick_event
    rw [if_pos hf.1, if_pos hf.2, hp]
  unfold istep
  simp only []
  rw [he, tick_falling s false hf, (falling_edge_pins _).1, hp]
  rfl

/-- The tick on which the debounced level rises. -/
theorem istep_rise (s : State) (g : Progress) (h1 : s.dcf77_pinold_b = s.pindeb_b)
    (h2 : s.pindeb_b = 0) (h3 : s.debcnt = 34) (h4 : s.dcf77_cntms_u16 + 1 < 65536) :
    istep (s, g) true =
      ({ rising_edge { s with dcf77_cntms_u16 := s.dcf77_cntms_u16 + 1, debcnt := 0,
                              pindeb_b := 1 } with
          dcf77_cntms_u16 := 0, dcf77_pinold_b := 1 },
        g.step (rise_event (s.dcf77_cntms_u16 + 1))) := by
  have hp := pre_edge_flip s true (by simp [h2]) h3 h4
  have hf : rising_tick s true := by
    unfold rising_tick
    rw [hp]
    refine ⟨?_, ?_⟩
    · simp [h1, h2]
    · simp [FALSE]
  have he : tick_event s true = rise_event (s.dcf77_cntms_u16 + 1) := by
    unfold tick_event
    rw [if_pos hf.1, if_neg hf.2, hp]
  unfold istep
  simp only []
  rw [he, tick_rising s true hf, (rising_edge_pins _).1, hp]
  rfl

/-- Raw samples that agree with the settled level: only the counter moves. -/
theorem irun_same (n : Nat) (s : State) (g : Progress) (pin : Bool) (h1 : Settled s pin.toNat)
    (h4 : s.dcf77_cntms_u16 + n < 65536) :
    irun (s, g) (List.replicate n pin)
      = ({ s with dcf77_cntms_u16 := s.dcf77_cntms_u16 + n }, g) := by
  induction n generalizing s with
  | zero => rfl
  | succ n ih =>
    rw [List.replicate_succ]
    show irun (istep (s, g) pin) (List.replicate n pin) = _
    rw [istep_same s g pin h1 (by omega),
      ih { s with dcf77_cntms_u16 := s.dcf77_cntms_u16 + 1 } h1 (by simp only []; omega)]
    simp only [Nat.add_assoc, Nat.add_comm 1 n]

/-- Fewer than 35 raw samples that disagree: the counter and the debounce counter move. -/
theorem irun_wait (n : Nat) (s : State) (g : Progress) (pin : Bool)
    (h1 : s.dcf77_pinold_b = s.pindeb_b) (h2 : pin.toNat ≠ s.pindeb_b)
    (h3 : s.debcnt + n < 35) (h4 : s.dcf77_cntms_u16 + n < 65536) :
    irun (s, g) (List.replicate n pin)
      = ({ s with dcf77_cntms_u16 := s.dcf77_cntms_u16 + n, debcnt := s.debcnt + n }, g) := by
  induction n generalizing s with
  | zero => rfl
  | succ n ih =>
    rw [List.replicate_succ]
    show irun (istep (s, g) pin) (List.replicate n pin) = _
    rw [istep_wait s g pin h1 h2 (by omega) (by omega),
      ih { s with dcf77_cntms_u16 := s.dcf77_cntms_u16 + 1, debcnt := s.debcnt + 1 } h1 h2
        (by simp only []; omega) (by simp only []; omega)]
    simp only [Nat.add_assoc, Nat.add_comm 1 n]

theorem replicate_35_add (k : Nat) (pin : Bool) :
    List.replicate (35 + k) pin = List.replicate 34 pin ++ (pin :: List.replicate k pin) := by
  rw [show 35 + k = 34 + (k + 1) by omega, List.replicate_add]
  rfl

/-- The raw level drops and stays LOW for `35 + k` samples: the falling edge is handled
on the 35th sample with the interval measured up to it. -/
theorem irun_drop (k : Nat) (s : State) (g : Progress) (L : Nat) (h : Settled s L)
    (hL : L ≠ 0) (hc : s.dcf77_cntms_u16 + 35 < 65536) (hk : k < 65536) :
    irun (s, g) (List.replicate (35 + k) false) =
      ({ falling_edge { s with dcf77_cntms_u16 := s.dcf77_cntms_u16 + 35, pindeb_b := 0 } with
          dcf77_cntms_u16 := k, dcf77_pinold_b := 0 },
        g.step (fall_event (s.dcf77_cntms_u16 + 35))) := by
  obtain ⟨a1, a2, a3⟩ := h
  rw [replicate_35_add, irun_append,
    irun_wait 34 s g false (by rw [a1, a2]) (by rw [a1]; simpa using hL.symm)
      (by omega) (by omega)]
  show irun (istep _ false) (List.replicate k false) = _
  rw [istep_fall _ g (by simp only []; rw [a1, a2]) (by simp only []; rw [a1]; exact hL)
    (by simp only []; omega) (by simp only []; omega)]
  have e : ({ s with dcf77_cntms_u16 := s.dcf77_cntms_u16 + 34, debcnt := s.debcnt + 34 } : State)
      = { s with dcf77_cntms_u16 := s.dcf77_cntms_u16 + 34, debcnt := 34 } := by
    rw [a3]
  simp only [e]
  have q := falling_edge_pins
    { s with dcf77_cntms_u16 := s.dcf77_cntms_u16 + 34 + 1, debcnt := 0, pindeb_b := 0 }
  rw [irun_same k _ _ false ⟨by simpa using q.1, rfl, by simpa using q.2.1⟩
    (by simp only []; omega)]
  have e2 : ({ s with dcf77_cntms_u16 := s.dcf77_cntms_u16 + 34 + 1, debcnt := 0,
                      pindeb_b := 0 } : State)
      = { s with dcf77_cntms_u16 := s.dcf77_cntms_u16 + 35, pindeb_b := 0 } := by
    rw [← a3]
  simp only [e2, Nat.zero_add]

/-- The raw level rises and stays HIGH for `35 + k` samples: the rising edge is handled
on the 35th sample with the pulse width measured up to it. -/
theorem irun_raise (k : Nat) (s : State) (g : Progress) (h : Settled s 0)
    (hc : s.dcf77_cntms_u16 + 35 < 65536) (hk : k < 65536) :
    irun (s, g) (List.replicate (35 + k) true) =
      ({ rising_edge { s with dcf77_cntms_u16 := s.dcf77_cntms_u16 + 35, pindeb_b := 1 } with
          dcf77_cntms_u16 := k, dcf77_pinold_b := 1 },
        g.step (rise_event (s.dcf77_cntms_u16 + 35))) := by
  obtain ⟨a1, a2, a3⟩ := h
  rw [replicate_35_add, irun_append,
    irun_wait 34 s g true (by rw [a1, a2]) (by rw [a1]; simp)
      (by omega) (by omega)]
  show irun (istep _ true) (List.replicate k true) = _
  rw [istep_rise _ g (by simp only []; rw [a1, a2]) (by simp only []; rw [a1])
    (by simp only []; omega) (by simp only []; omega)]
  have e : ({ s with dcf77_cntms_u16 := s.dcf77_cntms_u16 + 34, debcnt := s.debcnt + 34 } : State)
      = { s with dcf77_cntms_u16 := s.dcf77_cntms_u16 + 34, debcnt := 34 } := by
    rw [a3]
  simp only [e]
  have q := rising_edge_pins
    { s with dcf77_cntms_u16 := s.dcf77_cntms_u16 + 34 + 1, debcnt := 0, pindeb_b := 1 }
  rw [irun_same k _ _ true ⟨by simpa using q.1, rfl, by simpa using q.2.1⟩
    (by simp only []; omega)]
  have e2 : ({ s with dcf77_cntms_u16 := s.dcf77_cntms_u16 + 34 + 1, debcnt := 0,
                      pindeb_b := 1 } : State)
      = { s with dcf77_cntms_u16 := s.dcf77_cntms_u16 + 35, pindeb_b := 1 } := by
    rw [← a3]
  simp only [e2, Nat.zero_add]

/-! ## Perfectly timed seconds -/

theorem pulse_width_cases (b : Bool) : pulse_width b = 100 ∨ pulse_width b = 200 := by
  cases b
  · exact Or.inl rfl
  · exact Or.inr rfl

theorem fall_event_idle (t : Nat) (h : 760 ≤ t ∧ t ≤ 940) : fall_event t = Event.idle_ok := by
  unfold fall_event DCF77_SIG_START_MIN DCF77_SIG_START_MAX DCF77_BIT_IDLE_MIN
    DCF77_BIT_IDLE_MAX DCF77_BIT_HIGH_MAX DCF77_BIT_LOW_MIN
  rw [if_neg (by omega), if_neg (by omega)]

theorem fall_event_marker (t : Nat) (h : 1600 < t ∧ t < 2200) :
    fall_event t = Event.marker := by
  unfold fall_event DCF77_SIG_START_MIN DCF77_SIG_START_MAX
  rw [if_pos (by omega)]

theorem classify_pulse (b : Bool) : classify (pulse_width b) = some b.toNat := by
  cases b
  · exact classify_low 100 (by omega)
  · exact classify_high 200 (by omega)

theorem rise_event_pulse (b : Bool) : rise_event (pulse_width b) = Event.bit b.toNat := by
  unfold rise_event
  rw [classify_pulse]

/-- The split of a perfectly timed second at the two debounced edges. -/
theorem bit_second_split (b : Bool) :
    bit_second b = List.replicate (35 + (pulse_width b - 35)) false
      ++ List.replicate (35 + (965 - pulse_width b)) true := by
  unfold bit_second
  rcases pulse_width_cases b with h | h <;> rw [h]

/-- One perfectly timed second on a synchronised decoder: the idle before the pulse is
legal and the bit is stored. -/
theorem second_sync (s : State) (g : Progress) (b : Bool) (h : Settled s 1)
    (hs : 1 ≤ s.dcf77_sync_u8)
    (hc : 760 ≤ s.dcf77_cntms_u16 + 35 ∧ s.dcf77_cntms_u16 + 35 ≤ 940)
    (hb : s.dcf77_bitpos_u8 ≤ 59) :
    irun (s, g) (bit_second b) =
      ({ s with
          dcf77_cntms_u16 := 965 - pulse_width b
          dfc77_datatmp_au8 := store_bit s.dfc77_datatmp_au8 s.dcf77_bitpos_u8 b.toNat
          dcf77_bitpos_u8 := s.dcf77_bitpos_u8 + 1 },
        { g with bits := g.bits + 1 }) := by
  have hw := pulse_width_cases b
  obtain ⟨a1, a2, a3⟩ := h
  rw [bit_second_split, irun_append, irun_drop _ s g 1 ⟨a1, a2, a3⟩ (by omega) (by omega)
    (by omega), falling_edge_idle _ hc, fall_event_idle _ hc]
  have e : pulse_width b - 35 + 35 = pulse_width b := by omega
  rw [irun_raise]
  · simp only [e]
    rw [rising_edge_store _ b.toNat, rise_event_pulse]
    · obtain ⟨po, nd, bp, c, tmp, d, sy, dc, pd⟩ := s
      simp only at a1 a2 a3
      subst a1 a2 a3
      rfl
    · exact classify_pulse b
    · exact hs
    · exact hb
  · exact ⟨rfl, rfl, a3⟩
  · simp only []
    omega
  · omega

/-- One perfectly timed second while the decoder waits for its first marker and the
idle before the pulse is no marker: nothing is stored. -/
theorem second_wait (s : State) (g : Progress) (b : Bool) (h : Settled s 1)
    (hs : s.dcf77_sync_u8 = DCF77_SYNC_WAIT)
    (hc : 760 ≤ s.dcf77_cntms_u16 + 35 ∧ s.dcf77_cntms_u16 + 35 ≤ 940) :
    irun (s, g) (bit_second b) =
      ({ s with dcf77_cntms_u16 := 965 - pulse_width b }, { g with bits := g.bits + 1 }) := by
  have hw := pulse_width_cases b
  obtain ⟨a1, a2, a3⟩ := h
  rw [bit_second_split, irun_append, irun_drop _ s g 1 ⟨a1, a2, a3⟩ (by omega) (by omega)
    (by omega), falling_edge_idle _ hc, fall_event_idle _ hc]
  have e : pulse_width b - 35 + 35 = pulse_width b := by omega
  rw [irun_raise]
  · simp only [e]
    rw [rising_edge_wait, rise_event_pulse]
    · obtain ⟨po, nd, bp, c, tmp, d, sy, dc, pd⟩ := s
      simp only at a1 a2 a3
      subst a1 a2 a3
      rfl
    · exact hs
  · exact ⟨rfl, rfl, a3⟩
  · simp only []
    omega
  · omega

/-- The first second after a minute marker's long idle, on a decoder that waits: the
marker gives sync = FIRST and the bit is stored at position 0. -/
theorem second_first_marker (s : State) (g : Progress) (b : Bool) (h : Settled s 1)
    (hs : s.dcf77_sync_u8 = DCF77_SYNC_WAIT)
    (hc : 1600 < s.dcf77_cntms_u16 + 35 ∧ s.dcf77_cntms_u16 + 35 < 2200) :
    irun (s, g) (bit_second b) =
      ({ s with
          dcf77_cntms_u16 := 965 - pulse_width b
          dcf77_sync_u8 := DCF77_SYNC_FIRST
          dfc77_datatmp_au8 := store_bit s.dfc77_datatmp_au8 0 b.toNat
          dcf77_bitpos_u8 := 1 },
        (g.step Event.marker).step (Event.bit b.toNat)) := by
  have hw := pulse_width_cases b
  obtain ⟨a1, a2, a3⟩ := h
  rw [bit_second_split, irun_append, irun_drop _ s g 1 ⟨a1, a2, a3⟩ (by omega) (by omega)
    (by omega), falling_edge_marker _ hc, fall_event_marker _ hc]
  simp only [hs, if_true]
  have e : pulse_width b - 35 + 35 = pulse_width b := by omega
  rw [irun_raise]
  · simp only [e]
    rw [rising_edge_store _ b.toNat, rise_event_pulse]
    · obtain ⟨po, nd, bp, c, tmp, d, sy, dc, pd⟩ := s
      simp only at a1 a2 a3
      subst a1 a2 a3
      rfl
    · exact classify_pulse b
    · simp [DCF77_SYNC_FIRST]
    · simp
  · exact ⟨rfl, rfl, a3⟩
  · simp only []
    omega
  · omega

/-- The first second after a cold start: the debounced level is LOW already, so only
the rising edge is seen, late by the debounce time, and nothing is stored. -/
theorem second_cold (s : State) (g : Progress) (b : Bool) (h : Settled s 0)
    (hs : s.dcf77_sync_u8 = DCF77_SYNC_WAIT) (hc : s.dcf77_cntms_u16 = 0) :
    irun (s, g) (bit_second b) =
      ({ s with dcf77_cntms_u16 := 965 - pulse_width b, pindeb_b := 1, dcf77_pinold_b := 1 },
        { g with bits := g.bits + 1 }) := by
  have hw := pulse_width_cases b
  obtain ⟨a1, a2, a3⟩ := h
  have ev : rise_event (pulse_width b + 35) = Event.bit b.toNat := by
    unfold rise_event
    cases b
    · rw [show pulse_width false + 35 = 135 from rfl, classify_low 135 (by omega)]
      rfl
    · rw [show pulse_width true + 35 = 235 from rfl, classify_high 235 (by omega)]
      rfl
  have sp : bit_second b = List.replicate (pulse_width b) false
      ++ List.replicate (35 + (965 - pulse_width b)) true := by
    unfold bit_second
    rcases hw with h | h <;> rw [h]
  rw [sp, irun_append, irun_same _ s g false ⟨a1, a2, a3⟩ (by omega), irun_raise]
  · simp only [hc, Nat.zero_add]
    rw [rising_edge_wait, ev]
    · rfl
    · exact hs
  · exact ⟨a1, a2, a3⟩
  · simp only []
    omega
  · omega

/-- The silent second 59: the counter runs on. -/
theorem second_silent (s : State) (g : Progress) (h : Settled s 1)
    (hc : s.dcf77_cntms_u16 + 1000 < 65536) :
    irun (s, g) silent_second
      = ({ s with dcf77_cntms_u16 := s.dcf77_cntms_u16 + 1000 }, g) :=
  irun_same 1000 s g true h hc

/-- The falling edge after a silent second, on a synchronised decoder holding 59 bits:
the frame is published. -/
theorem marker_commit (s : State) (g : Progress) (h : Settled s 1)
    (hs : 1 ≤ s.dcf77_sync_u8) (hb : s.dcf77_bitpos_u8 = 59)
    (hc : 1600 < s.dcf77_cntms_u16 + 35 ∧ s.dcf77_cntms_u16 + 35 < 2200) :
    irun (s, g) (List.replicate 35 false) =
      ({ s with
          dcf77_cntms_u16 := 0
          pindeb_b := 0
          dcf77_pinold_b := 0
          dcf77_sync_u8 := DCF77_SYNC_OK
          dcf77_data_au8 := s.dfc77_datatmp_au8
          dcf77_newdata_b := TRUE
          dcf77_bitpos_u8 := 0 },
        g.step Event.marker) := by
  rw [show (35 : Nat) = 35 + 0 from rfl, irun_drop 0 s g 1 h (by omega) (by omega) (by omega),
    falling_edge_marker _ hc, fall_event_marker _ hc]
  have n0 : ¬ s.dcf77_sync_u8 = DCF77_SYNC_WAIT := by
    unfold DCF77_SYNC_WAIT
    omega
  have n1 : s.dcf77_sync_u8 ≥ DCF77_SYNC_FIRST ∧ s.dcf77_bitpos_u8 = 59 := ⟨hs, hb⟩
  simp only [if_neg n0, if_pos n1]

/-- The falling edge after a silent second, on a decoder that waits: sync = FIRST. -/
theorem marker_first (s : State) (g : Progress) (h : Settled s 1)
    (hs : s.dcf77_sync_u8 = DCF77_SYNC_WAIT)
    (hc : 1600 < s.dcf77_cntms_u16 + 35 ∧ s.dcf77_cntms_u16 + 35 < 2200) :
    irun (s, g) (List.replicate 35 false) =
      ({ s with
          dcf77_cntms_u16 := 0
          pindeb_b := 0
          dcf77_pinold_b := 0
          dcf77_sync_u8 := DCF77_SYNC_FIRST
          dcf77_bitpos_u8 := 0 },
        g.step Event.marker) := by
  rw [show (35 : Nat) = 35 + 0 from rfl, irun_drop 0 s g 1 h (by omega) (by omega) (by omega),
    falling_edge_marker _ hc, fall_event_marker _ hc]
  simp only [hs, if_true]

/-- Perfectly timed seconds on a synchronised decoder: every bit is stored. -/
theorem bits_sync (bs : List Bool) (s : State) (g : Progress) (h : Settled s 1)
    (hs : 1 ≤ s.dcf77_sync_u8)
    (hc : 760 ≤ s.dcf77_cntms_u16 + 35 ∧ s.dcf77_cntms_u16 + 35 ≤ 940)
    (hb : s.dcf77_bitpos_u8 + bs.length ≤ 60) :
    ∃ c, (760 ≤ c + 35 ∧ c + 35 ≤ 940) ∧
      irun (s, g) (bits_signal bs) =
        ({ s with
            dcf77_cntms_u16 := c
            dfc77_datatmp_au8 := store_bits s.dfc77_datatmp_au8 s.dcf77_bitpos_u8 bs
            dcf77_bitpos_u8 := s.dcf77_bitpos_u8 + bs.length },
          { g with bits := g.bits + bs.length }) := by
  induction bs generalizing s g with
  | nil => exact ⟨s.dcf77_cntms_u16, hc, rfl⟩
  | cons b bs ih =>
    have hw := pulse_width_cases b
    rw [List.length_cons] at hb
    obtain ⟨c, hc', e⟩ := ih
      { s with
        dcf77_cntms_u16 := 965 - pulse_width b
        dfc77_datatmp_au8 := store_bit s.dfc77_datatmp_au8 s.dcf77_bitpos_u8 b.toNat
        dcf77_bitpos_u8 := s.dcf77_bitpos_u8 + 1 }
      { g with bits := g.bits + 1 } h hs (by simp only []; omega) (by simp only []; omega)
    refine ⟨c, hc', ?_⟩
    show irun (s, g) (bit_second b ++ bits_signal bs) = _
    rw [irun_append, second_sync s g b h hs hc (by omega), e]
    simp only [store_bits, List.length_cons, Nat.add_assoc, Nat.add_comm 1 bs.length]

/-- Perfectly timed seconds on a decoder that waits: nothing is stored. -/
theorem bits_wait (bs : List Bool) (s : State) (g : Progress) (h : Settled s 1)
    (hs : s.dcf77_sync_u8 = DCF77_SYNC_WAIT)
    (hc : 760 ≤ s.dcf77_cntms_u16 + 35 ∧ s.dcf77_cntms_u16 + 35 ≤ 940) :
    ∃ c, (760 ≤ c + 35 ∧ c + 35 ≤ 940) ∧
      irun (s, g) (bits_signal bs) =
        ({ s with dcf77_cntms_u16 := c }, { g with bits := g.bits + bs.length }) := by
  induction bs generalizing s g with
  | nil => exact ⟨s.dcf77_cntms_u16, hc, rfl⟩
  | cons b bs ih =>
    have hw := pulse_width_cases b
    obtain ⟨c, hc', e⟩ := ih { s with dcf77_cntms_u16 := 965 - pulse_width b }
      { g with bits := g.bits + 1 } h hs (by simp only []; omega)
    refine ⟨c, hc', ?_⟩
    show irun (s, g) (bit_second b ++ bits_signal bs) = _
    rw [irun_append, second_wait s g b h hs hc, e]
    simp only [List.length_cons, Nat.add_assoc, Nat.add_comm 1 bs.length]

/-! ## The stored bits of a frame -/

section bytes4
set_option maxRecDepth 100000

theorem bitAt_or_bit : ∀ d, d < 256 → ∀ k, k < 8 → ∀ j, j < 8 →
    bitAt ((d ||| (1 <<< k)) % 256) j = if j = k then 1 else bitAt d j := by decide!

theorem bitAt_and_not_bit : ∀ d, d < 256 → ∀ k, k < 8 → ∀ j, j < 8 →
    bitAt ((d &&& (0xFFFF ^^^ (1 <<< k))) % 256) j = if j = k then 0 else bitAt d j := by
  decide!

end bytes4

theorem store_bit_WF (f : Frame) (hf : f.WF) (i b : Nat) : (store_bit f i b).WF := by
  unfold store_bit
  split
  · exact Frame.WF_set f hf _ _ (Nat.mod_lt _ (by omega))
  · exact Frame.WF_set f hf _ _ (Nat.mod_lt _ (by omega))

/-- Storing a bit at position `i` sets frame bit `i` and leaves the other bits. -/
theorem frameBit_store_bit (f : Frame) (hf : f.WF) (i b j : Nat) (hi : i < 64) :
    frameBit (store_bit f i b) j
      = if j = i then (if b ≠ 0 then 1 else 0) else frameBit f j := by
  have key : ∀ v : Nat,
      (∀ q, q < 8 → bitAt v q = if q = i % 8 then (if b ≠ 0 then 1 else 0)
        else bitAt (f.get (i / 8)) q) →
      frameBit (f.set (i / 8) v) j
        = if j = i then (if b ≠ 0 then 1 else 0) else frameBit f j := by
    intro v hv
    unfold frameBit
    rw [Frame.get_set]
    by_cases h8 : i / 8 = j / 8
    · have hlt : i / 8 < 8 := by omega
      rw [if_pos ⟨h8, hlt⟩, hv _ (Nat.mod_lt _ (by omega))]
      by_cases hji : j = i
      · subst hji
        simp
      · have : j % 8 ≠ i % 8 := by omega
        rw [if_neg this, if_neg hji, h8]
    · have hji : j ≠ i := by
        intro e
        subst e
        exact h8 rfl
      have : ¬ (i / 8 = j / 8 ∧ i / 8 < 8) := fun c => h8 c.1
      rw [if_neg this, if_neg hji]
  unfold store_bit
  have hd := Frame.WF_get f hf (i / 8)
  have hk : i % 8 < 8 := Nat.mod_lt _ (by omega)
  by_cases hb : b ≠ 0
  · rw [if_pos hb]
    apply key
    intro q hq
    rw [bitAt_or_bit _ hd _ hk _ hq, if_pos hb]
  · rw [if_neg hb]
    apply key
    intro q hq
    rw [bitAt_and_not_bit _ hd _ hk _ hq, if_neg hb]

theorem store_bits_WF (bs : List Bool) (f : Frame) (hf : f.WF) (i : Nat) :
    (store_bits f i bs).WF := by
  induction bs generalizing f i with
  | nil => exact hf
  | cons b bs ih => exact ih _ (store_bit_WF f hf i b.toNat) (i + 1)

/-- After storing a list of bits from position `i`, the frame holds them there. -/
theorem frameBit_store_bits (bs : List Bool) (f : Frame) (hf : f.WF) (i j : Nat)
    (hi : i + bs.length ≤ 64) :
    frameBit (store_bits f i bs) j
      = if i ≤ j ∧ j < i + bs.length then bit_of bs (j - i) else frameBit f j := by
  induction bs generalizing f i with
  | nil =>
    have : ¬ (i ≤ j ∧ j < i + ([] : List Bool).length) := by
      simp only [List.length_nil]
      omega
    rw [if_neg this]
    rfl
  | cons b bs ih =>
    rw [List.length_cons] at hi
    show frameBit (store_bits (store_bit f i b.toNat) (i + 1) bs) j = _
    rw [ih _ (store_bit_WF f hf i b.toNat) (i + 1) (by omega),
      frameBit_store_bit f hf i b.toNat j (by omega), List.length_cons]
    by_cases c1 : j = i
    · subst c1
      have n1 : ¬ (j + 1 ≤ j ∧ j < j + 1 + bs.length) := by omega
      have n2 : j ≤ j ∧ j < j + (bs.length + 1) := by omega
      rw [if_neg n1, if_pos rfl, if_pos n2, Nat.sub_self]
      cases b <;> rfl
    · rw [if_neg c1]
      by_cases c2 : i + 1 ≤ j ∧ j < i + 1 + bs.length
      · have n2 : i ≤ j ∧ j < i + (bs.length + 1) := by omega
        rw [if_pos c2, if_pos n2]
        obtain ⟨q, hq⟩ : ∃ q, j - i = q + 1 := ⟨j - i - 1, by omega⟩
        have hq2 : j - (i + 1) = q := by omega
        rw [hq, hq2]
        rfl
      · have n2 : ¬ (i ≤ j ∧ j < i + (bs.length + 1)) := by omega
        rw [if_neg c2, if_neg n2]

theorem frameBit_zero (j : Nat) : frameBit Frame.zero j = 0 := by
  unfold frameBit
  have h : Frame.zero.get (j / 8) = 0 := by
    by_cases hj : j / 8 < 8
    · interval_cases (j / 8) <;> rfl
    · exact Frame.get_of_ge _ _ (by omega)
  rw [h]
  unfold bitAt bit_test
  simp

theorem Frame.zero_WF : Frame.zero.WF := by decide

/-- A frame filled from position 0 of an empty scratch buffer holds exactly the bits. -/
theorem frameBit_store_bits_zero (bs : List Bool) (hlen : bs.length ≤ 64) (j : Nat) :
    frameBit (store_bits Frame.zero 0 bs) j = bit_of bs j := by
  rw [frameBit_store_bits bs Frame.zero Frame.zero_WF 0 j (by omega)]
  by_cases c : 0 ≤ j ∧ j < 0 + bs.length
  · rw [if_pos c, Nat.sub_zero]
  · rw [if_neg c, frameBit_zero]
    unfold bit_of
    rw [List.getD_eq_default _ _ (by omega)]
    rfl

/-! ## The encoded minute, read back from a frame -/

section bytes5
set_option maxRecDepth 100000

theorem nbit_val3 : ∀ x, x < 8 →
    (nbit x 0).toNat + 2 * ((nbit x 1).toNat + 2 * ((nbit x 2).toNat + 2 * 0)) = x := by
  decide!

theorem nbit_val5 : ∀ x, x < 32 →
    (nbit x 0).toNat + 2 * ((nbit x 1).toNat + 2 * ((nbit x 2).toNat
      + 2 * ((nbit x 3).toNat + 2 * ((nbit x 4).toNat + 2 * 0)))) = x := by
  decide!

theorem nbit_val6 : ∀ x, x < 64 →
    (nbit x 0).toNat + 2 * ((nbit x 1).toNat + 2 * ((nbit x 2).toNat
      + 2 * ((nbit x 3).toNat + 2 * ((nbit x 4).toNat + 2 * ((nbit x 5).toNat + 2 * 0))))) = x := by
  decide!

theorem nbit_val7 : ∀ x, x < 128 →
    (nbit x 0).toNat + 2 * ((nbit x 1).toNat + 2 * ((nbit x 2).toNat
      + 2 * ((nbit x 3).toNat + 2 * ((nbit x 4).toNat + 2 * ((nbit x 5).toNat
      + 2 * ((nbit x 6).toNat + 2 * 0)))))) = x := by
  decide!

theorem nbit_val8 : ∀ x, x < 256 →
    (nbit x 0).toNat + 2 * ((nbit x 1).toNat + 2 * ((nbit x 2).toNat
      + 2 * ((nbit x 3).toNat + 2 * ((nbit x 4).toNat + 2 * ((nbit x 5).toNat
      + 2 * ((nbit x 6).toNat + 2 * ((nbit x 7).toNat + 2 * 0))))))) = x := by
  decide!

theorem toBCD_lt_256 : ∀ n, n < 100 → toBCD n < 256 := by decide!

end bytes5

theorem foldl_xor_toNat (l : List Bool) (acc : Bool) :
    (l.foldl xor acc).toNat = (acc.toNat + (l.map Bool.toNat).sum) % 2 := by
  induction l generalizing acc with
  | nil => cases acc <;> rfl
  | cons b l ih =>
    rw [List.foldl_cons, ih, List.map_cons, List.sum_cons]
    cases acc <;> cases b <;> (simp; try omega)

/-- The parity bit is the sum of the bits modulo 2. -/
theorem par_toNat (l : List Bool) : (par l).toNat = (l.map Bool.toNat).sum % 2 := by
  unfold par
  rw [foldl_xor_toNat]
  simp

/-- A frame that holds the encoded minute bit for bit satisfies the premises of the
round trip. -/
theorem encoded_frame (f : Frame) (r : Nat → Bool) (m h d w mo y : Nat)
    (hm : m ≤ 59) (hh : h ≤ 23) (hd : d ≤ 31) (hw : w ≤ 7) (hmo : mo ≤ 12) (hy : y ≤ 99)
    (hF : ∀ j, frameBit f j = bit_of (encode r m h d w mo y) j) :
    frameBit f 0 = 0 ∧ frameBit f 20 = 1 ∧
    fieldVal f 21 7 = toBCD m ∧ frameBit f 28 = fieldXor f 21 7 ∧
    fieldVal f 29 6 = toBCD h ∧ frameBit f 35 = fieldXor f 29 6 ∧
    fieldVal f 36 6 = toBCD d ∧ fieldVal f 42 3 = w ∧
    fieldVal f 45 5 = toBCD mo ∧ fieldVal f 50 8 = toBCD y ∧
    frameBit f 58 = fieldXor f 36 22 := by
  have bm : toBCD m < 128 := by have := toBCD_le_59 m (by omega); omega
  have bh : toBCD h < 64 := by have := toBCD_le_23 h (by omega); omega
  have bd : toBCD d < 64 := by have := toBCD_le_31 d (by omega); omega
  have bo : toBCD mo < 32 := by have := toBCD_le_12 mo (by omega); omega
  have bY : toBCD y < 256 := toBCD_lt_256 y (by omega)
  refine ⟨?_, ?_, ?_, ?_, ?_, ?_, ?_, ?_, ?_, ?_, ?_⟩
  · rw [hF]; rfl
  · rw [hF]; rfl
  · show frameBit f 21 + 2 * (frameBit f 22 + 2 * (frameBit f 23 + 2 * (frameBit f 24
      + 2 * (frameBit f 25 + 2 * (frameBit f 26 + 2 * (frameBit f 27 + 2 * 0)))))) = _
    simp only [hF]
    exact nbit_val7 _ bm
  · show _ = (frameBit f 21 + (frameBit f 22 + (frameBit f 23 + (frameBit f 24
      + (frameBit f 25 + (frameBit f 26 + (frameBit f 27 + 0))))))) % 2
    simp only [hF]
    exact par_toNat _
  · show frameBit f 29 + 2 * (frameBit f 30 + 2 * (frameBit f 31 + 2 * (frameBit f 32
      + 2 * (frameBit f 33 + 2 * (frameBit f 34 + 2 * 0))))) = _
    simp only [hF]
    exact nbit_val6 _ bh
  · show _ = (frameBit f 29 + (frameBit f 30 + (frameBit f 31 + (frameBit f 32
      + (frameBit f 33 + (frameBit f 34 + 0)))))) % 2
    simp only [hF]
    exact par_toNat _
  · show frameBit f 36 + 2 * (frameBit f 37 + 2 * (frameBit f 38 + 2 * (frameBit f 39
      + 2 * (frameBit f 40 + 2 * (frameBit f 41 + 2 * 0))))) = _
    simp only [hF]
    exact nbit_val6 _ bd
  · show frameBit f 42 + 2 * (frameBit f 43 + 2 * (frameBit f 44 + 2 * 0)) = _
    simp only [hF]
    exact nbit_val3 _ (by omega)
  · show frameBit f 45 + 2 * (frameBit f 46 + 2 * (frameBit f 47 + 2 * (frameBit f 48
      + 2 * (frameBit f 49 + 2 * 0)))) = _
    simp only [hF]
    exact nbit_val5 _ bo
  · show frameBit f 50 + 2 * (frameBit f 51 + 2 * (frameBit f 52 + 2 * (frameBit f 53
      + 2 * (frameBit f 54 + 2 * (frameBit f 55 + 2 * (frameBit f 56
      + 2 * (frameBit f 57 + 2 * 0))))))) = _
    simp only [hF]
    exact nbit_val8 _ bY
  · show _ = (frameBit f 36 + (frameBit f 37 + (frameBit f 38 + (frameBit f 39
      + (frameBit f 40 + (frameBit f 41 + (frameBit f 42 + (frameBit f 43 + (frameBit f 44
      + (frameBit f 45 + (frameBit f 46 + (frameBit f 47 + (frameBit f 48 + (frameBit f 49
      + (frameBit f 50 + (frameBit f 51 + (frameBit f 52 + (frameBit f 53 + (frameBit f 54
      + (frameBit f 55 + (frameBit f 56 + (frameBit f 57 + 0)))))))))))))))))))))) % 2
    simp only [hF]
    exact par_toNat _

/-! ## Whole minutes -/

/-- A first minute fed to the freshly initialised driver: the decoder keeps waiting,
stores nothing, and ends in second 59 with the level HIGH. -/
theorem first_frame_run (b : Bool) (rest : List Bool) (g : Progress) :
    ∃ c, (760 ≤ c + 35 ∧ c + 35 ≤ 940) ∧
      irun (State.init, g) (frame_signal (b :: rest)) =
        ({ State.init with dcf77_cntms_u16 := c + 1000, pindeb_b := 1, dcf77_pinold_b := 1 },
          { g with bits := g.bits + 1 + rest.length }) := by
  have hw := pulse_width_cases b
  obtain ⟨c, hc, e⟩ := bits_wait rest
    { State.init with dcf77_cntms_u16 := 965 - pulse_width b, pindeb_b := 1,
                      dcf77_pinold_b := 1 }
    { g with bits := g.bits + 1 } ⟨rfl, rfl, rfl⟩ rfl (by simp only []; omega)
  refine ⟨c, hc, ?_⟩
  show irun (State.init, g) ((bit_second b ++ bits_signal rest) ++ silent_second) = _
  rw [irun_append, irun_append, second_cold State.init g b ⟨rfl, rfl, rfl⟩ rfl rfl, e,
    second_silent _ _ ⟨rfl, rfl, rfl⟩ (by simp only []; omega)]

/-- The seconds that follow a minute marker's long idle on a decoder that waits: the
marker gives sync = FIRST and every bit is stored from position 0. -/
theorem bits_after_marker (b : Bool) (rest : List Bool) (s : State) (g : Progress)
    (h : Settled s 1) (hs : s.dcf77_sync_u8 = DCF77_SYNC_WAIT)
    (hc : 1600 < s.dcf77_cntms_u16 + 35 ∧ s.dcf77_cntms_u16 + 35 < 2200)
    (hlen : (b :: rest).length ≤ 60) :
    ∃ c, (760 ≤ c + 35 ∧ c + 35 ≤ 940) ∧
      irun (s, g) (bits_signal (b :: rest)) =
        ({ s with
            dcf77_cntms_u16 := c
            dcf77_sync_u8 := DCF77_SYNC_FIRST
            dfc77_datatmp_au8 := store_bits s.dfc77_datatmp_au8 0 (b :: rest)
            dcf77_bitpos_u8 := (b :: rest).length },
          { g.step Event.marker with bits := (b :: rest).length }) := by
  have hw := pulse_width_cases b
  rw [List.length_cons] at hlen
  obtain ⟨c, hc', e⟩ := bits_sync rest
    { s with
      dcf77_cntms_u16 := 965 - pulse_width b
      dcf77_sync_u8 := DCF77_SYNC_FIRST
      dfc77_datatmp_au8 := store_bit s.dfc77_datatmp_au8 0 b.toNat
      dcf77_bitpos_u8 := 1 }
    ((g.step Event.marker).step (Event.bit b.toNat)) h (by simp [DCF77_SYNC_FIRST])
    (by simp only []; omega) (by simp only []; omega)
  refine ⟨c, hc', ?_⟩
  show irun (s, g) (bit_second b ++ bits_signal rest) = _
  rw [irun_append, second_first_marker s g b h hs hc, e]
  simp only [store_bits, List.length_cons, Nat.add_comm 1 rest.length, Progress.step,
    Nat.zero_add]

/-- A complete minute of 59 bits after a marker's long idle, up to the falling edge
that ends it: the frame is published. -/
theorem frame_after_marker (b : Bool) (rest : List Bool) (s : State) (g : Progress)
    (h : Settled s 1) (hs : s.dcf77_sync_u8 = DCF77_SYNC_WAIT)
    (hc : 1600 < s.dcf77_cntms_u16 + 35 ∧ s.dcf77_cntms_u16 + 35 < 2200)
    (hlen : (b :: rest).length = 59) :
    irun (s, g) (frame_signal (b :: rest) ++ List.replicate 35 false) =
      ({ s with
          dcf77_cntms_u16 := 0
          pindeb_b := 0
          dcf77_pinold_b := 0
          dcf77_sync_u8 := DCF77_SYNC_OK
          dfc77_datatmp_au8 := store_bits s.dfc77_datatmp_au8 0 (b :: rest)
          dcf77_data_au8 := store_bits s.dfc77_datatmp_au8 0 (b :: rest)
          dcf77_newdata_b := TRUE
          dcf77_bitpos_u8 := 0 },
        ({ g.step Event.marker with bits := 59 }).step Event.marker) := by
  obtain ⟨c, hc', e⟩ := bits_after_marker b rest s g h hs hc (by omega)
  unfold frame_signal
  rw [irun_append, irun_append, e, second_silent, marker_commit, hlen]
  all_goals first
    | exact h
    | exact hlen
    | (simp only []; omega)
    | simp [DCF77_SYNC_FIRST]

theorem take_35_frame_signal (b : Bool) (rest : List Bool) :
    (frame_signal (b :: rest)).take 35 = List.replicate 35 false := by
  have hw := pulse_width_cases b
  have e : List.replicate (pulse_width b) false
      = List.replicate 35 false ++ List.replicate (pulse_width b - 35) false := by
    rw [← List.replicate_add]
    congr 1
    omega
  unfold frame_signal
  show ((List.replicate (pulse_width b) false ++ List.replicate (1000 - pulse_width b) true
    ++ bits_signal rest) ++ silent_second).take 35 = _
  rw [e, List.append_assoc, List.append_assoc, List.append_assoc]
  exact List.take_left' (List.length_replicate _ _)

theorem reachable_run (tr : List Bool) (s : State) (h : Reachable s) : Reachable (run s tr) := by
  induction tr generalizing s with
  | nil => exact h
  | cons p tr ih => exact ih _ (Reachable.tick s p h)

/-- A published frame that carries a date and time is accepted and read back. -/
theorem published_frame_read_back (s : State) (m h d w mo y : Nat)
    (hm : m ≤ 59) (hh : h ≤ 23) (hd : d ≤ 31) (hw : w ≤ 7) (hmo : mo ≤ 12) (hy : y ≤ 99)
    (hwf : s.WF)
    (b0 : frameBit s.dcf77_data_au8 0 = 0) (b20 : frameBit s.dcf77_data_au8 20 = 1)
    (fm : fieldVal s.dcf77_data_au8 21 7 = toBCD m)
    (pm : frameBit s.dcf77_data_au8 28 = fieldXor s.dcf77_data_au8 21 7)
    (fh : fieldVal s.dcf77_data_au8 29 6 = toBCD h)
    (ph : frameBit s.dcf77_data_au8 35 = fieldXor s.dcf77_data_au8 29 6)
    (fd : fieldVal s.dcf77_data_au8 36 6 = toBCD d)
    (fw : fieldVal s.dcf77_data_au8 42 3 = w)
    (fmo : fieldVal s.dcf77_data_au8 45 5 = toBCD mo)
    (fy : fieldVal s.dcf77_data_au8 50 8 = toBCD y)
    (pd : frameBit s.dcf77_data_au8 58 = fieldXor s.dcf77_data_au8 36 22)
    (hs : s.dcf77_sync_u8 = DCF77_SYNC_OK) (hn : s.dcf77_newdata_b ≠ 0) :
    (dcf77_newdata s).1 = TRUE ∧
    dcf77_get_min (dcf77_newdata s).2 = m ∧
    dcf77_get_hrs (dcf77_newdata s).2 = h ∧
    dcf77_get_day (dcf77_newdata s).2 = d ∧
    dcf77_get_dow (dcf77_newdata s).2 = w ∧
    dcf77_get_month (dcf77_newdata s).2 = mo ∧
    dcf77_get_year (dcf77_newdata s).2 = 2000 + y := by
  have ok : FrameOK s.dcf77_data_au8 := by
    refine ⟨b0, b20, ?_, pm.symm, ?_, ph.symm, ?_, ?_, ?_, pd.symm⟩
    · rw [fm]; exact toBCD_le_59 m (by omega)
    · rw [fh]; exact toBCD_le_23 h (by omega)
    · rw [fd]; exact toBCD_le_31 d (by omega)
    · rw [fw]; exact hw
    · rw [fmo]; exact toBCD_le_12 mo (by omega)
  have hf : (dcf77_newdata s).2.dcf77_data_au8.WF := hwf
  have e : (dcf77_newdata s).2.dcf77_data_au8 = s.dcf77_data_au8 := rfl
  refine ⟨?_, ?_, ?_, ?_, ?_, ?_, ?_⟩
  · exact (newdata_fst_eq_true_iff s).mpr ((newdata_true_iff s hwf).mpr ⟨hs, hn, ok⟩)
  · rw [get_min_eq _ hf, e, fm]; exact bcd_roundtrip m (by omega)
  · rw [get_hrs_eq _ hf, e, fh]; exact bcd_roundtrip h (by omega)
  · rw [get_day_eq _ hf, e, fd]; exact bcd_roundtrip d (by omega)
  · rw [get_dow_eq _ hf, e, fw]
  · rw [get_month_eq _ hf, e, fmo]; exact bcd_roundtrip mo (by omega)
  · rw [get_year_eq _ hf, e, fy]; exact bcd_roundtrip_year y (by omega)

theorem cons_of_length_59 (bits : List Bool) (h : bits.length = 59) :
    ∃ b rest, bits = b :: rest := by
  cases bits with
  | nil => simp at h
  | cons b rest => exact ⟨b, rest, rfl⟩

theorem encode_length (r : Nat → Bool) (m h d w mo y : Nat) :
    (encode r m h d w mo y).length = 59 := rfl

/-- The state after a first minute and the first 35 ms of the next second. -/
theorem run_first_minute (bits1 bits2 : List Bool) (h1 : bits1.length = 59)
    (h2 : bits2.length = 59) :
    ∃ c, run State.init (frame_signal bits1 ++ (frame_signal bits2).take 35) =
      { State.init with
        dcf77_cntms_u16 := c
        dcf77_sync_u8 := DCF77_SYNC_FIRST } := by
  obtain ⟨b1, r1, rfl⟩ := cons_of_length_59 bits1 h1
  obtain ⟨b2, r2, rfl⟩ := cons_of_length_59 bits2 h2
  obtain ⟨c, hc, e⟩ := first_frame_run b1 r1 Progress.zero
  refine ⟨0, ?_⟩
  have q := irun_fst (State.init, Progress.zero)
    (frame_signal (b1 :: r1) ++ (frame_signal (b2 :: r2)).take 35)
  rw [← q, take_35_frame_signal, irun_append, e, marker_first]
  · rfl
  · exact ⟨rfl, rfl, rfl⟩
  · rfl
  · simp only []
    omega

/-- The state after two minutes and the first 35 ms of the next second. -/
theorem run_two_minutes (bits1 bits2 : List Bool) (h1 : bits1.length = 59)
    (h2 : bits2.length = 59) :
    run State.init (frame_signal bits1 ++ frame_signal bits2 ++ List.replicate 35 false) =
      { State.init with
        dcf77_sync_u8 := DCF77_SYNC_OK
        dfc77_datatmp_au8 := store_bits Frame.zero 0 bits2
        dcf77_data_au8 := store_bits Frame.zero 0 bits2
        dcf77_newdata_b := TRUE } := by
  obtain ⟨b1, r1, rfl⟩ := cons_of_length_59 bits1 h1
  obtain ⟨b2, r2, rfl⟩ := cons_of_length_59 bits2 h2
  obtain ⟨c, hc, e⟩ := first_frame_run b1 r1 Progress.zero
  have q := irun_fst (State.init, Progress.zero)
    (frame_signal (b1 :: r1) ++ frame_signal (b2 :: r2) ++ List.replicate 35 false)
  rw [← q, List.append_assoc, irun_append, e, frame_after_marker]
  · rfl
  · exact ⟨rfl, rfl, rfl⟩
  · rfl
  · simp only []
    omega
  · exact h2

/-! ## C5: cold start, two perfectly timed minutes -/

/-- C5. From the initial state, feed the raw level of two consecutive perfectly timed
minutes (per second LOW for 100 ms for a 0 or 200 ms for a 1, then HIGH up to 1000 ms;
second 59 HIGH throughout): a first minute of any 59 bits, then the minute encoding an
in-range date and time (bits 1..19 arbitrary).  Once the falling edge that ends the
first minute has been processed (35 ms into the second minute) the status is FIRST and
`dcf77_get_sync` is false; once the falling edge that ends the second minute has been
processed (35 ms into the following second) the status is OK, `dcf77_newdata` returns
true and the accessors return the encoded minute, hour, day, day of week, month and
`2000 + y`. -/
theorem cold_start_two_minutes (bits1 : List Bool) (r : Nat → Bool) (m h d w mo y : Nat)
    (hlen : bits1.length = 59)
    (hm : m ≤ 59) (hh : h ≤ 23) (hd : 1 ≤ d ∧ d ≤ 31) (hw : 1 ≤ w ∧ w ≤ 7)
    (hmo : 1 ≤ mo ∧ mo ≤ 12) (hy : y ≤ 99) :
    (dcf77_get_status (run State.init
        (frame_signal bits1 ++ (frame_signal (encode r m h d w mo y)).take 35))
        = DCF77_SYNC_FIRST ∧
      dcf77_get_sync (run State.init
        (frame_signal bits1 ++ (frame_signal (encode r m h d w mo y)).take 35)) = 0) ∧
    (dcf77_get_status (run State.init
        (frame_signal bits1 ++ frame_signal (encode r m h d w mo y)
          ++ List.replicate 35 false)) = DCF77_SYNC_OK ∧
      (dcf77_newdata (run State.init
        (frame_signal bits1 ++ frame_signal (encode r m h d w mo y)
          ++ List.replicate 35 false))).1 = TRUE ∧
      dcf77_get_min (dcf77_newdata (run State.init
        (frame_signal bits1 ++ frame_signal (encode r m h d w mo y)
          ++ List.replicate 35 false))).2 = m ∧
      dcf77_get_hrs (dcf77_newdata (run State.init
        (frame_signal bits1 ++ frame_signal (encode r m h d w mo y)
          ++ List.replicate 35 false))).2 = h ∧
      dcf77_get_day (dcf77_newdata (run State.init
        (frame_signal bits1 ++ frame_signal (encode r m h d w mo y)
          ++ List.replicate 35 false))).2 = d ∧
      dcf77_get_dow (dcf77_newdata (run State.init
        (frame_signal bits1 ++ frame_signal (encode r m h d w mo y)
          ++ List.replicate 35 false))).2 = w ∧
      dcf77_get_month (dcf77_newdata (run State.init
        (frame_signal bits1 ++ frame_signal (encode r m h d w mo y)
          ++ List.replicate 35 false))).2 = mo ∧
      dcf77_get_year (dcf77_newdata (run State.init
        (frame_signal bits1 ++ frame_signal (encode r m h d w mo y)
          ++ List.replicate 35 false))).2 = 2000 + y) := by
  have he := encode_length r m h d w mo y
  obtain ⟨c, e1⟩ := run_first_minute bits1 (encode r m h d w mo y) hlen he
  have e2 := run_two_minutes bits1 (encode r m h d w mo y) hlen he
  refine ⟨⟨?_, ?_⟩, ?_⟩
  · rw [e1]
    rfl
  · rw [e1]
    rfl
  rw [e2]
  refine ⟨rfl, ?_⟩
  have hF := frameBit_store_bits_zero (encode r m h d w mo y) (by rw [he]; omega)
  obtain ⟨b0, b20, fm, pm, fh, ph, fd, fw, fmo, fy, pd⟩ :=
    encoded_frame (store_bits Frame.zero 0 (encode r m h d w mo y)) r m h d w mo y
      hm hh hd.2 hw.2 hmo.2 hy hF
  have hwf : (store_bits Frame.zero 0 (encode r m h d w mo y)).WF :=
    store_bits_WF (encode r m h d w mo y) Frame.zero Frame.zero_WF 0
  have ht : TRUE ≠ 0 := by decide
  generalize store_bits Frame.zero 0 (encode r m h d w mo y) = F at *
  exact published_frame_read_back
    { State.init with
      dcf77_sync_u8 := DCF77_SYNC_OK
      dfc77_datatmp_au8 := F
      dcf77_data_au8 := F
      dcf77_newdata_b := TRUE }
    m h d w mo y hm hh hd.2 hw.2 hmo.2 hy hwf
    b0 b20 fm pm fh ph fd fw fmo fy pd rfl ht

theorem cold_start_two_minutes_witness :
    (dcf77_get_status (run State.init
        (frame_signal (encode no_flags 33 12 15 6 6 24)
          ++ (frame_signal (encode no_flags 34 12 15 6 6 24)).take 35))
        = DCF77_SYNC_FIRST ∧
      dcf77_get_sync (run State.init
        (frame_signal (encode no_flags 33 12 15 6 6 24)
          ++ (frame_signal (encode no_flags 34 12 15 6 6 24)).take 35)) = 0) ∧
    (dcf77_get_status (run State.init
        (frame_signal (encode no_flags 33 12 15 6 6 24)
          ++ frame_signal (encode no_flags 34 12 15 6 6 24)
          ++ List.replicate 35 false)) = DCF77_SYNC_OK ∧
      (dcf77_newdata (run State.init
        (frame_signal (encode no_flags 33 12 15 6 6 24)
          ++ frame_signal (encode no_flags 34 12 15 6 6 24)
          ++ List.replicate 35 false))).1 = TRUE ∧
      dcf77_get_min (dcf77_newdata (run State.init
        (frame_signal (encode no_flags 33 12 15 6 6 24)
          ++ frame_signal (encode no_flags 34 12 15 6 6 24)
          ++ List.replicate 35 false))).2 = 34 ∧
      dcf77_get_hrs (dcf77_newdata (run State.init
        (frame_signal (encode no_flags 33 12 15 6 6 24)
          ++ frame_signal (encode no_flags 34 12 15 6 6 24)
          ++ List.replicate 35 false))).2 = 12 ∧
      dcf77_get_day (dcf77_newdata (run State.init
        (frame_signal (encode no_flags 33 12 15 6 6 24)
          ++ frame_signal (encode no_flags 34 12 15 6 6 24)
          ++ List.replicate 35 false))).2 = 15 ∧
      dcf77_get_dow (dcf77_newdata (run State.init
        (frame_signal (encode no_flags 33 12 15 6 6 24)
          ++ frame_signal (encode no_flags 34 12 15 6 6 24)
          ++ List.replicate 35 false))).2 = 6 ∧
      dcf77_get_month (dcf77_newdata (run State.init
        (frame_signal (encode no_flags 33 12 15 6 6 24)
          ++ frame_signal (encode no_flags 34 12 15 6 6 24)
          ++ List.replicate 35 false))).2 = 6 ∧
      dcf77_get_year (dcf77_newdata (run State.init
        (frame_signal (encode no_flags 33 12 15 6 6 24)
          ++ frame_signal (encode no_flags 34 12 15 6 6 24)
          ++ List.replicate 35 false))).2 = 2000 + 24) :=
  cold_start_two_minutes (encode no_flags 33 12 15 6 6 24) no_flags 34 12 15 6 6 24
    rfl (by decide) (by decide) (by decide) (by decide) (by decide) (by decide)

/-! ## The effect of one tick on `sync` and `bit_index`, by event -/

theorem tick_effect (s : State) (pin : Bool) :
    (tick_event s pin = Event.quiet →
      (dcf77_1ms_task s pin).dcf77_sync_u8 = s.dcf77_sync_u8 ∧
      (dcf77_1ms_task s pin).dcf77_bitpos_u8 = s.dcf77_bitpos_u8) ∧
    (tick_event s pin = Event.idle_ok →
      (dcf77_1ms_task s pin).dcf77_sync_u8 = s.dcf77_sync_u8 ∧
      (dcf77_1ms_task s pin).dcf77_bitpos_u8 = s.dcf77_bitpos_u8) ∧
    (tick_event s pin = Event.idle_bad →
      (dcf77_1ms_task s pin).dcf77_sync_u8 = 0 ∧
      (dcf77_1ms_task s pin).dcf77_bitpos_u8 = s.dcf77_bitpos_u8) ∧
    (tick_event s pin = Event.pulse_bad →
      (dcf77_1ms_task s pin).dcf77_sync_u8 = 0 ∧
      (dcf77_1ms_task s pin).dcf77_bitpos_u8 = s.dcf77_bitpos_u8) ∧
    (tick_event s pin = Event.marker →
      (dcf77_1ms_task s pin).dcf77_bitpos_u8 = 0 ∧
      (dcf77_1ms_task s pin).dcf77_sync_u8 =
        if s.dcf77_sync_u8 = 0 then 1
        else if 1 ≤ s.dcf77_sync_u8 ∧ s.dcf77_bitpos_u8 = 59 then 2 else 0) ∧
    (∀ b, tick_event s pin = Event.bit b →
      if 1 ≤ s.dcf77_sync_u8 ∧ s.dcf77_bitpos_u8 ≤ 59 then
        (dcf77_1ms_task s pin).dcf77_sync_u8 = s.dcf77_sync_u8 ∧
        (dcf77_1ms_task s pin).dcf77_bitpos_u8 = s.dcf77_bitpos_u8 + 1
      else
        (dcf77_1ms_task s pin).dcf77_sync_u8 = 0 ∧
        (dcf77_1ms_task s pin).dcf77_bitpos_u8 = s.dcf77_bitpos_u8) := by
  obtain ⟨c1, c2, c3, c4, c5, -⟩ := pre_edge_core s pin
  by_cases he : (pre_edge s pin).dcf77_pinold_b ≠ (pre_edge s pin).pindeb_b
  · by_cases hf : (pre_edge s pin).pindeb_b = FALSE
    · -- falling edge
      have ev : tick_event s pin = fall_event (pre_edge s pin).dcf77_cntms_u16 := by
        unfold tick_event
        rw [if_pos he, if_pos hf]
      rw [ev, tick_falling s pin ⟨he, hf⟩]
      by_cases m1 : 1600 < (pre_edge s pin).dcf77_cntms_u16 ∧
          (pre_edge s pin).dcf77_cntms_u16 < 2200
      · rw [fall_event_marker _ m1, falling_edge_marker _ m1, c1, c2]
        refine ⟨by simp, by simp, by simp, by simp, ?_, by simp⟩
        intro _
        unfold DCF77_SYNC_WAIT DCF77_SYNC_FIRST DCF77_SYNC_OK
        split_ifs <;> exact ⟨rfl, rfl⟩
      · by_cases m2 : (pre_edge s pin).dcf77_cntms_u16 < 760 ∨
            940 < (pre_edge s pin).dcf77_cntms_u16
        · have e2 : fall_event (pre_edge s pin).dcf77_cntms_u16 = Event.idle_bad := by
            unfold fall_event
            have m1' : ¬ ((pre_edge s pin).dcf77_cntms_u16 > DCF77_SIG_START_MIN ∧
                (pre_edge s pin).dcf77_cntms_u16 < DCF77_SIG_START_MAX) := m1
            have m2' : (pre_edge s pin).dcf77_cntms_u16 < DCF77_BIT_IDLE_MIN ∨
                (pre_edge s pin).dcf77_cntms_u16 > DCF77_BIT_IDLE_MAX := m2
            rw [if_neg m1', if_pos m2']
          rw [e2, falling_edge_violation _ m1 m2]
          refine ⟨by simp, by simp, ?_, by simp, by simp, by simp⟩
          intro _
          exact ⟨rfl, c2⟩
        · rw [fall_event_idle _ (by omega), falling_edge_idle _ (by omega)]
          refine ⟨by simp, ?_, by simp, by simp, by simp, by simp⟩
          intro _
          exact ⟨c1, c2⟩
    · -- rising edge
      have ev : tick_event s pin = rise_event (pre_edge s pin).dcf77_cntms_u16 := by
        unfold tick_event
        rw [if_pos he, if_neg hf]
      rw [ev, tick_rising s pin ⟨he, hf⟩]
      cases hcl : classify (pre_edge s pin).dcf77_cntms_u16 with
      | none =>
        have e2 : rise_event (pre_edge s pin).dcf77_cntms_u16 = Event.pulse_bad := by
          unfold rise_event
          rw [hcl]
        rw [e2, rising_edge_violation _ hcl]
        refine ⟨by simp, by simp, by simp, ?_, by simp, by simp⟩
        intro _
        exact ⟨rfl, c2⟩
      | some b =>
        have e2 : rise_event (pre_edge s pin).dcf77_cntms_u16 = Event.bit b := by
          unfold rise_event
          rw [hcl]
        rw [e2]
        refine ⟨by simp, by simp, by simp, by simp, by simp, ?_⟩
        intro b' _
        by_cases g : 1 ≤ s.dcf77_sync_u8 ∧ s.dcf77_bitpos_u8 ≤ 59
        · rw [if_pos g, rising_edge_store _ b hcl (by rw [c1]; exact g.1)
            (by rw [c2]; exact g.2)]
          exact ⟨c1, by simp only []; rw [c2]⟩
        · rw [if_neg g]
          have g' : ¬ ((pre_edge s pin).dcf77_sync_u8 ≥ DCF77_SYNC_FIRST ∧
              (pre_edge s pin).dcf77_bitpos_u8 ≤ 59) := by
            rw [c1, c2]
            exact g
          unfold rising_edge
          simp only [hcl, if_neg g']
          exact ⟨rfl, c2⟩
  · have ev : tick_event s pin = Event.quiet := by
      unfold tick_event
      rw [if_neg he]
    rw [ev, tick_quiet s pin (by simpa using he)]
    refine ⟨?_, by simp, by simp, by simp, by simp, by simp⟩
    intro _
    exact ⟨c1, c2⟩

/-! ## C8: range of `bit_index` -/

theorem tick_bitpos_le (s : State) (pin : Bool) (h : s.dcf77_bitpos_u8 ≤ 60) :
    (dcf77_1ms_task s pin).dcf77_bitpos_u8 ≤ 60 := by
  obtain ⟨e1, e2, e3, e4, e5, e6⟩ := tick_effect s pin
  cases hev : tick_event s pin with
  | quiet => have := e1 hev; omega
  | idle_ok => have := e2 hev; omega
  | idle_bad => have := e3 hev; omega
  | pulse_bad => have := e4 hev; omega
  | marker => have := e5 hev; omega
  | bit b =>
    have := e6 b hev
    split_ifs at this <;> omega

/-- The state after a long HIGH stretch fed to the freshly initialised driver: the rising
edge is seen after the debounce time, and the counter then runs up to 1665. -/
theorem after_long_idle (g : Progress) :
    irun (State.init, g) (List.replicate 1700 true) =
      (state_long_idle, g.step Event.pulse_bad) := by
  show irun (State.init, g) (List.replicate (35 + 1665) true) = _
  rw [irun_raise 1665 State.init g ⟨rfl, rfl, rfl⟩ (by decide) (by omega), rising_edge_wait]
  · rfl
  · rfl

/-- C8, as stated, fails: after a marker and 60 well-timed bits with no further marker
the reachable state has `bit_index` = 60. -/
theorem bit_index_reaches_60 :
    Reachable (run State.init overrun_trace) ∧
    ¬ ((run State.init overrun_trace).dcf77_bitpos_u8 ≤ 59) := by
  refine ⟨reachable_run _ _ Reachable.init, ?_⟩
  have q := irun_fst (State.init, Progress.zero) overrun_trace
  obtain ⟨c, -, e⟩ := bits_after_marker false (List.replicate 59 false) state_long_idle
    (Progress.zero.step Event.pulse_bad) ⟨rfl, rfl, rfl⟩ rfl (by decide)
    (by rw [List.length_cons, List.length_replicate])
  have key : (irun (State.init, Progress.zero) overrun_trace).1.dcf77_bitpos_u8 = 60 := by
    have r60 : List.replicate 60 false = false :: List.replicate 59 false := rfl
    unfold overrun_trace
    rw [irun_append, after_long_idle, r60, e]
    simp only [List.length_cons, List.length_replicate]
  rw [← q, key]
  omega

/-- C8, amended. In every state reachable from the initial state by ticks (with any raw
samples) and `dcf77_newdata` calls, `bit_index` lies in 0..=60. -/
theorem bit_index_le_60 (s : State) (h : Reachable s) : s.dcf77_bitpos_u8 ≤ 60 := by
  induction h with
  | init => decide
  | tick s pin _ ih => exact tick_bitpos_le s pin ih
  | poll s _ ih => exact ih

theorem bit_index_le_60_witness :
    Reachable (dcf77_1ms_task State.init true) ∧
    (dcf77_1ms_task State.init true).dcf77_bitpos_u8 ≤ 60 :=
  ⟨Reachable.tick _ _ Reachable.init,
    bit_index_le_60 (dcf77_1ms_task State.init true) (Reachable.tick _ _ Reachable.init)⟩

/-! ## C9: what has been received when sync is OK -/

theorem tracks_step (s : State) (g : Progress) (pin : Bool) (h : Tracks s g) :
    Tracks (dcf77_1ms_task s pin) (g.step (tick_event s pin)) := by
  obtain ⟨e1, e2, e3, e4, e5, e6⟩ := tick_effect s pin
  obtain ⟨h1, h2, h3⟩ := h
  unfold Tracks
  cases hev : tick_event s pin with
  | quiet =>
    obtain ⟨a, b⟩ := e1 hev
    rw [a, b]
    exact ⟨h1, h2, h3⟩
  | idle_ok =>
    obtain ⟨a, b⟩ := e2 hev
    rw [a, b]
    exact ⟨h1, h2, h3⟩
  | idle_bad =>
    obtain ⟨a, b⟩ := e3 hev
    rw [a, b]
    exact ⟨by omega, by omega, by omega⟩
  | pulse_bad =>
    obtain ⟨a, b⟩ := e4 hev
    rw [a, b]
    exact ⟨by omega, by omega, by omega⟩
  | marker =>
    obtain ⟨b, a⟩ := e5 hev
    have k1 : (g.step Event.marker).markers = g.markers + 1 := rfl
    have k2 : (g.step Event.marker).bits = 0 := rfl
    have k3 : (g.step Event.marker).clean = true := rfl
    have k4 : (g.step Event.marker).framed
        = g.framed + (if 1 ≤ g.markers ∧ g.clean = true ∧ g.bits = 59 then 1 else 0) := rfl
    rw [a, b, k1, k2, k3, k4]
    by_cases z : s.dcf77_sync_u8 = 0
    · rw [if_pos z]
      exact ⟨by omega, fun _ => ⟨by omega, rfl, rfl⟩, by omega⟩
    · rw [if_neg z]
      by_cases c : 1 ≤ s.dcf77_sync_u8 ∧ s.dcf77_bitpos_u8 = 59
      · rw [if_pos c]
        obtain ⟨m1, m2, m3⟩ := h2 c.1
        have m4 : 1 ≤ g.markers ∧ g.clean = true ∧ g.bits = 59 := ⟨m1, m2, by omega⟩
        rw [if_pos m4]
        exact ⟨by omega, fun _ => ⟨by omega, rfl, rfl⟩, fun _ => ⟨by omega, by omega⟩⟩
      · rw [if_neg c]
        exact ⟨by omega, by omega, by omega⟩
  | bit b =>
    have r := e6 b hev
    have k1 : (g.step (Event.bit b)).markers = g.markers := rfl
    have k2 : (g.step (Event.bit b)).bits = g.bits + 1 := rfl
    have k3 : (g.step (Event.bit b)).clean = g.clean := rfl
    have k4 : (g.step (Event.bit b)).framed = g.framed := rfl
    rw [k1, k2, k3, k4]
    by_cases c : 1 ≤ s.dcf77_sync_u8 ∧ s.dcf77_bitpos_u8 ≤ 59
    · rw [if_pos c] at r
      obtain ⟨a, b'⟩ := r
      rw [a, b']
      refine ⟨h1, ?_, h3⟩
      intro q
      obtain ⟨m1, m2, m3⟩ := h2 q
      exact ⟨m1, m2, by omega⟩
    · rw [if_neg c] at r
      obtain ⟨a, b'⟩ := r
      rw [a, b']
      exact ⟨by omega, by omega, by omega⟩

theorem tracks_irun (tr : List Bool) (s : State) (g : Progress) (h : Tracks s g) :
    Tracks (irun (s, g) tr).1 (irun (s, g) tr).2 := by
  induction tr generalizing s g with
  | nil => exact h
  | cons p tr ih => exact ih _ _ (tracks_step s g p h)

/-- The run over `one_minute_trace`: the first marker gives FIRST, the 59 bits are
stored, the second marker publishes them; two markers and one complete frame have been
received. -/
theorem one_minute_run :
    irun (State.init, Progress.zero) one_minute_trace =
      ({ state_long_idle with
          dcf77_cntms_u16 := 0
          pindeb_b := 0
          dcf77_pinold_b := 0
          dcf77_sync_u8 := DCF77_SYNC_OK
          dfc77_datatmp_au8 :=
            store_bits state_long_idle.dfc77_datatmp_au8 0 (false :: List.replicate 58 false)
          dcf77_data_au8 :=
            store_bits state_long_idle.dfc77_datatmp_au8 0 (false :: List.replicate 58 false)
          dcf77_newdata_b := TRUE
          dcf77_bitpos_u8 := 0 },
        ({ (Progress.zero.step Event.pulse_bad).step Event.marker with bits := 59 }).step
          Event.marker) := by
  have e := frame_after_marker false (List.replicate 58 false) state_long_idle
    (Progress.zero.step Event.pulse_bad) ⟨rfl, rfl, rfl⟩ rfl
    (by decide) (by rw [List.length_cons, List.length_replicate])
  have r59 : List.replicate 59 false = false :: List.replicate 58 false := rfl
  unfold one_minute_trace
  rw [List.append_assoc, irun_append, after_long_idle, r59, e]

/-- C9, as stated, fails: after a single marker followed by one complete minute of 59
bits and its terminating marker sync is OK, although only one complete frame (one run
of exactly 59 classified bits ended by a marker) has been received. -/
theorem ok_after_one_frame :
    (run State.init one_minute_trace).dcf77_sync_u8 = DCF77_SYNC_OK ∧
    ¬ (2 ≤ (received one_minute_trace).frames) := by
  have q := irun_fst (State.init, Progress.zero) one_minute_trace
  constructor
  · rw [← q, one_minute_run]
  · unfold received
    rw [one_minute_run]
    decide

/-- C9, amended. From the initial state, for every raw input trace, sync is OK only
after at least two minute markers have been received and at least one of them ended a
complete minute that began at a marker: a run of exactly 59 classified bits with no
timing violation in between. -/
theorem ok_needs_marker_and_frame (tr : List Bool)
    (h : (run State.init tr).dcf77_sync_u8 = DCF77_SYNC_OK) :
    2 ≤ (received tr).markers ∧ 1 ≤ (received tr).framed := by
  have t := tracks_irun tr State.init Progress.zero
    ⟨by decide, by decide, by decide⟩
  rw [irun_fst] at t
  exact t.2.2 h

theorem ok_needs_marker_and_frame_witness :
    (run State.init one_minute_trace).dcf77_sync_u8 = DCF77_SYNC_OK ∧
    2 ≤ (received one_minute_trace).markers ∧ 1 ≤ (received one_minute_trace).framed :=
  ⟨by rw [← irun_fst (State.init, Progress.zero) one_minute_trace, one_minute_run],
    ok_needs_marker_and_frame one_minute_trace
      (by rw [← irun_fst (State.init, Progress.zero) one_minute_trace, one_minute_run])⟩

/-! ## The window bounds on whole traces -/

/-- After a marker and 59 well-timed bits, a final idle of exactly 1600 ms is not taken
as a minute marker: sync falls back to WAIT, `bit_index` stays 59, nothing is published. -/
theorem idle_1600_run :
    (run State.init idle_1600_trace).dcf77_sync_u8 = DCF77_SYNC_WAIT ∧
    (run State.init idle_1600_trace).dcf77_bitpos_u8 = 59 ∧
    (run State.init idle_1600_trace).dcf77_newdata_b = FALSE := by
  obtain ⟨c, hc, e⟩ := bits_after_marker false (List.replicate 57 false) state_long_idle
    (Progress.zero.step Event.pulse_bad) ⟨rfl, rfl, rfl⟩ rfl (by decide)
    (by rw [List.length_cons, List.length_replicate]; omega)
  have r58 : List.replicate 58 false = false :: List.replicate 57 false := rfl
  have q := irun_fst (State.init, Progress.zero) idle_1600_trace
  have key : ∃ x : State × Progress,
      irun (State.init, Progress.zero) idle_1600_trace = x ∧
      x.1.dcf77_sync_u8 = DCF77_SYNC_WAIT ∧ x.1.dcf77_bitpos_u8 = 59 ∧
      x.1.dcf77_newdata_b = FALSE := by
    unfold idle_1600_trace
    rw [irun_append, after_long_idle, irun_append, r58, e, irun_append, second_sync,
      irun_append, irun_same 700, show (35 : Nat) = 35 + 0 from rfl, irun_drop 0 _ _ 1,
      falling_edge_violation]
    · refine ⟨_, rfl, rfl, ?_, rfl⟩
      simp only [List.length_cons, List.length_replicate]
    all_goals first
      | exact ⟨rfl, rfl, rfl⟩
      | (simp only [pulse_width]; omega)
      | (simp only [pulse_width]; decide)
      | simp [DCF77_SYNC_FIRST]
  obtain ⟨x, hx, h1, h2, h3⟩ := key
  rw [← q, hx]
  exact ⟨h1, h2, h3⟩

/-- After a marker, a pulse of exactly 60 ms is not classified: sync falls back from
FIRST to WAIT and no bit is stored. -/
theorem pulse_60_run :
    (run State.init (List.replicate 1700 true ++ List.replicate 60 false)).dcf77_sync_u8
      = DCF77_SYNC_FIRST ∧
    (run State.init pulse_60_trace).dcf77_sync_u8 = DCF77_SYNC_WAIT ∧
    (run State.init pulse_60_trace).dcf77_bitpos_u8 = 0 := by
  have q1 := irun_fst (State.init, Progress.zero)
    (List.replicate 1700 true ++ List.replicate 60 false)
  have q2 := irun_fst (State.init, Progress.zero) pulse_60_trace
  have e1 : irun (State.init, Progress.zero)
      (List.replicate 1700 true ++ List.replicate 60 false)
      = ({ state_long_idle with
            dcf77_cntms_u16 := 25
            pindeb_b := 0
            dcf77_pinold_b := 0
            dcf77_sync_u8 := DCF77_SYNC_FIRST
            dcf77_bitpos_u8 := 0 },
          (Progress.zero.step Event.pulse_bad).step Event.marker) := by
    rw [irun_append, after_long_idle, show (60 : Nat) = 35 + 25 from rfl,
      irun_drop 25 state_long_idle _ 1 ⟨rfl, rfl, rfl⟩ (by decide) (by decide) (by decide),
      falling_edge_marker _ (by decide), fall_event_marker _ (by decide)]
    rfl
  refine ⟨by rw [← q1, e1], ?_⟩
  have e2 : ∃ x : State × Progress,
      irun (State.init, Progress.zero) pulse_60_trace = x ∧
      x.1.dcf77_sync_u8 = DCF77_SYNC_WAIT ∧ x.1.dcf77_bitpos_u8 = 0 := by
    unfold pulse_60_trace
    rw [← List.append_assoc, irun_append, e1, show (35 : Nat) = 35 + 0 from rfl,
      irun_raise 0 _ _ ⟨rfl, rfl, rfl⟩ (by decide) (by decide),
      rising_edge_violation _ (classify_none _ (by decide) (by decide))]
    exact ⟨_, rfl, rfl, rfl⟩
  obtain ⟨x, hx, h1, h2⟩ := e2
  rw [← q2, hx]
  exact ⟨h1, h2⟩

/-! ## C6: the minute-start window is open at both bounds -/

/-- C6, as stated, fails at both bounds of the window. A falling edge measured at exactly
1600 ms, or at exactly 2200 ms (so 1600 ≤ t ≤ 2200 holds), on a decoder with sync = FIRST
holding 59 bits does not end with `bit_index` = 0, nor with sync = OK, nor with the
scratch frame published and the fresh flag set: the tick ends with sync = WAIT,
`bit_index` still 59, and the published frame and the fresh flag at their initial zero
values.  The same on a whole trace from the initial state: a marker, 59 well-timed bits
and a final idle of exactly 1600 ms end with sync = WAIT, `bit_index` = 59 and the fresh
flag clear. -/
theorem marker_window_bounds_excluded :
    ((falling_tick (state_before_marker 1600) false ∧
      interval (state_before_marker 1600) = 1600 ∧
      (1600 ≤ interval (state_before_marker 1600) ∧
        interval (state_before_marker 1600) ≤ 2200) ∧
      (state_before_marker 1600).dcf77_sync_u8 = DCF77_SYNC_FIRST ∧
      (state_before_marker 1600).dcf77_bitpos_u8 = 59 ∧
      ¬ ((dcf77_1ms_task (state_before_marker 1600) false).dcf77_bitpos_u8 = 0) ∧
      ¬ ((dcf77_1ms_task (state_before_marker 1600) false).dcf77_sync_u8 = DCF77_SYNC_OK) ∧
      ¬ ((dcf77_1ms_task (state_before_marker 1600) false).dcf77_data_au8
          = (state_before_marker 1600).dfc77_datatmp_au8) ∧
      ¬ ((dcf77_1ms_task (state_before_marker 1600) false).dcf77_newdata_b = TRUE) ∧
      (dcf77_1ms_task (state_before_marker 1600) false).dcf77_sync_u8 = DCF77_SYNC_WAIT ∧
      (dcf77_1ms_task (state_before_marker 1600) false).dcf77_bitpos_u8 = 59 ∧
      (dcf77_1ms_task (state_before_marker 1600) false).dcf77_data_au8 = Frame.zero ∧
      (dcf77_1ms_task (state_before_marker 1600) false).dcf77_newdata_b = FALSE) ∧
    (falling_tick (state_before_marker 2200) false ∧
      interval (state_before_marker 2200) = 2200 ∧
      (1600 ≤ interval (state_before_marker 2200) ∧
        interval (state_before_marker 2200) ≤ 2200) ∧
      (state_before_marker 2200).dcf77_sync_u8 = DCF77_SYNC_FIRST ∧
      (state_before_marker 2200).dcf77_bitpos_u8 = 59 ∧
      ¬ ((dcf77_1ms_task (state_before_marker 2200) false).dcf77_bitpos_u8 = 0) ∧
      ¬ ((dcf77_1ms_task (state_before_marker 2200) false).dcf77_sync_u8 = DCF77_SYNC_OK) ∧
      ¬ ((dcf77_1ms_task (state_before_marker 2200) false).dcf77_data_au8
          = (state_before_marker 2200).dfc77_datatmp_au8) ∧
      ¬ ((dcf77_1ms_task (state_before_marker 2200) false).dcf77_newdata_b = TRUE) ∧
      (dcf77_1ms_task (state_before_marker 2200) false).dcf77_sync_u8 = DCF77_SYNC_WAIT ∧
      (dcf77_1ms_task (state_before_marker 2200) false).dcf77_bitpos_u8 = 59 ∧
      (dcf77_1ms_task (state_before_marker 2200) false).dcf77_data_au8 = Frame.zero ∧
      (dcf77_1ms_task (state_before_marker 2200) false).dcf77_newdata_b = FALSE)) ∧
    ((run State.init idle_1600_trace).dcf77_sync_u8 = DCF77_SYNC_WAIT ∧
      (run State.init idle_1600_trace).dcf77_bitpos_u8 = 59 ∧
      (run State.init idle_1600_trace).dcf77_newdata_b = FALSE) :=
  ⟨by decide, idle_1600_run⟩

/-- The amended C6 at a concrete tick: a falling edge measured at 1800 ms on a decoder
with sync = FIRST holding 59 bits publishes the scratch frame. -/
theorem marker_window_interior_witness :
    (falling_tick (state_before_marker 1800) false ∧
      (1600 < interval (state_before_marker 1800) ∧
        interval (state_before_marker 1800) < 2200) ∧
      (state_before_marker 1800).dcf77_sync_u8 = DCF77_SYNC_FIRST ∧
      (state_before_marker 1800).dcf77_bitpos_u8 = 59) ∧
    (dcf77_1ms_task (state_before_marker 1800) false).dcf77_bitpos_u8 = 0 ∧
    (dcf77_1ms_task (state_before_marker 1800) false).dcf77_sync_u8 = DCF77_SYNC_OK ∧
    (dcf77_1ms_task (state_before_marker 1800) false).dcf77_data_au8 = frame_S1 ∧
    (dcf77_1ms_task (state_before_marker 1800) false).dcf77_newdata_b = TRUE :=
  ⟨⟨by decide, by decide, by decide, by decide⟩,
    (marker_window_interior (state_before_marker 1800) false (by decide) (by decide)).1,
    (marker_window_interior (state_before_marker 1800) false (by decide) (by decide)).2.2.1
      (Or.inl (by decide)) (by decide)⟩

/-! ## C7: the pulse-width windows are open at their bounds -/

/-- C7, as stated, fails at the bounds of both windows. A rising edge measured at exactly
60 or 140 ms (so 60 ≤ t ≤ 140 holds), or at exactly 160 or 240 ms (so 160 ≤ t ≤ 240
holds), on a decoder with sync = OK and `bit_index` = 5 is not classified as 0,
respectively 1: no bit is stored, `bit_index` does not advance and sync is reset to
WAIT.  The same on a whole trace from the initial state: after a marker (sync = FIRST) a
pulse of exactly 60 ms ends with sync = WAIT and `bit_index` still 0. -/
theorem pulse_window_bounds_excluded :
    ((rising_tick (state_before_pulse_end 60) true ∧
      interval (state_before_pulse_end 60) = 60 ∧
      (60 ≤ interval (state_before_pulse_end 60) ∧ interval (state_before_pulse_end 60) ≤ 140) ∧
      (state_before_pulse_end 60).dcf77_sync_u8 = DCF77_SYNC_OK ∧
      (state_before_pulse_end 60).dcf77_bitpos_u8 = 5 ∧
      classify (interval (state_before_pulse_end 60)) ≠ some 0 ∧
      ¬ ((dcf77_1ms_task (state_before_pulse_end 60) true).dcf77_bitpos_u8
          = (state_before_pulse_end 60).dcf77_bitpos_u8 + 1) ∧
      ¬ ((dcf77_1ms_task (state_before_pulse_end 60) true).dcf77_sync_u8
          = (state_before_pulse_end 60).dcf77_sync_u8) ∧
      (dcf77_1ms_task (state_before_pulse_end 60) true).dcf77_sync_u8 = DCF77_SYNC_WAIT ∧
      (dcf77_1ms_task (state_before_pulse_end 60) true).dcf77_bitpos_u8 = 5 ∧
      (dcf77_1ms_task (state_before_pulse_end 60) true).dfc77_datatmp_au8
        = (state_before_pulse_end 60).dfc77_datatmp_au8) ∧
    (rising_tick (state_before_pulse_end 140) true ∧
      interval (state_before_pulse_end 140) = 140 ∧
      (60 ≤ interval (state_before_pulse_end 140) ∧ interval (state_before_pulse_end 140) ≤ 140) ∧
      (state_before_pulse_end 140).dcf77_sync_u8 = DCF77_SYNC_OK ∧
      (state_before_pulse_end 140).dcf77_bitpos_u8 = 5 ∧
      classify (interval (state_before_pulse_end 140)) ≠ some 0 ∧
      ¬ ((dcf77_1ms_task (state_before_pulse_end 140) true).dcf77_bitpos_u8
          = (state_before_pulse_end 140).dcf77_bitpos_u8 + 1) ∧
      ¬ ((dcf77_1ms_task (state_before_pulse_end 140) true).dcf77_sync_u8
          = (state_before_pulse_end 140).dcf77_sync_u8) ∧
      (dcf77_1ms_task (state_before_pulse_end 140) true).dcf77_sync_u8 = DCF77_SYNC_WAIT ∧
      (dcf77_1ms_task (state_before_pulse_end 140) true).dcf77_bitpos_u8 = 5 ∧
      (dcf77_1ms_task (state_before_pulse_end 140) true).dfc77_datatmp_au8
        = (state_before_pulse_end 140).dfc77_datatmp_au8) ∧
    (rising_tick (state_before_pulse_end 160) true ∧
      interval (state_before_pulse_end 160) = 160 ∧
      (160 ≤ interval (state_before_pulse_end 160) ∧ interval (state_before_pulse_end 160) ≤ 240) ∧
      (state_before_pulse_end 160).dcf77_sync_u8 = DCF77_SYNC_OK ∧
      (state_before_pulse_end 160).dcf77_bitpos_u8 = 5 ∧
      classify (interval (state_before_pulse_end 160)) ≠ some 1 ∧
      ¬ ((dcf77_1ms_task (state_before_pulse_end 160) true).dcf77_bitpos_u8
          = (state_before_pulse_end 160).dcf77_bitpos_u8 + 1) ∧
      ¬ ((dcf77_1ms_task (state_before_pulse_end 160) true).dcf77_sync_u8
          = (state_before_pulse_end 160).dcf77_sync_u8) ∧
      (dcf77_1ms_task (state_before_pulse_end 160) true).dcf77_sync_u8 = DCF77_SYNC_WAIT ∧
      (dcf77_1ms_task (state_before_pulse_end 160) true).dcf77_bitpos_u8 = 5 ∧
      (dcf77_1ms_task (state_before_pulse_end 160) true).dfc77_datatmp_au8
        = (state_before_pulse_end 160).dfc77_datatmp_au8) ∧
    (rising_tick (state_before_pulse_end 240) true ∧
      interval (state_before_pulse_end 240) = 240 ∧
      (160 ≤ interval (state_before_pulse_end 240) ∧ interval (state_before_pulse_end 240) ≤ 240) ∧
      (state_before_pulse_end 240).dcf77_sync_u8 = DCF77_SYNC_OK ∧
      (state_before_pulse_end 240).dcf77_bitpos_u8 = 5 ∧
      classify (interval (state_before_pulse_end 240)) ≠ some 1 ∧
      ¬ ((dcf77_1ms_task (state_before_pulse_end 240) true).dcf77_bitpos_u8
          = (state_before_pulse_end 240).dcf77_bitpos_u8 + 1) ∧
      ¬ ((dcf77_1ms_task (state_before_pulse_end 240) true).dcf77_sync_u8
          = (state_before_pulse_end 240).dcf77_sync_u8) ∧
      (dcf77_1ms_task (state_before_pulse_end 240) true).dcf77_sync_u8 = DCF77_SYNC_WAIT ∧
      (dcf77_1ms_task (state_before_pulse_end 240) true).dcf77_bitpos_u8 = 5 ∧
      (dcf77_1ms_task (state_before_pulse_end 240) true).dfc77_datatmp_au8
        = (state_before_pulse_end 240).dfc77_datatmp_au8)) ∧
    ((run State.init (List.replicate 1700 true ++ List.replicate 60 false)).dcf77_sync_u8
        = DCF77_SYNC_FIRST ∧
      (run State.init pulse_60_trace).dcf77_sync_u8 = DCF77_SYNC_WAIT ∧
      (run State.init pulse_60_trace).dcf77_bitpos_u8 = 0) :=
  ⟨by decide, pulse_60_run⟩

/-- The amended C7 at two concrete ticks: a pulse of 100 ms stores a 0 and a pulse of
200 ms stores a 1 at `bit_index` = 5, with sync = OK kept. -/
theorem pulse_window_interior_witness :
    (rising_tick (state_before_pulse_end 100) true ∧
      (state_before_pulse_end 100).dcf77_sync_u8 = DCF77_SYNC_OK ∧
      (state_before_pulse_end 100).dcf77_bitpos_u8 ≤ 59 ∧
      (60 < interval (state_before_pulse_end 100) ∧
        interval (state_before_pulse_end 100) < 140) ∧
      rising_tick (state_before_pulse_end 200) true ∧
      (160 < interval (state_before_pulse_end 200) ∧
        interval (state_before_pulse_end 200) < 240)) ∧
    ((dcf77_1ms_task (state_before_pulse_end 100) true).dfc77_datatmp_au8
        = store_bit frame_S1 5 0 ∧
      (dcf77_1ms_task (state_before_pulse_end 100) true).dcf77_bitpos_u8 = 5 + 1 ∧
      (dcf77_1ms_task (state_before_pulse_end 100) true).dcf77_sync_u8 = DCF77_SYNC_OK) ∧
    ((dcf77_1ms_task (state_before_pulse_end 200) true).dfc77_datatmp_au8
        = store_bit frame_S1 5 1 ∧
      (dcf77_1ms_task (state_before_pulse_end 200) true).dcf77_bitpos_u8 = 5 + 1 ∧
      (dcf77_1ms_task (state_before_pulse_end 200) true).dcf77_sync_u8 = DCF77_SYNC_OK) :=
  ⟨⟨by decide, by decide, by decide, by decide, by decide, by decide⟩,
    (pulse_window_interior (state_before_pulse_end 100) true (by decide)
      (Or.inr (by decide)) (by decide)).1 (by decide),
    (pulse_window_interior (state_before_pulse_end 200) true (by decide)
      (Or.inr (by decide)) (by decide)).2 (by decide)⟩

/-! ## What one tick does to the frames and the flag -/

/-- A committing tick publishes the scratch frame. -/
theorem tick_commit (s : State) (pin : Bool) (h : commit_tick s pin) :
    (dcf77_1ms_task s pin).dcf77_data_au8 = s.dfc77_datatmp_au8 ∧
    (dcf77_1ms_task s pin).dcf77_newdata_b = TRUE ∧
    (dcf77_1ms_task s pin).dcf77_sync_u8 = DCF77_SYNC_OK ∧
    (dcf77_1ms_task s pin).dcf77_bitpos_u8 = 0 ∧
    (dcf77_1ms_task s pin).dfc77_datatmp_au8 = s.dfc77_datatmp_au8 := by
  obtain ⟨hf, ht, h0, h1⟩ := h
  obtain ⟨c1, c2, c3, c4, c5, -⟩ := pre_edge_core s pin
  have hc := pre_edge_cnt s pin
  rw [tick_falling s pin hf, falling_edge_marker _ (by rw [hc]; exact ht), c1, c2, c3,
    if_neg h0, if_pos h1]
  exact ⟨rfl, rfl, rfl, rfl, rfl⟩

/-- A tick that does not commit leaves the published frame and the flag alone. -/
theorem tick_no_commit (s : State) (pin : Bool) (h : ¬ commit_tick s pin) :
    (dcf77_1ms_task s pin).dcf77_data_au8 = s.dcf77_data_au8 ∧
    (dcf77_1ms_task s pin).dcf77_newdata_b = s.dcf77_newdata_b := by
  obtain ⟨c1, c2, c3, c4, c5, -⟩ := pre_edge_core s pin
  have hc := pre_edge_cnt s pin
  by_cases he : (pre_edge s pin).dcf77_pinold_b ≠ (pre_edge s pin).pindeb_b
  · by_cases hf : (pre_edge s pin).pindeb_b = FALSE
    · rw [tick_falling s pin ⟨he, hf⟩]
      by_cases m1 : 1600 < (pre_edge s pin).dcf77_cntms_u16 ∧
          (pre_edge s pin).dcf77_cntms_u16 < 2200
      · rw [falling_edge_marker _ m1, c1, c2]
        by_cases z : s.dcf77_sync_u8 = DCF77_SYNC_WAIT
        · rw [if_pos z]
          exact ⟨c4, c5⟩
        · by_cases q : s.dcf77_sync_u8 ≥ DCF77_SYNC_FIRST ∧ s.dcf77_bitpos_u8 = 59
          · exact absurd ⟨⟨he, hf⟩, by rw [← hc]; exact m1, z, q⟩ h
          · rw [if_neg z, if_neg q]
            exact ⟨c4, c5⟩
      · by_cases m2 : (pre_edge s pin).dcf77_cntms_u16 < 760 ∨
            940 < (pre_edge s pin).dcf77_cntms_u16
        · rw [falling_edge_violation _ m1 m2]
          exact ⟨c4, c5⟩
        · rw [falling_edge_idle _ (by omega)]
          exact ⟨c4, c5⟩
    · rw [tick_rising s pin ⟨he, hf⟩]
      cases hcl : classify (pre_edge s pin).dcf77_cntms_u16 with
      | none =>
        rw [rising_edge_violation _ hcl]
        exact ⟨c4, c5⟩
      | some b =>
        unfold rising_edge
        simp only [hcl]
        split_ifs <;> exact ⟨c4, c5⟩
  · rw [tick_quiet s pin (by simpa using he)]
    exact ⟨c4, c5⟩

/-- A storing tick writes the classified bit at `bit_index` and advances it. -/
theorem tick_store (s : State) (pin : Bool) (b : Nat) (h : store_tick s pin b) :
    (dcf77_1ms_task s pin).dfc77_datatmp_au8
      = store_bit s.dfc77_datatmp_au8 s.dcf77_bitpos_u8 b ∧
    (dcf77_1ms_task s pin).dcf77_bitpos_u8 = s.dcf77_bitpos_u8 + 1 ∧
    (dcf77_1ms_task s pin).dcf77_sync_u8 = s.dcf77_sync_u8 ∧
    (dcf77_1ms_task s pin).dcf77_data_au8 = s.dcf77_data_au8 ∧
    (dcf77_1ms_task s pin).dcf77_newdata_b = s.dcf77_newdata_b := by
  obtain ⟨hr, hcl, hs, hb⟩ := h
  obtain ⟨c1, c2, c3, c4, c5, -⟩ := pre_edge_core s pin
  have hc := pre_edge_cnt s pin
  rw [tick_rising s pin hr, rising_edge_store _ b (by rw [hc]; exact hcl)
    (by rw [c1]; exact hs) (by rw [c2]; exact hb), c2, c3]
  exact ⟨rfl, rfl, c1, c4, c5⟩

/-- A tick that does not store leaves the scratch frame alone. -/
theorem tick_no_store (s : State) (pin : Bool) (h : ∀ b, ¬ store_tick s pin b) :
    (dcf77_1ms_task s pin).dfc77_datatmp_au8 = s.dfc77_datatmp_au8 := by
  obtain ⟨c1, c2, c3, c4, c5, -⟩ := pre_edge_core s pin
  have hc := pre_edge_cnt s pin
  by_cases he : (pre_edge s pin).dcf77_pinold_b ≠ (pre_edge s pin).pindeb_b
  · by_cases hf : (pre_edge s pin).pindeb_b = FALSE
    · rw [tick_falling s pin ⟨he, hf⟩]
      unfold falling_edge
      simp only []
      split_ifs <;> exact c3
    · rw [tick_rising s pin ⟨he, hf⟩]
      cases hcl : classify (pre_edge s pin).dcf77_cntms_u16 with
      | none =>
        rw [rising_edge_violation _ hcl]
        exact c3
      | some b =>
        have g : ¬ ((pre_edge s pin).dcf77_sync_u8 ≥ DCF77_SYNC_FIRST ∧
            (pre_edge s pin).dcf77_bitpos_u8 ≤ 59) := by
          rw [c1, c2]
          intro q
          exact h b ⟨⟨he, hf⟩, by rw [← hc]; exact hcl, q⟩
        unfold rising_edge
        simp only [hcl, if_neg g]
        exact c3
  · rw [tick_quiet s pin (by simpa using he)]
    exact c3

theorem tick_event_rising (s : State) (pin : Bool) (h : rising_tick s pin) :
    tick_event s pin = rise_event (interval s) := by
  unfold tick_event
  rw [if_pos h.1, if_neg h.2, pre_edge_cnt]

theorem tick_event_falling (s : State) (pin : Bool) (h : falling_tick s pin) :
    tick_event s pin = fall_event (interval s) := by
  unfold tick_event
  rw [if_pos h.1, if_pos h.2, pre_edge_cnt]

theorem classify_bit (t b : Nat) (h : classify t = some b) : b = 0 ∨ b = 1 := by
  unfold classify at h
  split_ifs at h
  · exact Or.inl (Option.some.inj h).symm
  · exact Or.inr (Option.some.inj h).symm

/-! ## C12: what `dcf77_newdata` changes -/

/-- C12. On every state `dcf77_newdata` leaves the new data flag cleared, whatever it
returns, and changes nothing else: published frame, scratch frame, sync, `bit_index`,
the millisecond counter and the debouncer state are as before the call. -/
theorem newdata_consumes_flag_only (s : State) :
    (dcf77_newdata s).2.dcf77_newdata_b = FALSE ∧
    (dcf77_newdata s).2.dcf77_data_au8 = s.dcf77_data_au8 ∧
    (dcf77_newdata s).2.dfc77_datatmp_au8 = s.dfc77_datatmp_au8 ∧
    (dcf77_newdata s).2.dcf77_sync_u8 = s.dcf77_sync_u8 ∧
    (dcf77_newdata s).2.dcf77_bitpos_u8 = s.dcf77_bitpos_u8 ∧
    (dcf77_newdata s).2.dcf77_cntms_u16 = s.dcf77_cntms_u16 ∧
    (dcf77_newdata s).2.debcnt = s.debcnt ∧
    (dcf77_newdata s).2.pindeb_b = s.pindeb_b ∧
    (dcf77_newdata s).2.dcf77_pinold_b = s.dcf77_pinold_b := by
  unfold dcf77_newdata
  exact ⟨rfl, rfl, rfl, rfl, rfl, rfl, rfl, rfl, rfl⟩

/-! ## C17: the transitions of `sync` -/

/-- C17. On every state whose sync is WAIT, FIRST or OK, a tick leaves sync unchanged,
or sets it to WAIT, or takes it from WAIT to FIRST, or from FIRST to OK; it never takes
it from OK to FIRST nor from WAIT to OK; and `dcf77_newdata` never changes sync. -/
theorem sync_transitions (s : State) (pin : Bool) (hs : sync_valid s) :
    ((dcf77_1ms_task s pin).dcf77_sync_u8 = s.dcf77_sync_u8 ∨
      (dcf77_1ms_task s pin).dcf77_sync_u8 = DCF77_SYNC_WAIT ∨
      (s.dcf77_sync_u8 = DCF77_SYNC_WAIT ∧
        (dcf77_1ms_task s pin).dcf77_sync_u8 = DCF77_SYNC_FIRST) ∨
      (s.dcf77_sync_u8 = DCF77_SYNC_FIRST ∧
        (dcf77_1ms_task s pin).dcf77_sync_u8 = DCF77_SYNC_OK)) ∧
    ¬ (s.dcf77_sync_u8 = DCF77_SYNC_OK ∧
        (dcf77_1ms_task s pin).dcf77_sync_u8 = DCF77_SYNC_FIRST) ∧
    ¬ (s.dcf77_sync_u8 = DCF77_SYNC_WAIT ∧
        (dcf77_1ms_task s pin).dcf77_sync_u8 = DCF77_SYNC_OK) ∧
    (dcf77_newdata s).2.dcf77_sync_u8 = s.dcf77_sync_u8 := by
  obtain ⟨e1, e2, e3, e4, e5, e6⟩ := tick_effect s pin
  unfold sync_valid at hs
  unfold DCF77_SYNC_WAIT DCF77_SYNC_FIRST DCF77_SYNC_OK at *
  refine ⟨?_, ?_, ?_, rfl⟩
  all_goals
    cases hev : tick_event s pin with
    | quiet => have := e1 hev; omega
    | idle_ok => have := e2 hev; omega
    | idle_bad => have := e3 hev; omega
    | pulse_bad => have := e4 hev; omega
    | marker =>
      have := (e5 hev).2
      split_ifs at this <;> omega
    | bit b =>
      have := e6 b hev
      split_ifs at this <;> omega

theorem sync_transitions_witness :
    sync_valid (state_before_marker 1800) ∧
    (state_before_marker 1800).dcf77_sync_u8 = DCF77_SYNC_FIRST ∧
    (dcf77_1ms_task (state_before_marker 1800) false).dcf77_sync_u8 = DCF77_SYNC_OK ∧
    ¬ ((state_before_marker 1800).dcf77_sync_u8 = DCF77_SYNC_WAIT ∧
        (dcf77_1ms_task (state_before_marker 1800) false).dcf77_sync_u8 = DCF77_SYNC_OK) :=
  ⟨by decide, by decide, by decide,
    (sync_transitions (state_before_marker 1800) false (by decide)).2.2.1⟩

/-! ## C15: when the published frame changes -/

/-- C15. On every state whose sync is WAIT, FIRST or OK: if a tick changes the published
frame, or turns the new data flag from clear to set, then the tick processed a falling
edge, sync was FIRST or OK and `bit_index` was 59 before it, and after it the published
frame is the scratch frame of before, sync is OK, the flag is set and `bit_index` is 0. -/
theorem publication_only_at_commit (s : State) (pin : Bool) (hs : sync_valid s)
    (h : (dcf77_1ms_task s pin).dcf77_data_au8 ≠ s.dcf77_data_au8 ∨
      (s.dcf77_newdata_b = 0 ∧ (dcf77_1ms_task s pin).dcf77_newdata_b ≠ 0)) :
    falling_tick s pin ∧
    (s.dcf77_sync_u8 = DCF77_SYNC_FIRST ∨ s.dcf77_sync_u8 = DCF77_SYNC_OK) ∧
    s.dcf77_bitpos_u8 = 59 ∧
    (dcf77_1ms_task s pin).dcf77_data_au8 = s.dfc77_datatmp_au8 ∧
    (dcf77_1ms_task s pin).dcf77_sync_u8 = DCF77_SYNC_OK ∧
    (dcf77_1ms_task s pin).dcf77_newdata_b = TRUE ∧
    (dcf77_1ms_task s pin).dcf77_bitpos_u8 = 0 := by
  by_cases hc : commit_tick s pin
  · obtain ⟨a1, a2, a3, a4, -⟩ := tick_commit s pin hc
    obtain ⟨hf, -, h0, -, hb⟩ := hc
    refine ⟨hf, ?_, hb, a1, a3, a2, a4⟩
    rcases hs with z | z | z
    · exact absurd z h0
    · exact Or.inl z
    · exact Or.inr z
  · obtain ⟨a1, a2⟩ := tick_no_commit s pin hc
    rcases h with h | ⟨h1, h2⟩
    · exact absurd a1 h
    · rw [a2] at h2
      exact absurd h1 h2

theorem publication_only_at_commit_witness :
    sync_valid (state_before_marker 1800) ∧
    (dcf77_1ms_task (state_before_marker 1800) false).dcf77_data_au8
      ≠ (state_before_marker 1800).dcf77_data_au8 ∧
    falling_tick (state_before_marker 1800) false ∧
    (dcf77_1ms_task (state_before_marker 1800) false).dcf77_data_au8
      = (state_before_marker 1800).dfc77_datatmp_au8 :=
  ⟨by decide, by decide,
    (publication_only_at_commit (state_before_marker 1800) false (by decide)
      (Or.inl (by decide))).1,
    (publication_only_at_commit (state_before_marker 1800) false (by decide)
      (Or.inl (by decide))).2.2.2.1⟩

/-! ## C16: where a bit is stored -/

theorem store_bit_get_other (f : Frame) (i b k : Nat) (hk : k ≠ i / 8) :
    (store_bit f i b).get k = f.get k := by
  unfold store_bit
  split <;> rw [Frame.get_set] <;> rw [if_neg (fun c => hk c.1.symm)]

/-- C16. On every state whose sync is WAIT, FIRST or OK and whose scratch bytes are
`uint8` values: with sync FIRST or OK and `bit_index` = i ≤ 59, a rising-edge tick whose
pulse width is classified as bit value `b` sets bit `i % 8` of byte `i / 8` of the
scratch frame to `b`, leaves every other bit and every other byte of the scratch frame
unchanged, sets `bit_index` to `i + 1` and leaves sync and the published frame
unchanged; and a tick that changes the scratch frame is such a rising edge. -/
theorem bit_storage_layout (s : State) (pin : Bool) (hwf : s.dfc77_datatmp_au8.WF)
    (hs : sync_valid s) :
    (∀ b, rising_tick s pin → classify (interval s) = some b →
      (s.dcf77_sync_u8 = DCF77_SYNC_FIRST ∨ s.dcf77_sync_u8 = DCF77_SYNC_OK) →
      s.dcf77_bitpos_u8 ≤ 59 →
      bitAt ((dcf77_1ms_task s pin).dfc77_datatmp_au8.get (s.dcf77_bitpos_u8 / 8))
        (s.dcf77_bitpos_u8 % 8) = b ∧
      (∀ j, j ≠ s.dcf77_bitpos_u8 →
        frameBit (dcf77_1ms_task s pin).dfc77_datatmp_au8 j
          = frameBit s.dfc77_datatmp_au8 j) ∧
      (∀ k, k ≠ s.dcf77_bitpos_u8 / 8 →
        (dcf77_1ms_task s pin).dfc77_datatmp_au8.get k = s.dfc77_datatmp_au8.get k) ∧
      (dcf77_1ms_task s pin).dcf77_bitpos_u8 = s.dcf77_bitpos_u8 + 1 ∧
      (dcf77_1ms_task s pin).dcf77_sync_u8 = s.dcf77_sync_u8 ∧
      (dcf77_1ms_task s pin).dcf77_data_au8 = s.dcf77_data_au8) ∧
    ((dcf77_1ms_task s pin).dfc77_datatmp_au8 ≠ s.dfc77_datatmp_au8 →
      rising_tick s pin ∧ (∃ b, classify (interval s) = some b) ∧
      (s.dcf77_sync_u8 = DCF77_SYNC_FIRST ∨ s.dcf77_sync_u8 = DCF77_SYNC_OK) ∧
      s.dcf77_bitpos_u8 ≤ 59) := by
  constructor
  · intro b hr hcl hso hb
    have h1 : s.dcf77_sync_u8 ≥ DCF77_SYNC_FIRST := by
      unfold DCF77_SYNC_FIRST DCF77_SYNC_OK at *
      omega
    obtain ⟨a1, a2, a3, a4, -⟩ := tick_store s pin b ⟨hr, hcl, h1, hb⟩
    have fb := frameBit_store_bit s.dfc77_datatmp_au8 hwf s.dcf77_bitpos_u8 b
    rw [a1]
    refine ⟨?_, ?_, ?_, a2, a3, a4⟩
    · have e := fb s.dcf77_bitpos_u8 (by omega)
      rw [if_pos rfl] at e
      show frameBit (store_bit s.dfc77_datatmp_au8 s.dcf77_bitpos_u8 b) s.dcf77_bitpos_u8 = b
      rw [e]
      rcases classify_bit _ _ hcl with z | z <;> rw [z] <;> rfl
    · intro j hj
      rw [fb j (by omega), if_neg hj]
    · intro k hk
      exact store_bit_get_other _ _ _ _ hk
  · intro hne
    by_cases hst : ∃ b, store_tick s pin b
    · obtain ⟨b, hr, hcl, h1, hb⟩ := hst
      refine ⟨hr, ⟨b, hcl⟩, ?_, hb⟩
      unfold sync_valid at hs
      unfold DCF77_SYNC_WAIT DCF77_SYNC_FIRST DCF77_SYNC_OK at *
      omega
    · exact absurd (tick_no_store s pin (fun b hb => hst ⟨b, hb⟩)) hne

theorem bit_storage_layout_witness :
    (state_before_pulse_end 200).dfc77_datatmp_au8.WF ∧
    sync_valid (state_before_pulse_end 200) ∧
    rising_tick (state_before_pulse_end 200) true ∧
    classify (interval (state_before_pulse_end 200)) = some 1 ∧
    (state_before_pulse_end 200).dcf77_bitpos_u8 = 5 ∧
    bitAt ((dcf77_1ms_task (state_before_pulse_end 200) true).dfc77_datatmp_au8.get
        ((state_before_pulse_end 200).dcf77_bitpos_u8 / 8))
      ((state_before_pulse_end 200).dcf77_bitpos_u8 % 8) = 1 ∧
    (dcf77_1ms_task (state_before_pulse_end 200) true).dcf77_bitpos_u8
      = (state_before_pulse_end 200).dcf77_bitpos_u8 + 1 :=
  ⟨by decide, by decide, by decide, by decide, by decide,
    ((bit_storage_layout (state_before_pulse_end 200) true (by decide) (by decide)).1 1
      (by decide) (by decide) (by decide) (by decide)).1,
    ((bit_storage_layout (state_before_pulse_end 200) true (by decide) (by decide)).1 1
      (by decide) (by decide) (by decide) (by decide)).2.2.2.1⟩

/-! ## C11: frame overrun -/

/-- C11. On every state with sync FIRST or OK and `bit_index` = 60, a tick that processes
a rising edge (of any pulse width) or a falling edge whose interval lies in 1600..2200
ends with sync = WAIT and leaves the published frame and the new data flag unchanged. -/
theorem overrun_resets (s : State) (pin : Bool)
    (hs : s.dcf77_sync_u8 = DCF77_SYNC_FIRST ∨ s.dcf77_sync_u8 = DCF77_SYNC_OK)
    (hb : s.dcf77_bitpos_u8 = 60)
    (h : rising_tick s pin ∨
      (falling_tick s pin ∧ 1600 ≤ interval s ∧ interval s ≤ 2200)) :
    (dcf77_1ms_task s pin).dcf77_sync_u8 = DCF77_SYNC_WAIT ∧
    (dcf77_1ms_task s pin).dcf77_data_au8 = s.dcf77_data_au8 ∧
    (dcf77_1ms_task s pin).dcf77_newdata_b = s.dcf77_newdata_b := by
  have nc : ¬ commit_tick s pin := by
    intro c
    have := c.2.2.2.2
    omega
  refine ⟨?_, tick_no_commit s pin nc⟩
  obtain ⟨e1, e2, e3, e4, e5, e6⟩ := tick_effect s pin
  unfold DCF77_SYNC_WAIT DCF77_SYNC_FIRST DCF77_SYNC_OK at *
  rcases h with hr | ⟨hf, t1, t2⟩
  · have ev := tick_event_rising s pin hr
    cases hcl : classify (interval s) with
    | none =>
      have ev2 : tick_event s pin = Event.pulse_bad := by
        rw [ev]
        unfold rise_event
        rw [hcl]
      exact (e4 ev2).1
    | some b =>
      have ev2 : tick_event s pin = Event.bit b := by
        rw [ev]
        unfold rise_event
        rw [hcl]
      have r := e6 b ev2
      rw [if_neg (by omega)] at r
      exact r.1
  · have ev := tick_event_falling s pin hf
    by_cases m : 1600 < interval s ∧ interval s < 2200
    · rw [fall_event_marker _ m] at ev
      have r := (e5 ev).2
      rw [if_neg (by omega), if_neg (by omega)] at r
      exact r
    · have ev2 : tick_event s pin = Event.idle_bad := by
        rw [ev]
        unfold fall_event DCF77_SIG_START_MIN DCF77_SIG_START_MAX DCF77_BIT_IDLE_MIN
          DCF77_BIT_IDLE_MAX DCF77_BIT_HIGH_MAX DCF77_BIT_LOW_MIN
        rw [if_neg m, if_pos (by omega)]
      exact (e3 ev2).1

/-- The 35th LOW sample on a settled HIGH level is a falling edge. -/
theorem falling_tick_flip (s : State) (h1 : s.dcf77_pinold_b = s.pindeb_b)
    (h2 : s.pindeb_b ≠ 0) (h3 : s.debcnt = 34) (h4 : s.dcf77_cntms_u16 + 1 < 65536) :
    falling_tick s false := by
  have hp := pre_edge_flip s false (by simpa using h2.symm) h3 h4
  unfold falling_tick
  rw [hp]
  exact ⟨by simpa [h1] using h2, rfl⟩

/-- The state reached by `overrun_marker_prefix`: sync FIRST, 60 bits stored, nothing
published, one LOW sample short of the falling edge that ends the long idle. -/
theorem overrun_prefix_run :
    ∃ c, (760 ≤ c + 35 ∧ c + 35 ≤ 940) ∧
      run State.init overrun_marker_prefix =
        { state_long_idle with
          dcf77_cntms_u16 := c + 1000 + 34
          debcnt := 34
          dcf77_sync_u8 := DCF77_SYNC_FIRST
          dfc77_datatmp_au8 :=
            store_bits state_long_idle.dfc77_datatmp_au8 0 (false :: List.replicate 59 false)
          dcf77_bitpos_u8 := 60 } := by
  obtain ⟨c, hc, e⟩ := bits_after_marker false (List.replicate 59 false) state_long_idle
    (Progress.zero.step Event.pulse_bad) ⟨rfl, rfl, rfl⟩ rfl (by decide)
    (by rw [List.length_cons, List.length_replicate])
  refine ⟨c, hc, ?_⟩
  have r60 : List.replicate 60 false = false :: List.replicate 59 false := rfl
  have q := irun_fst (State.init, Progress.zero) overrun_marker_prefix
  have key : ∃ g, irun (State.init, Progress.zero) overrun_marker_prefix =
      ({ state_long_idle with
          dcf77_cntms_u16 := c + 1000 + 34
          debcnt := 34
          dcf77_sync_u8 := DCF77_SYNC_FIRST
          dfc77_datatmp_au8 :=
            store_bits state_long_idle.dfc77_datatmp_au8 0 (false :: List.replicate 59 false)
          dcf77_bitpos_u8 := 60 }, g) := by
    unfold overrun_marker_prefix overrun_trace
    simp only [irun_append]
    rw [after_long_idle, r60, e, second_silent, irun_wait 34]
    · refine ⟨_, Prod.ext ?_ rfl⟩
      simp only [List.length_cons, List.length_replicate]
      rfl
    all_goals first
      | exact ⟨rfl, rfl, rfl⟩
      | rfl
      | (simp only []; omega)
      | (simp only [state_long_idle, State.init]; omega)
      | simp [state_long_idle, State.init, FALSE]
  obtain ⟨g, hg⟩ := key
  rw [← q, hg]

theorem overrun_resets_witness :
    ((run State.init overrun_marker_prefix).dcf77_sync_u8 = DCF77_SYNC_FIRST ∧
      (run State.init overrun_marker_prefix).dcf77_bitpos_u8 = 60 ∧
      falling_tick (run State.init overrun_marker_prefix) false ∧
      1600 ≤ interval (run State.init overrun_marker_prefix) ∧
      interval (run State.init overrun_marker_prefix) ≤ 2200) ∧
    (dcf77_1ms_task (run State.init overrun_marker_prefix) false).dcf77_sync_u8
      = DCF77_SYNC_WAIT ∧
    (dcf77_1ms_task (run State.init overrun_marker_prefix) false).dcf77_data_au8
      = Frame.zero ∧
    (dcf77_1ms_task (run State.init overrun_marker_prefix) false).dcf77_newdata_b
      = FALSE := by
  obtain ⟨c, hc, e⟩ := overrun_prefix_run
  have f1 : (run State.init overrun_marker_prefix).dcf77_sync_u8 = DCF77_SYNC_FIRST := by
    rw [e]
  have f2 : (run State.init overrun_marker_prefix).dcf77_bitpos_u8 = 60 := by
    rw [e]
  have f3 : falling_tick (run State.init overrun_marker_prefix) false := by
    rw [e]
    exact falling_tick_flip _ rfl (by show (1 : Nat) ≠ 0; omega) rfl (by simp only []; omega)
  have f4 : interval (run State.init overrun_marker_prefix) = c + 1000 + 34 + 1 := by
    rw [e]
    unfold interval
    simp only []
    omega
  have f5 : (run State.init overrun_marker_prefix).dcf77_data_au8 = Frame.zero := by
    rw [e]
    rfl
  have f6 : (run State.init overrun_marker_prefix).dcf77_newdata_b = FALSE := by
    rw [e]
    rfl
  have r := overrun_resets (run State.init overrun_marker_prefix) false (Or.inl f1) f2
    (Or.inr ⟨f3, by omega, by omega⟩)
  exact ⟨⟨f1, f2, f3, by omega, by omega⟩, r.1, r.2.1.trans f5, r.2.2.trans f6⟩

/-! ## C18: accesses to the scratch frame stay inside the array -/

/-- The checked rising-edge branch never fails and agrees with `rising_edge`. -/
theorem rising_edge_checked_eq (s : State) : rising_edge_checked s = some (rising_edge s) := by
  unfold rising_edge_checked rising_edge Frame.get_checked Frame.set_checked
  cases hcl : classify s.dcf77_cntms_u16 with
  | none =>
    have g : ¬ (DCF77_SYNC_WAIT ≥ DCF77_SYNC_FIRST ∧ s.dcf77_bitpos_u8 ≤ 59) := by
      intro c
      exact absurd c.1 (by decide)
    simp only [if_neg g]
  | some b =>
    simp only [Option.getD_some]
    by_cases g : s.dcf77_sync_u8 ≥ DCF77_SYNC_FIRST ∧ s.dcf77_bitpos_u8 ≤ 59
    · have lt : s.dcf77_bitpos_u8 / 8 % 256 < 8 := by
        have := g.2
        omega
      simp only [if_pos g, if_pos lt]
      split_ifs <;> rfl
    · simp only [if_neg g]

theorem rising_edge_index_le (s : State) (i : Nat) (h : rising_edge_index s = some i) :
    i ≤ 7 := by
  unfold rising_edge_index at h
  cases hcl : classify s.dcf77_cntms_u16 with
  | none =>
    rw [hcl] at h
    simp only [] at h
    split_ifs at h with g
    have e := Option.some.inj h
    have := g.2
    omega
  | some b =>
    rw [hcl] at h
    simp only [] at h
    split_ifs at h with g
    have e := Option.some.inj h
    have := g.2
    omega

theorem no_index_no_store (s : State) (pin : Bool) (h : scratch_write_index s pin = none)
    (b : Nat) : ¬ store_tick s pin b := by
  intro ⟨hr, hcl, hg⟩
  obtain ⟨c1, c2, -⟩ := pre_edge_core s pin
  unfold scratch_write_index at h
  rw [if_pos hr.1, if_neg hr.2] at h
  unfold rising_edge_index at h
  rw [pre_edge_cnt, hcl] at h
  simp only [c1, c2] at h
  rw [if_pos hg] at h
  exact Option.noConfusion h

/-- C18. For every decoder state, whatever `bit_index` holds, and every raw sample, the
tick with the accesses to the 8-byte scratch frame checked never fails and yields the
state of `dcf77_1ms_task`; the byte index of the write, when the tick writes, lies in
0..7, and a tick without such an index leaves the scratch frame unchanged.  In every
state reachable from the initial state by ticks and `dcf77_newdata` calls, and so after
every raw trace fed to the initial state (with or without a minute marker in it),
`bit_index` is at most 60. -/
theorem scratch_access_in_bounds (s : State) (pin : Bool) (t : State) (ht : Reachable t)
    (tr : List Bool) :
    dcf77_1ms_task_checked s pin = some (dcf77_1ms_task s pin) ∧
    (∀ i, scratch_write_index s pin = some i → i ≤ 7) ∧
    (scratch_write_index s pin = none →
      (dcf77_1ms_task s pin).dfc77_datatmp_au8 = s.dfc77_datatmp_au8) ∧
    t.dcf77_bitpos_u8 ≤ 60 ∧
    (run State.init tr).dcf77_bitpos_u8 ≤ 60 := by
  have inv : ∀ u, Reachable u → u.dcf77_bitpos_u8 ≤ 60 := by
    intro u hu
    induction hu with
    | init => decide
    | tick s pin _ ih => exact tick_bitpos_le s pin ih
    | poll s _ ih => exact ih
  refine ⟨?_, ?_, ?_, inv t ht, inv _ (reachable_run tr _ Reachable.init)⟩
  · unfold dcf77_1ms_task_checked dcf77_1ms_task
    simp only [rising_edge_checked_eq]
    split_ifs <;> rfl
  · intro i h
    unfold scratch_write_index at h
    split_ifs at h
    exact rising_edge_index_le _ i h
  · intro h
    exact tick_no_store s pin (no_index_no_store s pin h)

theorem scratch_access_in_bounds_witness :
    Reachable (run State.init overrun_trace) ∧
    dcf77_1ms_task_checked (state_before_pulse_end 100) true
      = some (dcf77_1ms_task (state_before_pulse_end 100) true) ∧
    scratch_write_index (state_before_pulse_end 100) true = some 0 ∧
    (run State.init overrun_trace).dcf77_bitpos_u8 ≤ 60 :=
  ⟨reachable_run _ _ Reachable.init,
    (scratch_access_in_bounds (state_before_pulse_end 100) true (run State.init overrun_trace)
      (reachable_run _ _ Reachable.init) []).1,
    by decide,
    (scratch_access_in_bounds (state_before_pulse_end 100) true (run State.init overrun_trace)
      (reachable_run _ _ Reachable.init) []).2.2.2.1⟩

/-! ## C19: the parity helpers against the population count -/

section bytes6
set_option maxRecDepth 100000

/-- The one-bits counted with `bit_test` are the one-bits of the binary digits. -/
theorem popcount8_ones8 : ∀ n, n < 256 → popcount8 n = ones8 n := by decide!

end bytes6

/-- The four `calc_parity_part` calls of the date check count the one-bits of
bits 36..57. -/
theorem date_chain (f : Frame) :
    calc_parity_part (fieldVal f 50 8 % 256)
      (calc_parity_part (fieldVal f 45 5)
        (calc_parity_part (fieldVal f 42 3)
          (calc_parity_part (fieldVal f 36 6) 0)))
      = bitSum f 36 22 := by
  have lY := fieldVal_lt f 50 8
  have e : bitSum f 36 22
      = bitSum f 36 6 + bitSum f 42 3 + bitSum f 45 5 + bitSum f 50 8 := by
    have a1 := bitSum_add f 36 6 16
    have a2 := bitSum_add f 42 3 13
    have a3 := bitSum_add f 45 5 8
    norm_num at a1 a2 a3
    omega
  have u1 := bitSum_le f 36 6
  have u2 := bitSum_le f 42 3
  have u3 := bitSum_le f 45 5
  have e1 : calc_parity_part (fieldVal f 36 6) 0 = bitSum f 36 6 := by
    rw [calc_parity_part_eq _ 0 (by omega), popcount8_fieldVal _ _ _ (by omega)]
    omega
  have e2 : calc_parity_part (fieldVal f 42 3) (bitSum f 36 6)
      = bitSum f 36 6 + bitSum f 42 3 := by
    rw [calc_parity_part_eq _ _ (by omega), popcount8_fieldVal _ _ _ (by omega)]
  have e3 : calc_parity_part (fieldVal f 45 5) (bitSum f 36 6 + bitSum f 42 3)
      = bitSum f 36 6 + bitSum f 42 3 + bitSum f 45 5 := by
    rw [calc_parity_part_eq _ _ (by omega), popcount8_fieldVal _ _ _ (by omega)]
  have e4 : calc_parity_part (fieldVal f 50 8)
      (bitSum f 36 6 + bitSum f 42 3 + bitSum f 45 5)
      = bitSum f 36 6 + bitSum f 42 3 + bitSum f 45 5 + bitSum f 50 8 := by
    rw [calc_parity_part_eq _ _ (by omega), popcount8_fieldVal _ _ _ (by omega)]
  rw [Nat.mod_eq_of_lt (by omega), e1, e2, e3, e4, e]

/-- C19. For every byte `n`, `calc_parity n` is `0x80` when `n` has an odd number of
one-bits and `0` when it has an even number; for every byte `n` and every `prev` ≤ 247,
`calc_parity_part n prev` is `prev` plus the number of one-bits of `n`; and on a published
frame of `uint8` bytes the date parity that `dcf77_newdata` compares with bit 58 is the
XOR of bits 36..57. -/
theorem parity_helpers_popcount (n prev : Nat) (s : State) (hn : n < 256) (hp : prev ≤ 247)
    (hf : s.dcf77_data_au8.WF) :
    calc_parity n = (if ones8 n % 2 = 1 then 0x80 else 0) ∧
    calc_parity_part n prev = prev + ones8 n ∧
    date_parity s = fieldXor s.dcf77_data_au8 36 22 := by
  refine ⟨?_, ?_, ?_⟩
  · rw [calc_parity_popcount n hn, popcount8_ones8 n hn]
  · rw [calc_parity_part_eq n prev hp, popcount8_ones8 n hn]
  · unfold date_parity
    simp only [raw_day_eq _ hf, raw_month_eq _ hf, raw_year_eq _ hf, dcf77_get_dow,
      raw_dow_eq _ hf]
    rw [date_chain, Nat.and_one_is_mod]
    rfl

theorem parity_helpers_popcount_witness :
    (0x53 < 256 ∧ 247 ≤ 247 ∧ state_S1.dcf77_data_au8.WF) ∧
    calc_parity 0x53 = 0 ∧
    calc_parity_part 0x53 247 = 251 ∧
    date_parity state_S1 = fieldXor state_S1.dcf77_data_au8 36 22 :=
  ⟨⟨by decide, by decide, by decide⟩,
    (parity_helpers_popcount 0x53 247 state_S1 (by decide) (by decide) (by decide)).1,
    (parity_helpers_popcount 0x53 247 state_S1 (by decide) (by decide) (by decide)).2.1,
    (parity_helpers_popcount 0x53 247 state_S1 (by decide) (by decide) (by decide)).2.2⟩

/-! ## C13: one true poll per committed frame -/

/-- True polls are paid for by commits, the pending flag counting as one commit not yet
consumed. -/
theorem true_polls_le (acts : List Action) (s : State) :
    true_polls s acts ≤ commits s acts + (if s.dcf77_newdata_b ≠ 0 then 1 else 0) := by
  induction acts generalizing s with
  | nil => simp [true_polls]
  | cons a acts ih =>
    cases a with
    | tick pin =>
      have h := ih (dcf77_1ms_task s pin)
      simp only [true_polls, commits]
      by_cases c : commit_tick s pin
      · rw [if_pos c]
        have : (if (dcf77_1ms_task s pin).dcf77_newdata_b ≠ 0 then 1 else 0) ≤ 1 := by
          split <;> omega
        omega
      · rw [if_neg c]
        rw [(tick_no_commit s pin c).2] at h
        omega
    | poll =>
      have h := ih (dcf77_newdata s).2
      have z : (dcf77_newdata s).2.dcf77_newdata_b = 0 := rfl
      rw [z] at h
      simp only [true_polls, commits]
      by_cases r : (dcf77_newdata s).1 ≠ 0
      · have f := ((newdata_fst_ne_zero_iff s).mp r).2
        rw [if_pos r, if_pos f]
        simp only [ne_eq, not_true_eq_false, if_false] at h
        omega
      · rw [if_neg r]
        simp only [ne_eq, not_true_eq_false, if_false] at h
        omega

/-- C13. For every interleaving of `dcf77_1ms_task` ticks and `dcf77_newdata` calls
starting from the initial state, the number of `dcf77_newdata` calls that returned true
is at most the number of ticks that committed a frame; and on every state the second of
two consecutive `dcf77_newdata` calls with no tick in between returns false, so the two
never both return true. -/
theorem true_polls_le_commits (acts : List Action) (s : State) :
    true_polls State.init acts ≤ commits State.init acts ∧
    (dcf77_newdata (dcf77_newdata s).2).1 = FALSE := by
  refine ⟨?_, ?_⟩
  · have h := true_polls_le acts State.init
    have z : State.init.dcf77_newdata_b = 0 := rfl
    rw [z] at h
    simpa using h
  · show _ = 0
    by_contra h
    exact ((newdata_fst_ne_zero_iff _).mp h).2 rfl

/-! ## C14: the debouncer -/

theorem disagreeing_snoc (L : Nat) (tr : List Bool) (p : Bool) :
    disagreeing L (tr ++ [p]) = if p.toNat ≠ L then disagreeing L tr + 1 else 0 := by
  unfold disagreeing
  rw [List.reverse_append, List.reverse_singleton, List.singleton_append,
    List.takeWhile_cons]
  by_cases h : p.toNat ≠ L
  · simp [h]
  · simp [h]

/-- What one tick does to the debouncer. -/
theorem tick_debouncer (s : State) (pin : Bool) :
    (dcf77_1ms_task s pin).pindeb_b =
      (if pin.toNat = s.pindeb_b then s.pindeb_b
        else if (s.debcnt + 1) % 256 ≥ 35 then pin.toNat else s.pindeb_b) ∧
    (dcf77_1ms_task s pin).debcnt =
      (if pin.toNat = s.pindeb_b then 0
        else if (s.debcnt + 1) % 256 ≥ 35 then 0 else (s.debcnt + 1) % 256) := by
  have hp : (pre_edge s pin).pindeb_b =
      (if pin.toNat = s.pindeb_b then s.pindeb_b
        else if (s.debcnt + 1) % 256 ≥ 35 then pin.toNat else s.pindeb_b) ∧
      (pre_edge s pin).debcnt =
      (if pin.toNat = s.pindeb_b then 0
        else if (s.debcnt + 1) % 256 ≥ 35 then 0 else (s.debcnt + 1) % 256) := by
    unfold pre_edge debounce DCF77_DEBOUNCE_TIME
    simp only []
    split_ifs <;> exact ⟨rfl, rfl⟩
  rw [← hp.1, ← hp.2, tick_eq]
  split_ifs
  · exact ⟨(falling_edge_pins _).1, (falling_edge_pins _).2.1⟩
  · exact ⟨(rising_edge_pins _).1, (rising_edge_pins _).2.1⟩
  · exact ⟨rfl, rfl⟩

theorem run_actions_append (s : State) (a b : List Action) :
    run_actions s (a ++ b) = run_actions (run_actions s a) b := by
  unfold run_actions
  rw [List.foldl_append]

theorem samples_append (a b : List Action) : samples (a ++ b) = samples a ++ samples b := by
  induction a with
  | nil => rfl
  | cons x a ih =>
    cases x with
    | tick pin => simp [samples, ih]
    | poll => simp [samples, ih]

theorem run_actions_ticks (s : State) (tr : List Bool) :
    run_actions s (tr.map Action.tick) = run s tr := by
  induction tr generalizing s with
  | nil => rfl
  | cons p tr ih => exact ih (dcf77_1ms_task s p)

theorem samples_ticks (tr : List Bool) : samples (tr.map Action.tick) = tr := by
  induction tr with
  | nil => rfl
  | cons p tr ih => simp [samples, ih]

/-- Every reachable state is the result of an interleaving, and conversely. -/
theorem reachable_iff_actions (s : State) :
    Reachable s ↔ ∃ acts, s = run_actions State.init acts := by
  constructor
  · intro h
    induction h with
    | init => exact ⟨[], rfl⟩
    | tick s pin _ ih =>
      obtain ⟨acts, e⟩ := ih
      exact ⟨acts ++ [Action.tick pin], by rw [run_actions_append, ← e]; rfl⟩
    | poll s _ ih =>
      obtain ⟨acts, e⟩ := ih
      exact ⟨acts ++ [Action.poll], by rw [run_actions_append, ← e]; rfl⟩
  · rintro ⟨acts, rfl⟩
    induction acts using List.reverseRecOn with
    | nil => exact Reachable.init
    | append_singleton acts a ih =>
      rw [run_actions_append]
      cases a with
      | tick pin => exact Reachable.tick _ pin ih
      | poll => exact Reachable.poll _ ih

/-- The debounce counter is the length of the run of raw samples, up to now, that differ
from the debounced level; it stays below the debounce time. -/
theorem debouncer_inv (acts : List Action) :
    (run_actions State.init acts).pindeb_b ≤ 1 ∧
    (run_actions State.init acts).debcnt
      = disagreeing (run_actions State.init acts).pindeb_b (samples acts) ∧
    (run_actions State.init acts).debcnt ≤ 34 := by
  induction acts using List.reverseRecOn with
  | nil => exact ⟨by decide, rfl, by decide⟩
  | append_singleton acts a ih =>
    obtain ⟨i1, i2, i3⟩ := ih
    rw [run_actions_append, samples_append]
    cases a with
    | poll =>
      show (dcf77_newdata (run_actions State.init acts)).2.pindeb_b ≤ 1 ∧
        (dcf77_newdata (run_actions State.init acts)).2.debcnt
          = disagreeing (dcf77_newdata (run_actions State.init acts)).2.pindeb_b
              (samples acts ++ []) ∧
        (dcf77_newdata (run_actions State.init acts)).2.debcnt ≤ 34
      rw [List.append_nil]
      exact ⟨i1, i2, i3⟩
    | tick pin =>
      show (dcf77_1ms_task (run_actions State.init acts) pin).pindeb_b ≤ 1 ∧
        (dcf77_1ms_task (run_actions State.init acts) pin).debcnt
          = disagreeing (dcf77_1ms_task (run_actions State.init acts) pin).pindeb_b
              (samples acts ++ [pin]) ∧
        (dcf77_1ms_task (run_actions State.init acts) pin).debcnt ≤ 34
      obtain ⟨t1, t2⟩ := tick_debouncer (run_actions State.init acts) pin
      rw [t1, t2, disagreeing_snoc]
      have hb : pin.toNat ≤ 1 := by cases pin <;> decide
      generalize (run_actions State.init acts).pindeb_b = L at *
      generalize (run_actions State.init acts).debcnt = d at *
      by_cases e : pin.toNat = L
      · simp only [if_pos e]
        refine ⟨i1, ?_, by omega⟩
        rw [if_neg (by simpa using e)]
      · simp only [if_neg e]
        by_cases f : (d + 1) % 256 ≥ 35
        · simp only [if_pos f]
          refine ⟨hb, ?_, by omega⟩
          rw [if_neg (by simp)]
        · simp only [if_neg f]
          refine ⟨i1, ?_, by omega⟩
          rw [if_pos e, ← i2]
          omega

/-- A raw level held long enough is adopted. -/
theorem hold_adopted (pin : Bool) (n : Nat) (s : State) (h1 : s.debcnt ≤ 34)
    (h2 : s.pindeb_b = pin.toNat ∨ 35 ≤ s.debcnt + n) :
    (run s (List.replicate n pin)).pindeb_b = pin.toNat := by
  induction n generalizing s with
  | zero =>
    rcases h2 with h | h
    · exact h
    · omega
  | succ n ih =>
    rw [List.replicate_succ]
    show (run (dcf77_1ms_task s pin) (List.replicate n pin)).pindeb_b = pin.toNat
    obtain ⟨t1, t2⟩ := tick_debouncer s pin
    by_cases e : pin.toNat = s.pindeb_b
    · rw [if_pos e] at t1 t2
      exact ih _ (by omega) (Or.inl (by rw [t1, e]))
    · rw [if_neg e] at t1 t2
      by_cases f : (s.debcnt + 1) % 256 ≥ 35
      · rw [if_pos f] at t1 t2
        exact ih _ (by omega) (Or.inl t1)
      · rw [if_neg f] at t1 t2
        refine ih _ (by omega) (Or.inr ?_)
        rcases h2 with h | h
        · exact absurd h.symm e
        · omega

/-- C14. Let `s` be the state after any interleaving of ticks and `dcf77_newdata` calls
from the initial state (these are the reachable states).  A tick with raw sample `pin`
changes the debounced level exactly when `pin` is the 35th consecutive raw sample that
differs from the debounced level of `s`, and the debounced level is then `pin`.  A raw
level held for at least 35 consecutive ticks from `s` is the debounced level afterwards;
and a raw trace fed to `s` during which the run of consecutive disagreeing samples never
reaches 35 leaves the debounced level as it is in `s`. -/
theorem debouncer_characterisation (acts : List Action) (pin : Bool) (n : Nat)
    (tr : List Bool) :
    ((dcf77_1ms_task (run_actions State.init acts) pin).pindeb_b
        ≠ (run_actions State.init acts).pindeb_b
      ↔ disagreeing (run_actions State.init acts).pindeb_b (samples acts ++ [pin]) = 35) ∧
    ((dcf77_1ms_task (run_actions State.init acts) pin).pindeb_b
        ≠ (run_actions State.init acts).pindeb_b
      → (dcf77_1ms_task (run_actions State.init acts) pin).pindeb_b = pin.toNat) ∧
    (35 ≤ n →
      (run (run_actions State.init acts) (List.replicate n pin)).pindeb_b = pin.toNat) ∧
    ((∀ k, k ≤ tr.length →
        disagreeing (run_actions State.init acts).pindeb_b (samples acts ++ tr.take k) < 35)
      → (run (run_actions State.init acts) tr).pindeb_b
          = (run_actions State.init acts).pindeb_b) := by
  have step : ∀ (acts : List Action) (pin : Bool),
      ((dcf77_1ms_task (run_actions State.init acts) pin).pindeb_b
          ≠ (run_actions State.init acts).pindeb_b
        ↔ disagreeing (run_actions State.init acts).pindeb_b (samples acts ++ [pin]) = 35) ∧
      ((dcf77_1ms_task (run_actions State.init acts) pin).pindeb_b
          ≠ (run_actions State.init acts).pindeb_b
        → (dcf77_1ms_task (run_actions State.init acts) pin).pindeb_b = pin.toNat) := by
    intro acts pin
    obtain ⟨i1, i2, i3⟩ := debouncer_inv acts
    obtain ⟨t1, -⟩ := tick_debouncer (run_actions State.init acts) pin
    rw [t1, disagreeing_snoc, ← i2]
    generalize (run_actions State.init acts).pindeb_b = L at *
    generalize (run_actions State.init acts).debcnt = d at *
    by_cases e : pin.toNat = L
    · simp [e]
    · simp only [if_neg e]
      by_cases f : (d + 1) % 256 ≥ 35
      · simp only [if_pos f, if_pos e]
        exact ⟨⟨fun _ => by omega, fun _ => e⟩, fun _ => trivial⟩
      · simp only [if_neg f, if_pos e]
        constructor
        · constructor
          · intro c
            exact absurd rfl c
          · intro c
            omega
        · intro c
          exact absurd rfl c
  refine ⟨(step acts pin).1, (step acts pin).2, ?_, ?_⟩
  · intro hn
    exact hold_adopted pin n _ (debouncer_inv acts).2.2 (Or.inr (by omega))
  · induction tr using List.reverseRecOn with
    | nil => intro _; rfl
    | append_singleton tr p ih =>
      intro h
      have h1 : (run (run_actions State.init acts) tr).pindeb_b
          = (run_actions State.init acts).pindeb_b := by
        apply ih
        intro k hk
        have := h k (by rw [List.length_append]; omega)
        rwa [List.take_append_of_le_length hk] at this
      have h2 := h (tr ++ [p]).length (Nat.le_refl _)
      rw [List.take_length] at h2
      have e1 : run (run_actions State.init acts) (tr ++ [p])
          = dcf77_1ms_task (run_actions State.init (acts ++ tr.map Action.tick)) p := by
        rw [run_actions_append, run_actions_ticks]
        unfold run
        rw [List.foldl_append]
        rfl
      have e2 : run_actions State.init (acts ++ tr.map Action.tick)
          = run (run_actions State.init acts) tr := by
        rw [run_actions_append, run_actions_ticks]
      have st := (step (acts ++ tr.map Action.tick) p).1
      rw [samples_append, samples_ticks, e2, h1, List.append_assoc] at st
      rw [e1, e2]
      by_contra c
      have := st.mp c
      omega

section traces6
set_option maxRecDepth 100000

theorem debouncer_characterisation_witness :
    (35 ≤ 35 ∧
      (∀ k, k ≤ [true, false, true].length →
        disagreeing (run_actions State.init []).pindeb_b
          (samples [] ++ [true, false, true].take k) < 35) ∧
      disagreeing (run_actions State.init ((List.replicate 34 true).map Action.tick)).pindeb_b
        (samples ((List.replicate 34 true).map Action.tick) ++ [true]) = 35) ∧
    (run (run_actions State.init []) (List.replicate 35 true)).pindeb_b = true.toNat ∧
    (run (run_actions State.init []) [true, false, true]).pindeb_b
      = (run_actions State.init []).pindeb_b ∧
    (dcf77_1ms_task (run_actions State.init ((List.replicate 34 true).map Action.tick))
        true).pindeb_b
      ≠ (run_actions State.init ((List.replicate 34 true).map Action.tick)).pindeb_b :=
  ⟨⟨by decide, by decide, by decide⟩,
    (debouncer_characterisation [] true 35 [true, false, true]).2.2.1 (by decide),
    (debouncer_characterisation [] true 35 [true, false, true]).2.2.2 (by decide),
    (debouncer_characterisation ((List.replicate 34 true).map Action.tick) true 35
      [true, false, true]).1.mpr (by decide)⟩

end traces6

/-! ## C20: the interval counter wraps -/

/-- A tick reads the counter only through its incremented value modulo 65536. -/
theorem tick_cnt_congr (u : State) (c : Nat) (pin : Bool)
    (h : (c + 1) % 65536 = (u.dcf77_cntms_u16 + 1) % 65536) :
    dcf77_1ms_task { u with dcf77_cntms_u16 := c } pin = dcf77_1ms_task u pin := by
  unfold dcf77_1ms_task
  simp only [h]

/-- The counter after one tick. -/
theorem tick_cnt (u : State) (p : Bool) :
    (dcf77_1ms_task u p).dcf77_cntms_u16
      = if edge_tick u p then 0 else (u.dcf77_cntms_u16 + 1) % 65536 := by
  unfold edge_tick
  by_cases he : (pre_edge u p).dcf77_pinold_b ≠ (pre_edge u p).pindeb_b
  · rw [if_pos he]
    by_cases hf : (pre_edge u p).pindeb_b = FALSE
    · rw [tick_falling u p ⟨he, hf⟩]
    · rw [tick_rising u p ⟨he, hf⟩]
  · rw [if_neg he, tick_quiet u p (by simpa using he)]
    exact pre_edge_cnt u p

theorem no_edge_append (s : State) (a b : List Bool) :
    no_edge s (a ++ b) = (no_edge s a && no_edge (run s a) b) := by
  induction a generalizing s with
  | nil => rfl
  | cons p a ih =>
    show (!decide (edge_tick s p) && no_edge (dcf77_1ms_task s p) (a ++ b)) = _
    rw [ih]
    show _ = ((!decide (edge_tick s p) && no_edge (dcf77_1ms_task s p) a)
      && no_edge (run (dcf77_1ms_task s p) a) b)
    rw [Bool.and_assoc]

/-- Without an edge the counter counts the ticks modulo 65536. -/
theorem run_cnt_no_edge (tr : List Bool) (s : State) (hq : no_edge s tr = true)
    (hc : s.dcf77_cntms_u16 < 65536) :
    (run s tr).dcf77_cntms_u16 = (s.dcf77_cntms_u16 + tr.length) % 65536 := by
  induction tr generalizing s with
  | nil =>
    show s.dcf77_cntms_u16 = (s.dcf77_cntms_u16 + 0) % 65536
    omega
  | cons p tr ih =>
    have hq2 : (!decide (edge_tick s p) && no_edge (dcf77_1ms_task s p) tr) = true := hq
    rw [Bool.and_eq_true] at hq2
    obtain ⟨q1, q2⟩ := hq2
    have ne : ¬ edge_tick s p := by simpa using q1
    have c1 := tick_cnt s p
    rw [if_neg ne] at c1
    show (run (dcf77_1ms_task s p) tr).dcf77_cntms_u16 = _
    rw [ih _ q2 (by omega), c1, List.length_cons]
    omega

/-- A tick whose raw sample agrees with the settled debounced level: no edge, the counter
is incremented modulo 65536. -/
theorem tick_same_mod (s : State) (pin : Bool) (h1 : Settled s pin.toNat) :
    ¬ edge_tick s pin ∧
    dcf77_1ms_task s pin = { s with dcf77_cntms_u16 := (s.dcf77_cntms_u16 + 1) % 65536 } := by
  obtain ⟨po, nd, bp, c, tmp, d, sy, dc, pd⟩ := s
  obtain ⟨a1, a2, a3⟩ := h1
  simp only at a1 a2 a3
  subst a1 a2 a3
  simp [dcf77_1ms_task, edge_tick, pre_edge, debounce]

/-- A tick whose raw sample disagrees, before the debounce time is reached: no edge. -/
theorem tick_wait_mod (s : State) (pin : Bool)
    (h1 : s.dcf77_pinold_b = s.pindeb_b) (h2 : pin.toNat ≠ s.pindeb_b)
    (h3 : s.debcnt + 1 < 35) :
    ¬ edge_tick s pin ∧
    dcf77_1ms_task s pin =
      { s with dcf77_cntms_u16 := (s.dcf77_cntms_u16 + 1) % 65536, debcnt := s.debcnt + 1 } := by
  obtain ⟨po, nd, bp, c, tmp, d, sy, dc, pd⟩ := s
  simp only at h1 h2 h3
  subst h1
  have e : (dc + 1) % 256 = dc + 1 := by omega
  have n : ¬ (DCF77_DEBOUNCE_TIME ≤ dc + 1) := by
    unfold DCF77_DEBOUNCE_TIME
    omega
  simp [dcf77_1ms_task, edge_tick, pre_edge, debounce, h2, e, n]

/-- Raw samples that agree with the settled level, for any length of time. -/
theorem run_same_mod (n : Nat) (s : State) (pin : Bool) (h1 : Settled s pin.toNat)
    (hc : s.dcf77_cntms_u16 < 65536) :
    no_edge s (List.replicate n pin) = true ∧
    run s (List.replicate n pin)
      = { s with dcf77_cntms_u16 := (s.dcf77_cntms_u16 + n) % 65536 } := by
  induction n generalizing s with
  | zero =>
    refine ⟨rfl, ?_⟩
    show s = { s with dcf77_cntms_u16 := (s.dcf77_cntms_u16 + 0) % 65536 }
    rw [Nat.add_zero, Nat.mod_eq_of_lt hc]
  | succ n ih =>
    obtain ⟨t1, t2⟩ := tick_same_mod s pin h1
    rw [List.replicate_succ]
    show (!decide (edge_tick s pin) && no_edge (dcf77_1ms_task s pin) (List.replicate n pin))
        = true ∧ run (dcf77_1ms_task s pin) (List.replicate n pin) = _
    rw [t2]
    obtain ⟨i1, i2⟩ := ih { s with dcf77_cntms_u16 := (s.dcf77_cntms_u16 + 1) % 65536 } h1
      (by simp only []; omega)
    rw [i1, i2]
    refine ⟨by simpa using t1, ?_⟩
    have e : ((s.dcf77_cntms_u16 + 1) % 65536 + n) % 65536
        = (s.dcf77_cntms_u16 + (n + 1)) % 65536 := by omega
    simp only [e]

/-- Fewer than 35 raw samples that disagree: no edge. -/
theorem run_wait_mod (n : Nat) (s : State) (pin : Bool)
    (h1 : s.dcf77_pinold_b = s.pindeb_b) (h2 : pin.toNat ≠ s.pindeb_b)
    (h3 : s.debcnt + n < 35) (hc : s.dcf77_cntms_u16 < 65536) :
    no_edge s (List.replicate n pin) = true ∧
    run s (List.replicate n pin)
      = { s with
          dcf77_cntms_u16 := (s.dcf77_cntms_u16 + n) % 65536
          debcnt := s.debcnt + n } := by
  induction n generalizing s with
  | zero =>
    refine ⟨rfl, ?_⟩
    show s = { s with dcf77_cntms_u16 := (s.dcf77_cntms_u16 + 0) % 65536,
                      debcnt := s.debcnt + 0 }
    simp only [Nat.add_zero, Nat.mod_eq_of_lt hc]
  | succ n ih =>
    obtain ⟨t1, t2⟩ := tick_wait_mod s pin h1 h2 (by omega)
    rw [List.replicate_succ]
    show (!decide (edge_tick s pin) && no_edge (dcf77_1ms_task s pin) (List.replicate n pin))
        = true ∧ run (dcf77_1ms_task s pin) (List.replicate n pin) = _
    rw [t2]
    obtain ⟨i1, i2⟩ := ih { s with dcf77_cntms_u16 := (s.dcf77_cntms_u16 + 1) % 65536,
                                   debcnt := s.debcnt + 1 } h1 h2
      (by simp only []; omega) (by simp only []; omega)
    rw [i1, i2]
    refine ⟨by simpa using t1, ?_⟩
    have e : ((s.dcf77_cntms_u16 + 1) % 65536 + n) % 65536
        = (s.dcf77_cntms_u16 + (n + 1)) % 65536 := by omega
    have e2 : s.debcnt + 1 + n = s.debcnt + (n + 1) := by omega
    simp only [e, e2]

/-- The level is held for `a` ms and the opposite level for 34 ms: no edge yet, the
counter has wrapped as often as needed. -/
theorem hold_then_flip (a : Nat) (s : State) (pin : Bool) (h1 : Settled s (!pin).toNat)
    (h0 : s.dcf77_cntms_u16 = 0) :
    no_edge s (List.replicate a (!pin) ++ List.replicate 34 pin) = true ∧
    run s (List.replicate a (!pin) ++ List.replicate 34 pin)
      = { s with dcf77_cntms_u16 := (a + 34) % 65536, debcnt := 34 } := by
  obtain ⟨r1, r2⟩ := run_same_mod a s (!pin) h1 (by omega)
  obtain ⟨a1, a2, a3⟩ := h1
  have hne : pin.toNat ≠ (!pin).toNat := by cases pin <;> decide
  obtain ⟨w1, w2⟩ := run_wait_mod 34
    { s with dcf77_cntms_u16 := (s.dcf77_cntms_u16 + a) % 65536 } pin
    (by simp only []; rw [a1, a2]) (by simp only []; rw [a1]; exact hne)
    (by simp only []; omega) (by simp only []; omega)
  have ra : run s (List.replicate a (!pin) ++ List.replicate 34 pin)
      = run (run s (List.replicate a (!pin))) (List.replicate 34 pin) := by
    unfold run
    rw [List.foldl_append]
  rw [no_edge_append, r1, ra, r2, w1, w2]
  refine ⟨rfl, ?_⟩
  have e : ((s.dcf77_cntms_u16 + a) % 65536 + 34) % 65536 = (a + 34) % 65536 := by omega
  simp only [e, a3]

/-- The 35th HIGH sample on a settled LOW level is a rising edge. -/
theorem rising_tick_flip (s : State) (h1 : s.dcf77_pinold_b = s.pindeb_b)
    (h2 : s.pindeb_b = 0) (h3 : s.debcnt = 34) (h4 : s.dcf77_cntms_u16 + 1 < 65536) :
    rising_tick s true := by
  have hp := pre_edge_flip s true (by simp [h2]) h3 h4
  unfold rising_tick
  rw [hp]
  refine ⟨?_, ?_⟩
  · simp [h1, h2]
  · simp [FALSE]

/-- C20. The millisecond counter after a tick is 0 when the tick handled a debounced
edge and the old counter plus one modulo 65536 otherwise.  So when the counter was
reset in state `s` (by the previous edge) and the ticks of `tr` handle no edge, the tick
after them, tick number n = `tr.length + 1` since that reset, measures the interval
n mod 65536: a falling or rising edge on it is handled by the edge branch run on the
counter value n mod 65536, and the tick does what it would do had the counter any other
value `c` with `c + 1` congruent to n modulo 65536.  A rising edge measured at
65636 mod 65536 is classified as a logical 0 and a falling edge measured at
67336 mod 65536 is a minute marker. -/
theorem interval_wraps (s : State) (tr : List Bool) (pin : Bool)
    (h0 : s.dcf77_cntms_u16 = 0) (hq : no_edge s tr = true) :
    (∀ (u : State) (p : Bool), (dcf77_1ms_task u p).dcf77_cntms_u16
        = if edge_tick u p then 0 else (u.dcf77_cntms_u16 + 1) % 65536) ∧
    interval (run s tr) = (tr.length + 1) % 65536 ∧
    (falling_tick (run s tr) pin →
      dcf77_1ms_task (run s tr) pin =
        { falling_edge { pre_edge (run s tr) pin with
                         dcf77_cntms_u16 := (tr.length + 1) % 65536 } with
          dcf77_cntms_u16 := 0
          dcf77_pinold_b := (pre_edge (run s tr) pin).pindeb_b }) ∧
    (rising_tick (run s tr) pin →
      dcf77_1ms_task (run s tr) pin =
        { rising_edge { pre_edge (run s tr) pin with
                        dcf77_cntms_u16 := (tr.length + 1) % 65536 } with
          dcf77_cntms_u16 := 0
          dcf77_pinold_b := (pre_edge (run s tr) pin).pindeb_b }) ∧
    (∀ c, (c + 1) % 65536 = (tr.length + 1) % 65536 →
      dcf77_1ms_task { run s tr with dcf77_cntms_u16 := c } pin
        = dcf77_1ms_task (run s tr) pin) ∧
    rise_event (65636 % 65536) = Event.bit 0 ∧
    fall_event (67336 % 65536) = Event.marker := by
  have hi : interval (run s tr) = (tr.length + 1) % 65536 := by
    unfold interval
    rw [run_cnt_no_edge tr s hq (by omega), h0]
    omega
  have hp : { pre_edge (run s tr) pin with dcf77_cntms_u16 := (tr.length + 1) % 65536 }
      = pre_edge (run s tr) pin := by
    rw [← hi, ← pre_edge_cnt (run s tr) pin]
  refine ⟨tick_cnt, hi, ?_, ?_, ?_, by decide, by decide⟩
  · intro hf
    rw [hp, tick_falling _ _ hf, (falling_edge_pins _).1]
  · intro hr
    rw [hp, tick_rising _ _ hr, (rising_edge_pins _).1]
  · intro c hc
    exact tick_cnt_congr (run s tr) c pin (by rw [hc]; exact hi.symm)

theorem late_trace_lengths :
    late_rise_trace.length = 65635 ∧ late_fall_trace.length = 67335 := by
  unfold late_rise_trace late_fall_trace
  rw [List.length_append, List.length_replicate, List.length_replicate,
    List.length_append, List.length_replicate, List.length_replicate]
  exact ⟨rfl, rfl⟩

theorem late_rise_run :
    no_edge state_after_fall late_rise_trace = true ∧
    run state_after_fall late_rise_trace
      = { state_after_fall with dcf77_cntms_u16 := 99, debcnt := 34 } :=
  hold_then_flip 65601 state_after_fall true ⟨rfl, rfl, rfl⟩ rfl

theorem late_fall_run :
    no_edge state_after_rise late_fall_trace = true ∧
    run state_after_rise late_fall_trace
      = { state_after_rise with dcf77_cntms_u16 := 1799, debcnt := 34 } :=
  hold_then_flip 67301 state_after_rise false ⟨rfl, rfl, rfl⟩ rfl

theorem interval_wraps_witness :
    (state_after_fall.dcf77_cntms_u16 = 0 ∧
      no_edge state_after_fall late_rise_trace = true ∧
      late_rise_trace.length + 1 = 65636 ∧
      rising_tick (run state_after_fall late_rise_trace) true) ∧
    dcf77_1ms_task (run state_after_fall late_rise_trace) true
      = { state_after_fall with
          pindeb_b := 1
          dcf77_pinold_b := 1
          dfc77_datatmp_au8 := store_bit frame_S1 5 0
          dcf77_bitpos_u8 := 6 } ∧
    (state_after_rise.dcf77_cntms_u16 = 0 ∧
      no_edge state_after_rise late_fall_trace = true ∧
      late_fall_trace.length + 1 = 67336 ∧
      falling_tick (run state_after_rise late_fall_trace) false) ∧
    dcf77_1ms_task (run state_after_rise late_fall_trace) false
      = { state_after_rise with
          pindeb_b := 0
          dcf77_pinold_b := 0
          dcf77_sync_u8 := DCF77_SYNC_OK
          dcf77_data_au8 := frame_S1
          dcf77_newdata_b := TRUE
          dcf77_bitpos_u8 := 0 } := by
  obtain ⟨l1, l2⟩ := late_trace_lengths
  obtain ⟨q1, r1⟩ := late_rise_run
  obtain ⟨q2, r2⟩ := late_fall_run
  have hr : rising_tick (run state_after_fall late_rise_trace) true := by
    rw [r1]
    exact rising_tick_flip _ rfl rfl rfl (by decide)
  have hf : falling_tick (run state_after_rise late_fall_trace) false := by
    rw [r2]
    exact falling_tick_flip _ rfl (by decide) rfl (by decide)
  have w1 := (interval_wraps state_after_fall late_rise_trace true rfl q1).2.2.2.1 hr
  have w2 := (interval_wraps state_after_rise late_fall_trace false rfl q2).2.2.1 hf
  rw [l1, r1] at w1
  rw [l2, r2] at w2
  refine ⟨⟨rfl, q1, by rw [l1], hr⟩, ?_, ⟨rfl, q2, by rw [l2], hf⟩, ?_⟩
  · rw [r1, w1]
    decide
  · rw [r2, w2]
    decide

end DCF77
